import Mathlib

/-!
AI-Healthops: the counter-delta sampler `PerformanceStats::GetStats`

A shallow embedding of `proc_stats.h` / `proc_stats.cpp`, and of three parts of
`mainwindow.cpp`: the report loader `MainWindow::openFile`, the polling loop of the stats
thread, and `MainWindow::updateEventsTableWithRealData`.

* 64-bit unsigned integers (`quint64`, `ULARGE_INTEGER::QuadPart`, `ULONGLONG`) are natural
  numbers with an explicit reduction modulo `2 ^ 64` where the source subtracts.
* `double` values are modelled exactly: a finite double is the rational number it denotes, and
  every arithmetic operation rounds its exact result to 53 significant bits, ties to even.
  The exponent range of binary64 is not modelled; the doubles of `GetStats` are quotients and
  products of 64-bit counters and lie between `2 ^ (-64)` and `2 ^ 71`, far inside it
  (`doubles_in_normal_range`).
* A field of `Stats` is an `Option Nat`: `none` stands for a value the language leaves
  indeterminate (the field was never assigned, or it was assigned the conversion of a double
  that `quint64` cannot represent).
* The sampler is a state-passing function: the operating-system answers of one call are an
  explicit argument.
* The report loader is a function on the part of the window it touches; the answers of the
  file dialog and of the file system are explicit arguments, and the JSON parser of the Qt
  library is a parameter. A byte array is the list of its bytes.
* The polling loop is a step function on its local variables and the chart series, one step
  for each pass; the series is the list of its points, and the events table the list of its
  rows.
* The `try` statement of `GetStats` is modelled a second time with its exceptions
  (`GetStatsGuarded`): a query of the system may raise instead of returning, and the result
  says whether an exception reaches the caller.
-/

namespace AIHealthops

/-! ## Machine integers -/

/-- Subtraction of two `ULONGLONG` values, as the hardware does it: modulo `2 ^ 64`. -/
def sub64 (a b : Nat) : Nat := (a % 2 ^ 64 + 2 ^ 64 - b % 2 ^ 64) % 2 ^ 64

/-! ## binary64 arithmetic -/

/-- Nearest integer of a rational, a tie going to the even neighbour. -/
def roundHalfEven (t : ℚ) : ℤ :=
  let f := ⌊t⌋
  let r := t - f
  if r < 1 / 2 then f
  else if 1 / 2 < r then f + 1
  else if f % 2 = 0 then f else f + 1

/-- Unit in the last place of the binade of `x`: with `2 ^ e ≤ |x| < 2 ^ (e + 1)` it is
`2 ^ (e - 52)`, so that `x / ulp x` has 53 binary digits. -/
def ulp (x : ℚ) : ℚ := (2 : ℚ) ^ (Int.log 2 |x| - 52)

/-- Rounding of an exact result to the nearest double (53 significant bits, ties to even). -/
def rnd (x : ℚ) : ℚ := (roundHalfEven (x / ulp x) : ℚ) * ulp x

/-- Truncation toward zero, the rounding of a floating-integral conversion. -/
def truncQ (q : ℚ) : ℤ := if 0 ≤ q then ⌊q⌋ else ⌈q⌉

/-- Values of type `double` that `GetStats` can hold. Its operands are conversions of unsigned
integers, so no negative infinity arises. -/
inductive Dbl where
  | fin (q : ℚ)
  | inf
  | nan
  deriving DecidableEq

namespace Dbl

/-- Conversion `(double)n` of an unsigned 64-bit integer. -/
def ofU64 (n : Nat) : Dbl := fin (rnd (n : ℚ))

/-- Value of a decimal literal of the source, such as `0.001` or `100.0`. -/
def lit (q : ℚ) : Dbl := fin (rnd q)

/-- Floating-point division `a / b`; a finite non-zero dividend over zero gives infinity. -/
def div : Dbl → Dbl → Dbl
  | fin a, fin b => if b = 0 then (if a = 0 then nan else inf) else fin (rnd (a / b))
  | fin _, inf => fin 0
  | inf, fin _ => inf
  | _, _ => nan

/-- Floating-point multiplication `a * b`. -/
def mul : Dbl → Dbl → Dbl
  | fin a, fin b => fin (rnd (a * b))
  | fin a, inf => if a = 0 then nan else inf
  | inf, fin b => if b = 0 then nan else inf
  | inf, inf => inf
  | _, _ => nan

/-- Comparison `a > b`; false as soon as an operand is not a number. -/
def gt : Dbl → Dbl → Bool
  | fin a, fin b => decide (b < a)
  | inf, fin _ => true
  | _, _ => false

/-- Conversion `static_cast<quint64>(d)`: the value truncated toward zero when `quint64` can
represent it, and no defined value otherwise. -/
def toU64 : Dbl → Option Nat
  | fin q => if 0 ≤ truncQ q ∧ truncQ q < 2 ^ 64 then some (truncQ q).toNat else none
  | _ => none

end Dbl

/-! ## The records of `proc_stats.h` and of the Windows API -/

/-- Win32 `IO_COUNTERS`, six `ULONGLONG` counters. -/
structure IO_COUNTERS where
  ReadOperationCount : Nat
  WriteOperationCount : Nat
  OtherOperationCount : Nat
  ReadTransferCount : Nat
  WriteTransferCount : Nat
  OtherTransferCount : Nat
  deriving DecidableEq

/-- Win32 `PROCESS_MEMORY_COUNTERS` without its `cb` size field. -/
structure PROCESS_MEMORY_COUNTERS where
  PageFaultCount : Nat
  PeakWorkingSetSize : Nat
  WorkingSetSize : Nat
  QuotaPeakPagedPoolUsage : Nat
  QuotaPagedPoolUsage : Nat
  QuotaPeakNonPagedPoolUsage : Nat
  QuotaNonPagedPoolUsage : Nat
  PagefileUsage : Nat
  PeakPagefileUsage : Nat
  deriving DecidableEq

/-- Record `Stats` of `proc_stats.h`: seventeen `quint64` fields, `none` where the value is
indeterminate. -/
structure Stats where
  IO_IOPS_READ : Option Nat
  IO_IOPS_WRITE : Option Nat
  IO_BYTESREADPERSEC : Option Nat
  IO_BYTESWRITEPERSEC : Option Nat
  IO_TOTALBYTESREAD : Option Nat
  IO_TOTALBYTESWRITE : Option Nat
  CPU_KERNPERCENT : Option Nat
  CPU_USERPERCENT : Option Nat
  CPU_KERNTOTAL : Option Nat
  CPU_USERTOTAL : Option Nat
  PROC_PAGEFAULTCOUNT : Option Nat
  PROC_WORKINGSETSIZE : Option Nat
  PROC_PEAKWORKINGSETSIZE : Option Nat
  PROC_PAGEFILEUSAGE : Option Nat
  PROC_QUOTAPAGEDPOOLUSAGE : Option Nat
  PROC_QUOTANONPAGEDPOOLUSAGE : Option Nat
  PROC_QUOTAPEAKNONPAGEDPOOLUSAGE : Option Nat
  deriving DecidableEq

/-- The local `Stats stats;` of `GetStats` right after its declaration: the struct has no
initialisers, every field is indeterminate. -/
def Stats.uninitialised : Stats :=
  { IO_IOPS_READ := none, IO_IOPS_WRITE := none, IO_BYTESREADPERSEC := none,
    IO_BYTESWRITEPERSEC := none, IO_TOTALBYTESREAD := none, IO_TOTALBYTESWRITE := none,
    CPU_KERNPERCENT := none, CPU_USERPERCENT := none, CPU_KERNTOTAL := none,
    CPU_USERTOTAL := none, PROC_PAGEFAULTCOUNT := none, PROC_WORKINGSETSIZE := none,
    PROC_PEAKWORKINGSETSIZE := none, PROC_PAGEFILEUSAGE := none,
    PROC_QUOTAPAGEDPOOLUSAGE := none, PROC_QUOTANONPAGEDPOOLUSAGE := none,
    PROC_QUOTAPEAKNONPAGEDPOOLUSAGE := none }

/-- Data members of `struct PerformanceStats`. The handle `hProc` is a number, `0` being
`nullptr`. -/
structure PerformanceStats where
  pid_ : Int
  stats_query_interval_ : Int
  hProc : Nat
  prev_io_counters : IO_COUNTERS
  prev_kern_time : Nat
  prev_user_time : Nat
  prev_system_time : Nat
  deriving DecidableEq

/-- What the operating system answers during one call of `GetStats`.
`now` is the `FILETIME` of `GetSystemTimeAsFileTime`; `kernel` and `user` are the contents of
`fsys` and `fuser` after `GetProcessTimes`, whose return value the source does not test;
`memInfo` and `ioCounters` are `none` when `GetProcessMemoryInfo` respectively
`GetProcessIoCounters` report failure. -/
structure OsReading where
  now : Nat
  kernel : Nat
  user : Nat
  memInfo : Option PROCESS_MEMORY_COUNTERS
  ioCounters : Option IO_COUNTERS
  deriving DecidableEq

/-- The six counters are 64-bit values. -/
def IO_COUNTERS.WellFormed (c : IO_COUNTERS) : Prop :=
  c.ReadOperationCount < 2 ^ 64 ∧ c.WriteOperationCount < 2 ^ 64 ∧
  c.OtherOperationCount < 2 ^ 64 ∧ c.ReadTransferCount < 2 ^ 64 ∧
  c.WriteTransferCount < 2 ^ 64 ∧ c.OtherTransferCount < 2 ^ 64

/-- The stored snapshot holds 64-bit values. -/
def PerformanceStats.WellFormed (self : PerformanceStats) : Prop :=
  self.prev_kern_time < 2 ^ 64 ∧ self.prev_user_time < 2 ^ 64 ∧
  self.prev_system_time < 2 ^ 64 ∧ self.prev_io_counters.WellFormed

/-- The times of a reading are 64-bit values, and so are its I/O counters when present. -/
def OsReading.WellFormed (r : OsReading) : Prop :=
  r.now < 2 ^ 64 ∧ r.kernel < 2 ^ 64 ∧ r.user < 2 ^ 64 ∧
  ∀ c, r.ioCounters = some c → c.WellFormed

/-! ## `PerformanceStats::GetStats()` -/

/-- Right-hand side that a guarded assignment of `GetStats` evaluates. -/
inductive Rhs where
  /-- the integer literal `0` -/
  | zero
  /-- the quotient `num / den` -/
  | ratio (num den : Dbl)
  /-- the expression `(num / den) * 100.0` -/
  | percent (num den : Dbl)
  deriving DecidableEq

/-- The `quint64` stored by the assignment. -/
def Rhs.value : Rhs → Option Nat
  | .zero => some 0
  | .ratio num den => Dbl.toU64 (Dbl.div num den)
  | .percent num den => Dbl.toU64 (Dbl.mul (Dbl.div num den) (Dbl.lit 100))

/-- The divisor of the floating-point division the assignment performs, if it performs one. -/
def Rhs.divisor : Rhs → Option Dbl
  | .zero => none
  | .ratio _ den => some den
  | .percent _ den => some den

/-- Lines 63-68 and 71-76: the `if`/`else` that assigns a CPU percentage. -/
def cpuPercentRhs (timeDiff systemTimeDiff : Dbl) : Rhs :=
  if Dbl.gt systemTimeDiff (Dbl.lit (1 / 1000)) && Dbl.gt timeDiff (Dbl.lit (1 / 1000)) then
    Rhs.percent timeDiff systemTimeDiff
  else
    Rhs.zero

/-- Lines 98-103 and 112-117: the `if`/`else` that assigns a byte rate; `total` is the byte
delta just stored in the record, converted to `double` for the division. -/
def ioRateRhs (total : Nat) (systemTimeDiff : Dbl) : Rhs :=
  if total ≠ 0 then Rhs.ratio (Dbl.ofU64 total) systemTimeDiff else Rhs.zero

/-- The integer `kernel.QuadPart - prev_kern_time.QuadPart` of line 53, before its cast. -/
def kernelDelta (self : PerformanceStats) (os : OsReading) : Nat :=
  sub64 os.kernel self.prev_kern_time

/-- The integer `user.QuadPart - prev_user_time.QuadPart` of line 54, before its cast. -/
def userDelta (self : PerformanceStats) (os : OsReading) : Nat :=
  sub64 os.user self.prev_user_time

/-- The integer `now.QuadPart - prev_system_time.QuadPart` of line 55, before its cast. -/
def systemDelta (self : PerformanceStats) (os : OsReading) : Nat :=
  sub64 os.now self.prev_system_time

/-- Line 53: `double kernelTimeDiff`. -/
def kernelTimeDiff (self : PerformanceStats) (os : OsReading) : Dbl :=
  Dbl.ofU64 (kernelDelta self os)

/-- Line 54: `double userTimeDiff`. -/
def userTimeDiff (self : PerformanceStats) (os : OsReading) : Dbl :=
  Dbl.ofU64 (userDelta self os)

/-- Line 55: `double systemTimeDiff`. -/
def systemTimeDiff (self : PerformanceStats) (os : OsReading) : Dbl :=
  Dbl.ofU64 (systemDelta self os)

/-- Lines 62-76: the four CPU fields. -/
def cpuStats (self : PerformanceStats) (os : OsReading) (stats : Stats) : Stats :=
  { stats with
    CPU_KERNTOTAL := Dbl.toU64 (kernelTimeDiff self os)
    CPU_KERNPERCENT := (cpuPercentRhs (kernelTimeDiff self os) (systemTimeDiff self os)).value
    CPU_USERTOTAL := Dbl.toU64 (userTimeDiff self os)
    CPU_USERPERCENT := (cpuPercentRhs (userTimeDiff self os) (systemTimeDiff self os)).value }

/-- Lines 79-88: the memory fields, assigned when the handle is not null and the query
succeeds. -/
def memStats (self : PerformanceStats) (os : OsReading) (stats : Stats) : Stats :=
  if self.hProc ≠ 0 then
    match os.memInfo with
    | some counters =>
      { stats with
        PROC_PAGEFAULTCOUNT := some counters.PageFaultCount
        PROC_PEAKWORKINGSETSIZE := some counters.PeakWorkingSetSize
        PROC_WORKINGSETSIZE := some counters.WorkingSetSize
        PROC_QUOTAPAGEDPOOLUSAGE := some counters.QuotaPagedPoolUsage
        PROC_QUOTANONPAGEDPOOLUSAGE := some counters.QuotaPeakNonPagedPoolUsage
        PROC_QUOTAPEAKNONPAGEDPOOLUSAGE := some counters.QuotaNonPagedPoolUsage
        PROC_PAGEFILEUSAGE := some counters.PagefileUsage }
    | none => stats
  else stats

/-- Line 97: the read-byte delta. -/
def totalBytesRead (prev cur : IO_COUNTERS) : Nat :=
  sub64 cur.ReadTransferCount prev.ReadTransferCount

/-- Lines 105-110: the write-byte delta. -/
def totalBytesWrite (prev cur : IO_COUNTERS) : Nat :=
  if cur.WriteTransferCount ≠ 0 then sub64 cur.WriteTransferCount prev.WriteTransferCount
  else 0

/-- Lines 92-117: the six I/O fields, from the stored and the current counters. -/
def ioStats (prev cur : IO_COUNTERS) (sysDiff : Dbl) (stats : Stats) : Stats :=
  { stats with
    IO_IOPS_READ := some (sub64 cur.ReadOperationCount prev.ReadOperationCount)
    IO_IOPS_WRITE := some (sub64 cur.WriteOperationCount prev.WriteOperationCount)
    IO_TOTALBYTESREAD := some (totalBytesRead prev cur)
    IO_BYTESREADPERSEC := (ioRateRhs (totalBytesRead prev cur) sysDiff).value
    IO_TOTALBYTESWRITE := some (totalBytesWrite prev cur)
    IO_BYTESWRITEPERSEC := (ioRateRhs (totalBytesWrite prev cur) sysDiff).value }

/-- The method `Stats PerformanceStats::GetStats()`: the record it returns and the data
members it leaves behind. No statement of its `try` block throws, so the `catch` is never
entered. -/
def GetStats (self : PerformanceStats) (os : OsReading) : Stats × PerformanceStats :=
  let self1 : PerformanceStats :=
    { self with
      prev_kern_time := os.kernel
      prev_user_time := os.user
      prev_system_time := os.now }
  let stats := memStats self os (cpuStats self os Stats.uninitialised)
  match os.ioCounters with
  | some cur_io_counters =>
    (ioStats self.prev_io_counters cur_io_counters (systemTimeDiff self os) stats,
      { self1 with prev_io_counters := cur_io_counters })
  | none => (stats, self1)

/-! ## Sample snapshots and readings -/

/-- I/O counters with the given read and write operation counts and byte counts. -/
def ioOf (readOps writeOps readBytes writeBytes : Nat) : IO_COUNTERS :=
  { ReadOperationCount := readOps, WriteOperationCount := writeOps, OtherOperationCount := 0,
    ReadTransferCount := readBytes, WriteTransferCount := writeBytes, OtherTransferCount := 0 }

/-- A sampler on the calling process (pseudo handle `(HANDLE)-1`) whose stored snapshot has
the given kernel time, user time, wall-clock time and I/O counters. -/
def samplerAt (kern user sys : Nat) (counters : IO_COUNTERS) : PerformanceStats :=
  { pid_ := 0, stats_query_interval_ := 0, hProc := 2 ^ 64 - 1, prev_io_counters := counters,
    prev_kern_time := kern, prev_user_time := user, prev_system_time := sys }

/-- A reading with the given wall-clock time, kernel time, user time and I/O query result,
whose memory query fails. -/
def readingAt (now kernel user : Nat) (counters : Option IO_COUNTERS) : OsReading :=
  { now := now, kernel := kernel, user := user, memInfo := none, ioCounters := counters }

/-! ## The constructor of `PerformanceStats` -/

/-- The pseudo handle `(HANDLE)-1` that `GetCurrentProcess()` returns. -/
def currentProcessHandle : Nat := 2 ^ 64 - 1

/-- What the operating system answers during the construction of a `PerformanceStats`.
`systemTime` is the `FILETIME` of `GetSystemTimeAsFileTime`; `openProcess pid` is the handle
that `OpenProcess` returns for `pid`, `0` (`NULL`) when the system refuses to open it;
`kernel` and `user` are the contents of `fsys` and `fuser` after `GetProcessTimes`, and
`ioCounters` the contents of `prev_io_counters` after `GetProcessIoCounters`; the source tests
the return value of none of the three calls. -/
structure OsAtConstruction where
  systemTime : Nat
  openProcess : Int → Nat
  kernel : Nat
  user : Nat
  ioCounters : IO_COUNTERS

set_option linter.dupNamespace false in
/-- The constructor `PerformanceStats::PerformanceStats(db_path, pid, stats_query_interval)`
of lines 4-25: the data members of the object it builds. It has no failure path: the result
of `OpenProcess` is stored as it is. -/
def PerformanceStats.PerformanceStats (_db_path : String) (pid : Int)
    (stats_query_interval : Int) (os : OsAtConstruction) : PerformanceStats :=
  { pid_ := pid
    stats_query_interval_ := stats_query_interval
    hProc := if pid ≠ 0 then os.openProcess pid else currentProcessHandle
    prev_io_counters := os.ioCounters
    prev_kern_time := os.kernel
    prev_user_time := os.user
    prev_system_time := os.systemTime }

/-- A system that refuses to open every process and leaves zeros in the output buffers. -/
def refusingSystem : OsAtConstruction :=
  { systemTime := 5000, openProcess := fun _ => 0, kernel := 0, user := 0,
    ioCounters := ioOf 0 0 0 0 }

/-- Memory counters in which every counter has a different value. -/
def sampleMemory : PROCESS_MEMORY_COUNTERS :=
  { PageFaultCount := 11, PeakWorkingSetSize := 22, WorkingSetSize := 33,
    QuotaPeakPagedPoolUsage := 44, QuotaPagedPoolUsage := 55,
    QuotaPeakNonPagedPoolUsage := 66, QuotaNonPagedPoolUsage := 77, PagefileUsage := 88,
    PeakPagefileUsage := 99 }

/-- A reading with the given times whose memory query and I/O query both succeed. -/
def fullReadingAt (now kernel user : Nat) (mem : PROCESS_MEMORY_COUNTERS)
    (counters : IO_COUNTERS) : OsReading :=
  { now := now, kernel := kernel, user := user, memInfo := some mem,
    ioCounters := some counters }

/-! ## Byte arrays and JSON values of the Qt library, as `MainWindow::openFile` uses them -/

/-- The byte of the character `'{'`. -/
def openBrace : Nat := 123

/-- Qt's `QByteArray::indexOf(ch)`: the position of the first occurrence of `ch`, `-1` when
there is none. In Qt 6 the result is a 64-bit `qsizetype`. -/
def QByteArray.indexOf (bytes : List Nat) (ch : Nat) : Int :=
  if ch ∈ bytes then (List.indexOf ch bytes : Int) else -1

/-- Conversion of a `qsizetype` to `int`: the value modulo `2 ^ 32`, taken in
`[-2 ^ 31, 2 ^ 31)`. -/
def toInt32 (n : Int) : Int := (n + 2 ^ 31) % 2 ^ 32 - 2 ^ 31

/-- Qt's `QByteArray::mid(pos)` with the default length: the bytes from position `pos` to the
end; the whole array for a negative `pos`, and nothing for a `pos` beyond the end. -/
def QByteArray.mid (bytes : List Nat) (pos : Int) : List Nat :=
  if pos < 0 then bytes else bytes.drop pos.toNat

/-- Qt's `QJsonValue`. -/
inductive QJsonValue where
  | null
  | bool (b : Bool)
  | double (x : ℚ)
  | string (s : String)
  | array (items : List QJsonValue)
  | object (members : List (String × QJsonValue))
  | undefined

/-- Qt's `QJsonObject`, as the list of its members. -/
abbrev QJsonObject := List (String × QJsonValue)

/-- Qt's `QJsonObject::contains(key)`. -/
def QJsonObject.contains (obj : QJsonObject) (key : String) : Bool :=
  (List.lookup key obj).isSome

/-- Qt's `QJsonObject::operator[](key) const`: the member, `undefined` when absent. -/
def QJsonObject.value (obj : QJsonObject) (key : String) : QJsonValue :=
  (List.lookup key obj).getD QJsonValue.undefined

/-- Qt's `QJsonValue::isString()`. -/
def QJsonValue.isString : QJsonValue → Bool
  | .string _ => true
  | _ => false

/-- Qt's `QJsonValue::isArray()`. -/
def QJsonValue.isArray : QJsonValue → Bool
  | .array _ => true
  | _ => false

/-- Qt's `QJsonValue::toString()`: the string, empty for a value that is no string. -/
def QJsonValue.toString : QJsonValue → String
  | .string s => s
  | _ => ""

/-- Qt's `QJsonValue::toArray()`: the items, none for a value that is no array. -/
def QJsonValue.toArray : QJsonValue → List QJsonValue
  | .array items => items
  | _ => []

/-- Qt's `QJsonValue::toObject()`: the members, none for a value that is no object. -/
def QJsonValue.toObject : QJsonValue → QJsonObject
  | .object members => members
  | _ => []

/-- Qt's `QJsonDocument`: null when the text is no JSON, an array or an object otherwise. -/
inductive QJsonDocument where
  | null
  | array (items : List QJsonValue)
  | object (members : QJsonObject)

/-! ## The window state that `openFile` reads and writes -/

/-- An item of `recommendationsLayout`. An entry `(label, details)` of an `aiGroup` stands for
the `QLabel` built from the format `• <b>%1:</b> %2` with these two arguments; a
`sampleGroup` is one of the three group boxes of static text of `addSampleRecommendations`. -/
inductive LayoutItem where
  | label (text : String)
  | aiGroup (entries : List (String × String))
  | sampleGroup (title : String)
  | stretch
  deriving DecidableEq

/-- The members of `MainWindow` that the report loader touches: the HTML shown by
`aiAnalysisBrowser`, the index of the current tab of `centerTabWidget`, the items of
`recommendationsLayout`, the message of `statusBar`, and the warnings shown so far by
`QMessageBox::warning`, each with its title and its text. -/
structure MainWindow where
  aiAnalysisHtml : String
  currentTab : Nat
  recommendationsLayout : List LayoutItem
  statusMessage : String
  warnings : List (String × String)
  deriving DecidableEq

/-- The call `QMessageBox::warning(this, title, text)`. -/
def MainWindow.warning (self : MainWindow) (title text : String) : MainWindow :=
  { self with warnings := self.warnings ++ [(title, text)] }

/-- The entries that the loops of lines 447-461 and 492-497 keep: the items that, taken as
objects, contain both `label` and `details`, each with the two strings. -/
def labelledItems (items : List QJsonValue) : List (String × String) :=
  items.filterMap fun value =>
    let obj := value.toObject
    if QJsonObject.contains obj "label" && QJsonObject.contains obj "details" then
      some ((QJsonObject.value obj "label").toString, (QJsonObject.value obj "details").toString)
    else none

/-- The method `MainWindow::addSampleRecommendations()`: three group boxes are appended. -/
def MainWindow.addSampleRecommendations (self : MainWindow) : MainWindow :=
  { self with
    recommendationsLayout := self.recommendationsLayout ++
      [LayoutItem.sampleGroup "CPU Optimization", LayoutItem.sampleGroup "Memory Optimization",
        LayoutItem.sampleGroup "System Performance"] }

/-- The method `MainWindow::updateRecommendations(json)` of lines 416-469: every item from
position 2 on is removed, the group of the recommendations of the report is appended when
`recommendations` is an array, then the static groups and a stretch. -/
def MainWindow.updateRecommendations (self : MainWindow) (json : QJsonObject) : MainWindow :=
  let cleared : MainWindow :=
    { self with recommendationsLayout := self.recommendationsLayout.take 2 }
  let withAi : MainWindow :=
    if QJsonObject.contains json "recommendations" &&
        (QJsonObject.value json "recommendations").isArray then
      { cleared with
        recommendationsLayout := cleared.recommendationsLayout ++
          [LayoutItem.aiGroup
            (labelledItems (QJsonObject.value json "recommendations").toArray)] }
    else cleared
  let withSamples := withAi.addSampleRecommendations
  { withSamples with recommendationsLayout := withSamples.recommendationsLayout ++
      [LayoutItem.stretch] }

/-- The lambda `formatSection(key, title)` of lines 488-500: the HTML it appends. -/
def formatSection (json : QJsonObject) (key title : String) : String :=
  if QJsonObject.contains json key && (QJsonObject.value json key).isArray then
    "<h2>" ++ title ++ "</h2>" ++ "<ul>" ++
      String.join ((labelledItems (QJsonObject.value json key).toArray).map fun entry =>
        "<li><b>" ++ entry.1 ++ ":</b> " ++ entry.2 ++ "</li>") ++
      "</ul>"
  else ""

/-- The string `html` that `displayAnalysisData` builds in lines 478-506. -/
def analysisHtml (json : QJsonObject) : String :=
  "<h1>AI Process Usage Analysis</h1>" ++
    (if QJsonObject.contains json "summary" && (QJsonObject.value json "summary").isString then
      "<h2>Summary</h2>" ++ ("<p>" ++ (QJsonObject.value json "summary").toString ++ "</p>")
    else "") ++
    formatSection json "keyPoints" "Key Points" ++
    formatSection json "recommendations" "Recommendations" ++
    formatSection json "performanceProfile" "Performance Profile" ++
    formatSection json "resourceHotspots" "Resource Hotspots"

/-- The method `MainWindow::displayAnalysisData(json)`: the HTML is shown, the tab of the
browser (index 1) becomes the current one, and the recommendations are rebuilt. -/
def MainWindow.displayAnalysisData (self : MainWindow) (json : QJsonObject) : MainWindow :=
  MainWindow.updateRecommendations
    { self with aiAnalysisHtml := analysisHtml json, currentTab := 1 } json

/-! ## `MainWindow::openFile()` -/

/-- Line 397: `int jsonStartPos = fileContent.indexOf('{')`. -/
def jsonStartPos (fileContent : List Nat) : Int :=
  toInt32 (QByteArray.indexOf fileContent openBrace)

/-- Line 404: `QByteArray jsonData = fileContent.mid(jsonStartPos)`. -/
def jsonData (fileContent : List Nat) : List Nat :=
  QByteArray.mid fileContent (jsonStartPos fileContent)

/-- The bytes that `openFile` hands to `QJsonDocument::fromJson`, `none` when it returns at
line 400 without calling the parser. -/
def parserInput (fileContent : List Nat) : Option (List Nat) :=
  if jsonStartPos fileContent = -1 then none else some (jsonData fileContent)

/-- The text of the warning of line 399. -/
def noJsonStartMessage : String := "Could not find the start of JSON content in the file."

/-- The text of the warning of line 408. -/
def invalidJsonMessage : String := "The file does not contain valid JSON data."

/-- The slot `MainWindow::openFile()`. The parser `QJsonDocument::fromJson` of the Qt library
is the parameter `fromJson`. `filePath` is the answer of the file dialog, empty when the user
cancels it; `file` is the answer of the file system, the text of `errorString()` when the file
cannot be opened and the bytes of `readAll()` otherwise. -/
def MainWindow.openFile (fromJson : List Nat → QJsonDocument) (self : MainWindow)
    (filePath : String) (file : Except String (List Nat)) : MainWindow :=
  if filePath.isEmpty then self
  else
    match file with
    | .error errorString => self.warning "Error" ("Could not open file: " ++ errorString)
    | .ok fileContent =>
      match parserInput fileContent with
      | none => self.warning "Parsing Error" noJsonStartMessage
      | some data =>
        match fromJson data with
        | .object members =>
          { self.displayAnalysisData members with
            statusMessage := "Successfully loaded and parsed: " ++ filePath }
        | _ => self.warning "Parsing Error" invalidJsonMessage

/-- A property of the JSON grammar that `QJsonDocument::fromJson` has: an object is
introduced by the first `'{'` of the text, so a text that parses as an object still does when
what precedes its first `'{'` is cut off. -/
def ObjectStartsAtFirstBrace (fromJson : List Nat → QJsonDocument) : Prop :=
  ∀ pre rest members, openBrace ∉ pre →
    fromJson (pre ++ openBrace :: rest) = QJsonDocument.object members →
    ∃ m, fromJson (openBrace :: rest) = QJsonDocument.object m

/-- A header of `2 ^ 32 - 1` spaces. -/
def hugeHeader : List Nat := List.replicate (2 ^ 32 - 1) 32

/-- An empty window: nothing shown, the first tab current. -/
def emptyWindow : MainWindow :=
  { aiAnalysisHtml := "", currentTab := 0, recommendationsLayout := [], statusMessage := "",
    warnings := [] }

/-- A parser that accepts exactly the text `{}`, as the empty object. -/
def parseEmptyObjectOnly (data : List Nat) : QJsonDocument :=
  if data = [123, 125] then QJsonDocument.object [] else QJsonDocument.null

/-! ## The report page, part by part -/

/-- A part of the page that `displayAnalysisData` shows: the title heading, the Summary
section with its text, or a section made of a heading and a list of `(label, details)`
items. -/
inductive ReportBlock where
  | title
  | summary (text : String)
  | listSection (heading : String) (items : List (String × String))
  deriving DecidableEq

/-- The markup that `displayAnalysisData` appends for a part: line 479 for the title, lines
483-484 for the Summary section, lines 490-498 for a section with a list. -/
def ReportBlock.html : ReportBlock → String
  | .title => "<h1>AI Process Usage Analysis</h1>"
  | .summary text => "<h2>Summary</h2>" ++ ("<p>" ++ text ++ "</p>")
  | .listSection heading items =>
    "<h2>" ++ heading ++ "</h2>" ++ "<ul>" ++
      String.join (items.map fun entry =>
        "<li><b>" ++ entry.1 ++ ":</b> " ++ entry.2 ++ "</li>") ++
      "</ul>"

/-- The items of a list as the specification words them: one item for each element of the
array that is an object with both `label` and `details`, in the order of the array. -/
def specItems : List QJsonValue → List (String × String)
  | [] => []
  | QJsonValue.object members :: rest =>
    match List.lookup "label" members, List.lookup "details" members with
    | some label, some details => (label.toString, details.toString) :: specItems rest
    | _, _ => specItems rest
  | _ :: rest => specItems rest

/-- The section of a key as the specification words it: a heading and a list when the key is
present as an array, nothing otherwise. -/
def specSection (json : QJsonObject) (key heading : String) : List ReportBlock :=
  match List.lookup key json with
  | some (QJsonValue.array items) => [ReportBlock.listSection heading (specItems items)]
  | _ => []

/-- The Summary section as the specification words it: present exactly when `summary` is
present as a string. -/
def specSummary (json : QJsonObject) : List ReportBlock :=
  match List.lookup "summary" json with
  | some (QJsonValue.string text) => [ReportBlock.summary text]
  | _ => []

/-- The page as the specification words it: the title heading, the Summary section, then the
sections of `keyPoints`, `recommendations`, `performanceProfile` and `resourceHotspots` in
that order. -/
def specBlocks (json : QJsonObject) : List ReportBlock :=
  [ReportBlock.title] ++ specSummary json ++
    specSection json "keyPoints" "Key Points" ++
    specSection json "recommendations" "Recommendations" ++
    specSection json "performanceProfile" "Performance Profile" ++
    specSection json "resourceHotspots" "Resource Hotspots"

/-- A report with a summary, a key point among items that are no labelled objects, and a
member that is no section. -/
def sampleReport : QJsonObject :=
  [("summary", QJsonValue.string "busy"),
    ("keyPoints", QJsonValue.array
      [QJsonValue.object [("label", QJsonValue.string "CPU"),
          ("details", QJsonValue.string "high")],
        QJsonValue.double 3,
        QJsonValue.object [("label", QJsonValue.string "only a label")]]),
    ("resourceHotspots", QJsonValue.string "no array")]

/-! ## The polling loop of the stats thread -/

/-- Conversion `(double)i` of an `int`. -/
def Dbl.ofInt (i : Int) : Dbl := Dbl.fin (rnd (i : ℚ))

/-- Qt's `QPointF`, two `qreal` coordinates. The ordinate is `none` when it is the conversion
of an indeterminate integer. -/
structure QPointF where
  xp : Dbl
  yp : Option Dbl
  deriving DecidableEq

/-- Qt's `QXYSeries::remove(index)`: the point at position `index` is removed. -/
def QXYSeries.remove (points : List QPointF) (index : Int) : List QPointF :=
  if 0 ≤ index then points.eraseIdx index.toNat else points

/-- Qt's `QXYSeries::insert(index, point)`: the point is inserted at position `index`, which
the library first clamps to `[0, size]`. The library drops a point with a coordinate that is
infinite or no number; the points of the loop are conversions of integers, so none is
dropped. -/
def QXYSeries.insert (points : List QPointF) (index : Int) (point : QPointF) : List QPointF :=
  points.take index.toNat ++ point :: points.drop index.toNat

/-- Qt's `QXYSeries::append(point)`. -/
def QXYSeries.append (points : List QPointF) (point : QPointF) : List QPointF :=
  points ++ [point]

/-- The `quint64` value of `stat.CPU_KERNPERCENT + stat.CPU_USERPERCENT + random_value` in
lines 72 and 74, where `random_value` is the `int` 0; indeterminate when a summand is. -/
def plottedSum (stat : Stats) : Option Nat :=
  match stat.CPU_KERNPERCENT, stat.CPU_USERPERCENT with
  | some kern, some user => some (((kern + user) % 2 ^ 64 + 0) % 2 ^ 64)
  | _, _ => none

/-- The point `QPointF(index, stat.CPU_KERNPERCENT + stat.CPU_USERPERCENT + random_value)` of
lines 72 and 74: both arguments are converted to `qreal`. -/
def chartPoint (index : Int) (stat : Stats) : QPointF :=
  { xp := Dbl.ofInt index, yp := (plottedSum stat).map Dbl.ofU64 }

/-- The variables of the lambda of `stats_thread` (lines 49-92) and the global `cpu_series`,
`none` while it is `nullptr`; `queued` lists the records handed so far to
`updateEventsTableWithRealData` by the queued calls of line 81. -/
structure StatsThread where
  perf_stats : PerformanceStats
  index : Int
  filled : Bool
  cpu_series : Option (List QPointF)
  queued : List Stats
  deriving DecidableEq

/-- Line 53: `int size = 100`. -/
def StatsThread.size : Int := 100

/-- Lines 59-62, the value of `index` after `if(index >= size)`: the position at which this
pass of the loop writes. -/
def StatsThread.writeIndex (self : StatsThread) : Int :=
  if self.index ≥ StatsThread.size then 0 else self.index

/-- Lines 59-62, the value of `filled` after `if(index >= size)`. -/
def StatsThread.writeFilled (self : StatsThread) : Bool :=
  if self.index ≥ StatsThread.size then true else self.filled

/-- One pass of the `while` loop of lines 55-91 with the reading `os` of the system: the
sample is taken, the index wraps, and when the series exists the point is written, the record
is queued for the events table and the index advances. -/
def StatsThread.tick (self : StatsThread) (os : OsReading) : StatsThread :=
  let stat := (GetStats self.perf_stats os).1
  let perf := (GetStats self.perf_stats os).2
  let index := self.writeIndex
  let filled := self.writeFilled
  match self.cpu_series with
  | some points =>
    { perf_stats := perf
      index := index + 1
      filled := filled
      cpu_series := some
        (if filled then
          QXYSeries.insert (QXYSeries.remove points index) index (chartPoint index stat)
        else QXYSeries.append points (chartPoint index stat))
      queued := self.queued ++ [stat] }
  | none =>
    { perf_stats := perf, index := index, filled := filled, cpu_series := none,
      queued := self.queued }

/-- The thread when it enters the loop: `PerformanceStats perf_stats` is built with the
default arguments, `index` is 0, `filled` is false, and no series exists yet. -/
def StatsThread.start (os : OsAtConstruction) : StatsThread :=
  { perf_stats := PerformanceStats.PerformanceStats "" 0 0 os, index := 0, filled := false,
    cpu_series := none, queued := [] }

/-- Line 209 of `createCenterPanel`, run once by the thread of the window:
`cpu_series = new QLineSeries()`, an empty series. -/
def StatsThread.createSeries (self : StatsThread) : StatsThread :=
  { self with cpu_series := some [] }

/-- The passes of the loop for the given readings, one after the other. -/
def StatsThread.run (self : StatsThread) (readings : List OsReading) : StatsThread :=
  readings.foldl StatsThread.tick self

/-- The state in which the loop writes its next sample: `before` are the readings of the
passes made while no series existed, `ticks` those of the passes made since the series
exists. -/
def StatsThread.after (os : OsAtConstruction) (before ticks : List OsReading) : StatsThread :=
  (((StatsThread.start os).run before).createSeries).run ticks

/-- A row of `eventsTableWidget`. A `sample` row holds the seven items that lines 813-838
build: the line number `QString::number(rowCount())`, the name `AI-Healthops`, the process
id, the texts of `CPU_USERPERCENT`, of `CPU_KERNPERCENT` and of their sum `totalCpu` with its
background colour, all determined by the record `stat`, and the time stamp. Any `other` row,
written by `populateEventsTable` or `getCurrentUserProcesses`, is the list of the texts of
its items, empty for a row without items. -/
inductive TableRow where
  | sample (line : Int) (pid : Nat) (stat : Stats) (time : String)
  | other (cells : List String)
  deriving DecidableEq

/-- Qt's `QTableWidget::insertRow(row)`: an empty row is inserted at position `row`. -/
def QTableWidget.insertRow (table : List TableRow) (row : Nat) : List TableRow :=
  table.take row ++ TableRow.other [] :: table.drop row

/-- Qt's `QTableWidget::removeRow(row)`: the row at position `row` is removed. -/
def QTableWidget.removeRow (table : List TableRow) (row : Nat) : List TableRow :=
  table.eraseIdx row

/-- Qt's `QTableWidget::rowCount()`. -/
def QTableWidget.rowCount (table : List TableRow) : Int := table.length

/-- The method `MainWindow::updateEventsTableWithRealData(stat)` of lines 805-846 on the rows
of `eventsTableWidget`; `pid` is the answer of `GetCurrentProcessId()` and `currentTime` the
text of the current time. -/
def updateEventsTableWithRealData (table : List TableRow) (stat : Stats) (pid : Nat)
    (currentTime : String) : List TableRow :=
  let inserted := QTableWidget.insertRow table 0
  let populated :=
    inserted.set 0 (TableRow.sample (QTableWidget.rowCount inserted) pid stat currentTime)
  if QTableWidget.rowCount populated > 50 then QTableWidget.removeRow populated 50
  else populated

/-- The rows that `getCurrentUserProcesses` leaves (lines 935-976) for its sorted list of
processes, each given by the texts of its columns 1 to 6: `setRowCount` makes one row for
each process, and the first 100 rows are filled, with the line number in column 0. -/
def processRows (processInfoList : List (List String)) : List TableRow :=
  processInfoList.enum.map fun entry =>
    if entry.1 < 100 then TableRow.other (toString (entry.1 + 1) :: entry.2)
    else TableRow.other []

/-- A list of sixty processes, all with the same texts. -/
def sixtyProcesses : List (List String) :=
  List.replicate 60 ["svchost.exe", "4", "0.0%", "0.0%", "0.0%", "2025-01-01 00:00:00.000"]

/-! ## The `try` block of `GetStats` and its exceptions -/

/-- The three queries of the Windows API that `GetStats` makes after it has read the clock. -/
inductive ApiQuery where
  | GetProcessTimes
  | GetProcessMemoryInfo
  | GetProcessIoCounters
  deriving DecidableEq

/-- What the operating system does during one call of `GetStats`, failures included.
`reading` holds the contents of the output buffers and the return values of the memory query
and of the I/O query, as before. `processTimesSucceeded` is the `BOOL` that `GetProcessTimes`
returns and that line 49 drops; when it is false, `reading.kernel` and `reading.user` are what
the locals `fsys` and `fuser`, which have no initialiser, hold. `raisedBy` names the query out
of which an exception comes instead of a return value, if there is one: the first such query
ends the `try` block, so one name describes every case. -/
structure OsCalls where
  reading : OsReading
  processTimesSucceeded : Bool
  raisedBy : Option ApiQuery
  deriving DecidableEq

/-- The local `stats` and the data members of the object at a point of the body of
`GetStats`. -/
structure Frame where
  stats : Stats
  self : PerformanceStats
  deriving DecidableEq

/-- The statements of lines 44-121 inside `try`, started with the local `stats` and the data
members `self`. `Except.ok` is the normal end of the block, `Except.error` an exception that
leaves it; both carry the frame as the statements executed so far have left it. The double
`systemTimeDiff` of line 55 is computed from the members as they were at the start. -/
def GetStatsTryBlock (self : PerformanceStats) (os : OsCalls) (stats : Stats) :
    Except Frame Frame :=
  if os.raisedBy = some ApiQuery.GetProcessTimes then
    Except.error { stats := stats, self := self }
  else
    let self1 : PerformanceStats :=
      { self with
        prev_kern_time := os.reading.kernel
        prev_user_time := os.reading.user
        prev_system_time := os.reading.now }
    let stats1 := cpuStats self os.reading stats
    if self.hProc ≠ 0 ∧ os.raisedBy = some ApiQuery.GetProcessMemoryInfo then
      Except.error { stats := stats1, self := self1 }
    else
      let stats2 := memStats self os.reading stats1
      if os.raisedBy = some ApiQuery.GetProcessIoCounters then
        Except.error { stats := stats2, self := self1 }
      else
        match os.reading.ioCounters with
        | some cur_io_counters =>
          Except.ok
            { stats := ioStats self.prev_io_counters cur_io_counters
                (systemTimeDiff self os.reading) stats2
              self := { self1 with prev_io_counters := cur_io_counters } }
        | none => Except.ok { stats := stats2, self := self1 }

/-- The statement `try { ... } catch(...){}` of lines 43-125: every exception that leaves the
block is caught, and the empty handler leaves the frame as the exception found it. -/
def tryCatchAll (block : Except Frame Frame) : Except Frame Frame :=
  match block with
  | Except.ok frame => Except.ok frame
  | Except.error frame => Except.ok frame

/-- The method `GetStats` with its control flow: `Stats stats;`, the `try` statement, and
`return stats;`. An `Except.error` result is an exception that reaches the caller; an
`Except.ok` result is the returned record with the data members left behind. -/
def GetStatsGuarded (self : PerformanceStats) (os : OsCalls) :
    Except Frame (Stats × PerformanceStats) :=
  match tryCatchAll (GetStatsTryBlock self os Stats.uninitialised) with
  | Except.ok frame => Except.ok (frame.stats, frame.self)
  | Except.error frame => Except.error frame

/-! ## Rounding to the nearest integer -/

theorem roundHalfEven_cases (t : ℚ) : roundHalfEven t = ⌊t⌋ ∨ roundHalfEven t = ⌊t⌋ + 1 := by
  unfold roundHalfEven
  simp only
  split_ifs <;> simp

theorem floor_le_roundHalfEven (t : ℚ) : ⌊t⌋ ≤ roundHalfEven t := by
  rcases roundHalfEven_cases t with h | h <;> omega

theorem roundHalfEven_le_floor_succ (t : ℚ) : roundHalfEven t ≤ ⌊t⌋ + 1 := by
  rcases roundHalfEven_cases t with h | h <;> omega

theorem roundHalfEven_intCast (n : ℤ) : roundHalfEven (n : ℚ) = n := by
  unfold roundHalfEven
  simp

theorem roundHalfEven_eq_floor_of_lt {t : ℚ} (h : t - ⌊t⌋ < 1 / 2) : roundHalfEven t = ⌊t⌋ := by
  unfold roundHalfEven
  simp only [if_pos h]

theorem roundHalfEven_eq_succ_of_gt {t : ℚ} (h : 1 / 2 < t - ⌊t⌋) :
    roundHalfEven t = ⌊t⌋ + 1 := by
  unfold roundHalfEven
  simp only [if_neg (not_lt.mpr h.le), if_pos h]

theorem abs_roundHalfEven_sub_le (t : ℚ) : |(roundHalfEven t : ℚ) - t| ≤ 1 / 2 := by
  have h0 : (⌊t⌋ : ℚ) ≤ t := Int.floor_le t
  have h1 : t < ⌊t⌋ + 1 := Int.lt_floor_add_one t
  rw [abs_le]
  by_cases ha : t - ⌊t⌋ < 1 / 2
  · rw [roundHalfEven_eq_floor_of_lt ha]
    constructor <;> linarith
  · by_cases hb : 1 / 2 < t - ⌊t⌋
    · rw [roundHalfEven_eq_succ_of_gt hb]
      push_cast
      constructor <;> linarith
    · have hc : t - ⌊t⌋ = 1 / 2 := le_antisymm (not_lt.mp hb) (not_lt.mp ha)
      rcases roundHalfEven_cases t with h | h <;> rw [h] <;> push_cast <;>
        constructor <;> linarith

theorem roundHalfEven_mono {t s : ℚ} (h : t ≤ s) : roundHalfEven t ≤ roundHalfEven s := by
  have hfl : ⌊t⌋ ≤ ⌊s⌋ := Int.floor_mono h
  rcases lt_or_eq_of_le hfl with hlt | heq
  · calc roundHalfEven t ≤ ⌊t⌋ + 1 := roundHalfEven_le_floor_succ t
      _ ≤ ⌊s⌋ := hlt
      _ ≤ roundHalfEven s := floor_le_roundHalfEven s
  · by_cases ha : t - ⌊t⌋ < 1 / 2
    · rw [roundHalfEven_eq_floor_of_lt ha, heq]
      exact floor_le_roundHalfEven s
    · by_cases hb : 1 / 2 < s - ⌊s⌋
      · rw [roundHalfEven_eq_succ_of_gt hb, ← heq]
        exact roundHalfEven_le_floor_succ t
      · have hs : s - ⌊s⌋ = 1 / 2 := by
          have : t - ⌊t⌋ ≤ s - ⌊s⌋ := by rw [heq]; linarith
          exact le_antisymm (not_lt.mp hb) (le_trans (not_lt.mp ha) this)
        have hts : t = s := by
          have h1 : t - (⌊s⌋ : ℚ) ≤ 1 / 2 := by
            have : t - (⌊s⌋ : ℚ) ≤ s - ⌊s⌋ := by linarith
            linarith
          have h2 : (1 : ℚ) / 2 ≤ t - ⌊s⌋ := by rw [← heq]; exact not_lt.mp ha
          linarith
        rw [hts]

theorem roundHalfEven_eq_of_abs_lt {t : ℚ} {m : ℤ} (h : |t - m| < 1 / 2) :
    roundHalfEven t = m := by
  rw [abs_lt] at h
  have h1 : (m : ℚ) - 1 < roundHalfEven t := by
    have := abs_le.mp (abs_roundHalfEven_sub_le t)
    linarith [this.1, this.2]
  have h2 : (roundHalfEven t : ℚ) < m + 1 := by
    have := abs_le.mp (abs_roundHalfEven_sub_le t)
    linarith [this.1, this.2]
  have h3 : m - 1 < roundHalfEven t := by exact_mod_cast h1
  have h4 : roundHalfEven t < m + 1 := by exact_mod_cast h2
  omega

theorem le_roundHalfEven_of_le {a : ℤ} {t : ℚ} (h : (a : ℚ) ≤ t) : a ≤ roundHalfEven t := by
  have := roundHalfEven_mono h
  rwa [roundHalfEven_intCast] at this

theorem roundHalfEven_le_of_le {b : ℤ} {t : ℚ} (h : t ≤ (b : ℚ)) : roundHalfEven t ≤ b := by
  have := roundHalfEven_mono h
  rwa [roundHalfEven_intCast] at this


/-! ## Rounding to the nearest double -/

theorem ulp_pos (x : ℚ) : 0 < ulp x := by
  unfold ulp
  positivity

theorem log_eq_of_binade {x : ℚ} {e : ℤ} (h1 : (2 : ℚ) ^ e ≤ x) (h2 : x < (2 : ℚ) ^ (e + 1)) :
    Int.log 2 x = e := by
  have hx : 0 < x := lt_of_lt_of_le (by positivity) h1
  have ha : e ≤ Int.log 2 x := by
    rw [← Int.zpow_le_iff_le_log (by norm_num) hx]
    exact_mod_cast h1
  have hb : Int.log 2 x < e + 1 := by
    rw [← Int.lt_zpow_iff_log_lt (by norm_num) hx]
    exact_mod_cast h2
  omega

theorem binade_le {x : ℚ} (hx : 0 < x) : (2 : ℚ) ^ Int.log 2 x ≤ x := by
  have := Int.zpow_log_le_self (b := 2) (by norm_num) hx
  exact_mod_cast this

theorem lt_binade_succ (x : ℚ) : x < (2 : ℚ) ^ (Int.log 2 x + 1) := by
  have := Int.lt_zpow_succ_log_self (b := 2) (by norm_num) x
  exact_mod_cast this

theorem ulp_of_pos {x : ℚ} (hx : 0 < x) : ulp x = (2 : ℚ) ^ (Int.log 2 x - 52) := by
  unfold ulp
  rw [abs_of_pos hx]

theorem ulp_mul_two_pow (x : ℚ) (hx : 0 < x) :
    ulp x * 2 ^ (52 : ℕ) = (2 : ℚ) ^ Int.log 2 x := by
  rw [ulp_of_pos hx, zpow_sub₀ (by norm_num : (2 : ℚ) ≠ 0)]
  norm_num

theorem rnd_zero : rnd 0 = 0 := by
  unfold rnd
  simp [roundHalfEven]

theorem scaled_ge {x : ℚ} (hx : 0 < x) : ((2 ^ 52 : ℤ) : ℚ) ≤ x / ulp x := by
  rw [le_div_iff₀ (ulp_pos x)]
  have h := ulp_mul_two_pow x hx
  have h2 := binade_le hx
  push_cast
  linarith

theorem scaled_lt {x : ℚ} (hx : 0 < x) : x / ulp x < ((2 ^ 53 : ℤ) : ℚ) := by
  rw [div_lt_iff₀ (ulp_pos x)]
  have h := ulp_mul_two_pow x hx
  have h2 := lt_binade_succ x
  rw [zpow_add_one₀ (by norm_num : (2 : ℚ) ≠ 0)] at h2
  push_cast
  linarith

theorem binade_le_rnd {x : ℚ} (hx : 0 < x) : (2 : ℚ) ^ Int.log 2 x ≤ rnd x := by
  unfold rnd
  have h1 : ((2 ^ 52 : ℤ) : ℚ) ≤ (roundHalfEven (x / ulp x) : ℚ) := by
    exact_mod_cast le_roundHalfEven_of_le (scaled_ge hx)
  have h2 := ulp_mul_two_pow x hx
  have h3 := ulp_pos x
  push_cast at h1
  nlinarith

theorem rnd_le_binade_succ {x : ℚ} (hx : 0 < x) : rnd x ≤ (2 : ℚ) ^ (Int.log 2 x + 1) := by
  unfold rnd
  have h1 : (roundHalfEven (x / ulp x) : ℚ) ≤ ((2 ^ 53 : ℤ) : ℚ) := by
    exact_mod_cast roundHalfEven_le_of_le (scaled_lt hx).le
  have h2 := ulp_mul_two_pow x hx
  have h3 := ulp_pos x
  rw [zpow_add_one₀ (by norm_num : (2 : ℚ) ≠ 0)]
  push_cast at h1
  nlinarith

theorem rnd_pos {x : ℚ} (hx : 0 < x) : 0 < rnd x :=
  lt_of_lt_of_le (by positivity) (binade_le_rnd hx)

theorem rnd_nonneg {x : ℚ} (hx : 0 ≤ x) : 0 ≤ rnd x := by
  rcases eq_or_lt_of_le hx with h | h
  · rw [← h, rnd_zero]
  · exact (rnd_pos h).le

theorem rnd_mono {x y : ℚ} (hx : 0 ≤ x) (hxy : x ≤ y) : rnd x ≤ rnd y := by
  rcases eq_or_lt_of_le hx with h0 | hpos
  · rw [← h0, rnd_zero]
    exact rnd_nonneg (le_trans hx hxy)
  · have hy : 0 < y := lt_of_lt_of_le hpos hxy
    have hlog : Int.log 2 x ≤ Int.log 2 y := Int.log_mono_right hpos hxy
    rcases lt_or_eq_of_le hlog with hlt | heq
    · calc rnd x ≤ (2 : ℚ) ^ (Int.log 2 x + 1) := rnd_le_binade_succ hpos
        _ ≤ (2 : ℚ) ^ Int.log 2 y := zpow_le_zpow_right₀ (by norm_num) (by omega)
        _ ≤ rnd y := binade_le_rnd hy
    · have hu : ulp x = ulp y := by rw [ulp_of_pos hpos, ulp_of_pos hy, heq]
      unfold rnd
      rw [hu]
      have h1 : x / ulp y ≤ y / ulp y := div_le_div_of_nonneg_right hxy (ulp_pos y).le
      have h2 : (roundHalfEven (x / ulp y) : ℚ) ≤ roundHalfEven (y / ulp y) := by
        exact_mod_cast roundHalfEven_mono h1
      exact mul_le_mul_of_nonneg_right h2 (ulp_pos y).le

theorem rnd_eq_of_binade {x : ℚ} (e m : ℤ) (h1 : (2 : ℚ) ^ e ≤ x) (h2 : x < (2 : ℚ) ^ (e + 1))
    (hm : |x / (2 : ℚ) ^ (e - 52) - m| < 1 / 2) : rnd x = (m : ℚ) * (2 : ℚ) ^ (e - 52) := by
  have hx : 0 < x := lt_of_lt_of_le (by positivity) h1
  unfold rnd
  rw [ulp_of_pos hx, log_eq_of_binade h1 h2, roundHalfEven_eq_of_abs_lt hm]

theorem rnd_eq_self_of_scaled_int {x : ℚ} (k : ℤ) (h : x / ulp x = k) : rnd x = x := by
  unfold rnd
  rw [h, roundHalfEven_intCast, ← h]
  exact div_mul_cancel₀ x (ulp_pos x).ne'

theorem abs_rnd_sub_le (x : ℚ) : |rnd x - x| ≤ ulp x / 2 := by
  have h := abs_roundHalfEven_sub_le (x / ulp x)
  have hu := ulp_pos x
  have hx : x / ulp x * ulp x = x := div_mul_cancel₀ x hu.ne'
  have : rnd x - x = ((roundHalfEven (x / ulp x) : ℚ) - x / ulp x) * ulp x := by
    rw [sub_mul, hx]
    rfl
  rw [this, abs_mul, abs_of_pos hu]
  nlinarith

theorem ulp_le_mul {x : ℚ} (hx : 0 < x) : ulp x ≤ x / 2 ^ (52 : ℕ) := by
  rw [le_div_iff₀ (by positivity)]
  rw [ulp_mul_two_pow x hx]
  exact binade_le hx


theorem rnd_natCast {n : ℕ} (h : n < 2 ^ 53) : rnd (n : ℚ) = n := by
  rcases Nat.eq_zero_or_pos n with h0 | hpos
  · subst h0
    simpa using rnd_zero
  · have hq : (0 : ℚ) < n := by exact_mod_cast hpos
    have hlog : Nat.log 2 n < 53 := Nat.log_lt_of_lt_pow hpos.ne' h
    obtain ⟨j, hj⟩ : ∃ j : ℕ, (Nat.log 2 n : ℤ) - 52 = -(j : ℤ) := ⟨52 - Nat.log 2 n, by omega⟩
    apply rnd_eq_self_of_scaled_int ((n * 2 ^ j : ℕ) : ℤ)
    rw [ulp_of_pos hq, Int.log_natCast, hj, zpow_neg, zpow_natCast, div_inv_eq_mul]
    push_cast
    ring

theorem rnd_one : rnd 1 = 1 := by
  have := rnd_natCast (n := 1) (by norm_num)
  simpa using this

theorem rnd_hundred : rnd 100 = 100 := by
  have := rnd_natCast (n := 100) (by norm_num)
  simpa using this

theorem rnd_milli : rnd (1 / 1000) = 1152921504606847 / 1152921504606846976 := by
  rw [rnd_eq_of_binade (-10) 4611686018427388 (by norm_num) (by norm_num)
    (by rw [abs_lt]; norm_num)]
  norm_num

theorem one_le_rnd_natCast {n : ℕ} (h : 0 < n) : 1 ≤ rnd (n : ℚ) := by
  have h1 : (1 : ℚ) ≤ n := by exact_mod_cast h
  have := rnd_mono (by norm_num) h1
  rwa [rnd_one] at this

/-! ## Conversions and comparisons of doubles -/

theorem sub64_self (a : ℕ) : sub64 a a = 0 := by
  unfold sub64
  have h : a % 2 ^ 64 < 2 ^ 64 := Nat.mod_lt _ (by norm_num)
  omega

theorem sub64_lt (a b : ℕ) : sub64 a b < 2 ^ 64 := by
  unfold sub64
  exact Nat.mod_lt _ (by norm_num)

theorem sub64_of_le {a b : ℕ} (ha : a < 2 ^ 64) (hba : b ≤ a) : sub64 a b = a - b := by
  unfold sub64
  omega

theorem sub64_of_lt {a b : ℕ} (hb : b < 2 ^ 64) (hab : a < b) :
    sub64 a b = 2 ^ 64 - (b - a) := by
  unfold sub64
  omega

theorem truncQ_of_nonneg {q : ℚ} (hq : 0 ≤ q) : truncQ q = (⌊q⌋₊ : ℤ) := by
  unfold truncQ
  rw [if_pos hq]
  exact (Int.natCast_floor_eq_floor hq).symm

theorem toU64_fin {q : ℚ} (hq : 0 ≤ q) (hlt : q < 2 ^ 64) :
    Dbl.toU64 (Dbl.fin q) = some ⌊q⌋₊ := by
  have h1 : ⌊q⌋₊ < 2 ^ 64 := by
    have : (⌊q⌋₊ : ℚ) < 2 ^ 64 := lt_of_le_of_lt (Nat.floor_le hq) hlt
    exact_mod_cast this
  simp only [Dbl.toU64]
  rw [truncQ_of_nonneg hq]
  have h2 : (0 : ℤ) ≤ (⌊q⌋₊ : ℤ) ∧ ((⌊q⌋₊ : ℤ)) < 2 ^ 64 := ⟨by positivity, by exact_mod_cast h1⟩
  rw [if_pos h2]
  simp

theorem toU64_fin_eq_some {q : ℚ} {p : ℕ} (hq : 0 ≤ q) (h : Dbl.toU64 (Dbl.fin q) = some p) :
    q < 2 ^ 64 ∧ p = ⌊q⌋₊ := by
  simp only [Dbl.toU64] at h
  rw [truncQ_of_nonneg hq] at h
  split_ifs at h with hc
  have h1 : ⌊q⌋₊ < 2 ^ 64 := by exact_mod_cast hc.2
  have h2 : q < ⌊q⌋₊ + 1 := Nat.lt_floor_add_one q
  have h3 : ((⌊q⌋₊ : ℚ)) + 1 ≤ 2 ^ 64 := by exact_mod_cast h1
  refine ⟨lt_of_lt_of_le h2 h3, ?_⟩
  simpa using (Option.some.inj h).symm

theorem toU64_fin_mono {q1 q2 : ℚ} {p2 : ℕ} (h0 : 0 ≤ q1) (h : q1 ≤ q2)
    (h2 : Dbl.toU64 (Dbl.fin q2) = some p2) :
    ∃ p1, Dbl.toU64 (Dbl.fin q1) = some p1 ∧ p1 ≤ p2 := by
  obtain ⟨hlt, hp⟩ := toU64_fin_eq_some (le_trans h0 h) h2
  refine ⟨⌊q1⌋₊, toU64_fin h0 (lt_of_le_of_lt h hlt), ?_⟩
  rw [hp]
  exact Nat.floor_mono h

theorem gt_ofU64_milli (n : ℕ) :
    Dbl.gt (Dbl.ofU64 n) (Dbl.lit (1 / 1000)) = decide (0 < n) := by
  unfold Dbl.ofU64 Dbl.lit Dbl.gt
  rw [rnd_milli]
  rcases Nat.eq_zero_or_pos n with h0 | hpos
  · subst h0
    simp only [Nat.cast_zero, rnd_zero, lt_self_iff_false, decide_False, decide_eq_false_iff_not,
      not_lt]
    norm_num
  · have h1 := one_le_rnd_natCast hpos
    have h2 : (1152921504606847 / 1152921504606846976 : ℚ) < rnd (n : ℚ) :=
      lt_of_lt_of_le (by norm_num) h1
    simp [h2, hpos]

theorem cpuPercentRhs_ofU64 (k s : ℕ) :
    cpuPercentRhs (Dbl.ofU64 k) (Dbl.ofU64 s) =
      if 0 < s ∧ 0 < k then Rhs.percent (Dbl.ofU64 k) (Dbl.ofU64 s) else Rhs.zero := by
  unfold cpuPercentRhs
  rw [gt_ofU64_milli, gt_ofU64_milli]
  simp

theorem percent_value_eq {k s : ℕ} (hs : 0 < s) :
    (Rhs.percent (Dbl.ofU64 k) (Dbl.ofU64 s)).value =
      Dbl.toU64 (Dbl.fin (rnd (rnd (rnd (k : ℚ) / rnd (s : ℚ)) * 100))) := by
  have h : rnd (s : ℚ) ≠ 0 := (lt_of_lt_of_le one_pos (one_le_rnd_natCast hs)).ne'
  simp [Rhs.value, Dbl.ofU64, Dbl.lit, Dbl.div, Dbl.mul, h, rnd_hundred]

theorem ratio_value_eq {k s : ℕ} (hs : 0 < s) :
    (Rhs.ratio (Dbl.ofU64 k) (Dbl.ofU64 s)).value =
      Dbl.toU64 (Dbl.fin (rnd (rnd (k : ℚ) / rnd (s : ℚ)))) := by
  have h : rnd (s : ℚ) ≠ 0 := (lt_of_lt_of_le one_pos (one_le_rnd_natCast hs)).ne'
  simp [Rhs.value, Dbl.ofU64, Dbl.div, h]

theorem ratio_value_zero_den {k : ℕ} (hk : 0 < k) :
    (Rhs.ratio (Dbl.ofU64 k) (Dbl.ofU64 0)).value = none := by
  have h : rnd (k : ℚ) ≠ 0 := (lt_of_lt_of_le one_pos (one_le_rnd_natCast hk)).ne'
  simp [Rhs.value, Dbl.ofU64, Dbl.div, Dbl.toU64, h, rnd_zero]

/-! ## Fields of the record returned by `GetStats` -/

theorem GetStats_CPU_KERNPERCENT (self : PerformanceStats) (os : OsReading) :
    (GetStats self os).1.CPU_KERNPERCENT =
      (cpuPercentRhs (kernelTimeDiff self os) (systemTimeDiff self os)).value := by
  unfold GetStats memStats ioStats cpuStats
  cases os.ioCounters <;> cases os.memInfo <;> simp only [] <;> split_ifs <;> rfl

theorem GetStats_CPU_USERPERCENT (self : PerformanceStats) (os : OsReading) :
    (GetStats self os).1.CPU_USERPERCENT =
      (cpuPercentRhs (userTimeDiff self os) (systemTimeDiff self os)).value := by
  unfold GetStats memStats ioStats cpuStats
  cases os.ioCounters <;> cases os.memInfo <;> simp only [] <;> split_ifs <;> rfl

theorem GetStats_CPU_KERNTOTAL (self : PerformanceStats) (os : OsReading) :
    (GetStats self os).1.CPU_KERNTOTAL = Dbl.toU64 (kernelTimeDiff self os) := by
  unfold GetStats memStats ioStats cpuStats
  cases os.ioCounters <;> cases os.memInfo <;> simp only [] <;> split_ifs <;> rfl

theorem GetStats_fst_of_io {self : PerformanceStats} {os : OsReading} {cur : IO_COUNTERS}
    (h : os.ioCounters = some cur) :
    (GetStats self os).1 = ioStats self.prev_io_counters cur (systemTimeDiff self os)
      (memStats self os (cpuStats self os Stats.uninitialised)) := by
  unfold GetStats
  rw [h]

theorem GetStats_snd_times (self : PerformanceStats) (os : OsReading) :
    (GetStats self os).2.prev_kern_time = os.kernel ∧
    (GetStats self os).2.prev_user_time = os.user ∧
    (GetStats self os).2.prev_system_time = os.now := by
  unfold GetStats
  cases os.ioCounters <;> simp


theorem GetStats_IO_IOPS_READ {self : PerformanceStats} {os : OsReading} {cur : IO_COUNTERS}
    (h : os.ioCounters = some cur) :
    (GetStats self os).1.IO_IOPS_READ =
      some (sub64 cur.ReadOperationCount self.prev_io_counters.ReadOperationCount) := by
  rw [GetStats_fst_of_io h]
  rfl

theorem GetStats_IO_IOPS_WRITE {self : PerformanceStats} {os : OsReading} {cur : IO_COUNTERS}
    (h : os.ioCounters = some cur) :
    (GetStats self os).1.IO_IOPS_WRITE =
      some (sub64 cur.WriteOperationCount self.prev_io_counters.WriteOperationCount) := by
  rw [GetStats_fst_of_io h]
  rfl

theorem GetStats_IO_TOTALBYTESREAD {self : PerformanceStats} {os : OsReading}
    {cur : IO_COUNTERS} (h : os.ioCounters = some cur) :
    (GetStats self os).1.IO_TOTALBYTESREAD =
      some (totalBytesRead self.prev_io_counters cur) := by
  rw [GetStats_fst_of_io h]
  rfl

theorem GetStats_IO_TOTALBYTESWRITE {self : PerformanceStats} {os : OsReading}
    {cur : IO_COUNTERS} (h : os.ioCounters = some cur) :
    (GetStats self os).1.IO_TOTALBYTESWRITE =
      some (totalBytesWrite self.prev_io_counters cur) := by
  rw [GetStats_fst_of_io h]
  rfl

theorem GetStats_IO_BYTESREADPERSEC {self : PerformanceStats} {os : OsReading}
    {cur : IO_COUNTERS} (h : os.ioCounters = some cur) :
    (GetStats self os).1.IO_BYTESREADPERSEC =
      (ioRateRhs (totalBytesRead self.prev_io_counters cur) (systemTimeDiff self os)).value := by
  rw [GetStats_fst_of_io h]
  rfl

theorem GetStats_IO_BYTESWRITEPERSEC {self : PerformanceStats} {os : OsReading}
    {cur : IO_COUNTERS} (h : os.ioCounters = some cur) :
    (GetStats self os).1.IO_BYTESWRITEPERSEC =
      (ioRateRhs (totalBytesWrite self.prev_io_counters cur) (systemTimeDiff self os)).value := by
  rw [GetStats_fst_of_io h]
  rfl

theorem percent_value_small {k s : ℕ} (hs : 0 < s) (hk53 : k < 2 ^ 53) (hs53 : s < 2 ^ 53) :
    (Rhs.percent (Dbl.ofU64 k) (Dbl.ofU64 s)).value =
      Dbl.toU64 (Dbl.fin (rnd (rnd ((k : ℚ) / s) * 100))) := by
  rw [percent_value_eq hs, rnd_natCast hk53, rnd_natCast hs53]

theorem ratio_value_small {k s : ℕ} (hs : 0 < s) (hk53 : k < 2 ^ 53) (hs53 : s < 2 ^ 53) :
    (Rhs.ratio (Dbl.ofU64 k) (Dbl.ofU64 s)).value =
      Dbl.toU64 (Dbl.fin (rnd ((k : ℚ) / s))) := by
  rw [ratio_value_eq hs, rnd_natCast hk53, rnd_natCast hs53]

/-! ## The percentage `(diff / systemTimeDiff) * 100.0` -/

theorem toU64_fin_of_bounds {q : ℚ} {n : ℕ} (h1 : (n : ℚ) ≤ q) (h2 : q < n + 1)
    (h3 : n < 2 ^ 64) : Dbl.toU64 (Dbl.fin q) = some n := by
  have hq : 0 ≤ q := le_trans (by positivity) h1
  have hn : (n : ℚ) + 1 ≤ 2 ^ 64 := by exact_mod_cast h3
  rw [toU64_fin hq (lt_of_lt_of_le h2 hn)]
  congr 1
  exact (Nat.floor_eq_iff hq).mpr ⟨h1, h2⟩

theorem toU64_fin_of_ge {q : ℚ} (h : (2 : ℚ) ^ 64 ≤ q) : Dbl.toU64 (Dbl.fin q) = none := by
  have hq : 0 ≤ q := le_trans (by positivity) h
  have hfl : (2 ^ 64 : ℕ) ≤ ⌊q⌋₊ := Nat.le_floor (by exact_mod_cast h)
  simp only [Dbl.toU64]
  rw [truncQ_of_nonneg hq, if_neg]
  intro hc
  have : ((⌊q⌋₊ : ℕ) : ℤ) < ((2 ^ 64 : ℕ) : ℤ) := by exact_mod_cast hc.2
  have : ⌊q⌋₊ < 2 ^ 64 := by exact_mod_cast this
  omega

theorem percentQ_nonneg (k s : ℕ) :
    0 ≤ rnd (rnd (rnd (k : ℚ) / rnd (s : ℚ)) * 100) := by
  have h1 : 0 ≤ rnd (k : ℚ) := rnd_nonneg (by positivity)
  have h2 : 0 ≤ rnd (s : ℚ) := rnd_nonneg (by positivity)
  exact rnd_nonneg (mul_nonneg (rnd_nonneg (div_nonneg h1 h2)) (by norm_num))

theorem percentQ_mono {k1 k2 : ℕ} (s : ℕ) (h : k1 ≤ k2) :
    rnd (rnd (rnd (k1 : ℚ) / rnd (s : ℚ)) * 100) ≤
      rnd (rnd (rnd (k2 : ℚ) / rnd (s : ℚ)) * 100) := by
  have h1 : 0 ≤ rnd (k1 : ℚ) := rnd_nonneg (by positivity)
  have h2 : 0 ≤ rnd (s : ℚ) := rnd_nonneg (by positivity)
  have h3 : rnd (k1 : ℚ) ≤ rnd (k2 : ℚ) := rnd_mono (by positivity) (by exact_mod_cast h)
  have h4 : rnd (k1 : ℚ) / rnd (s : ℚ) ≤ rnd (k2 : ℚ) / rnd (s : ℚ) :=
    div_le_div_of_nonneg_right h3 h2
  have h5 := rnd_mono (div_nonneg h1 h2) h4
  have h6 : 0 ≤ rnd (rnd (k1 : ℚ) / rnd (s : ℚ)) := rnd_nonneg (div_nonneg h1 h2)
  exact rnd_mono (mul_nonneg h6 (by norm_num)) (mul_le_mul_of_nonneg_right h5 (by norm_num))

theorem percentQ_le_hundred {k s : ℕ} (hs : 0 < s) (h : k ≤ s) :
    rnd (rnd (rnd (k : ℚ) / rnd (s : ℚ)) * 100) ≤ 100 := by
  have h1 : 0 ≤ rnd (k : ℚ) := rnd_nonneg (by positivity)
  have h2 : 0 < rnd (s : ℚ) := lt_of_lt_of_le one_pos (one_le_rnd_natCast hs)
  have h3 : rnd (k : ℚ) ≤ rnd (s : ℚ) := rnd_mono (by positivity) (by exact_mod_cast h)
  have h4 : rnd (k : ℚ) / rnd (s : ℚ) ≤ 1 := (div_le_one h2).mpr h3
  have h5 : rnd (rnd (k : ℚ) / rnd (s : ℚ)) ≤ 1 := by
    have := rnd_mono (div_nonneg h1 h2.le) h4
    rwa [rnd_one] at this
  have h6 : 0 ≤ rnd (rnd (k : ℚ) / rnd (s : ℚ)) := rnd_nonneg (div_nonneg h1 h2.le)
  have h7 : rnd (rnd (k : ℚ) / rnd (s : ℚ)) * 100 ≤ 100 := by linarith
  have := rnd_mono (mul_nonneg h6 (by norm_num)) h7
  rwa [rnd_hundred] at this

theorem cpuPercent_le_hundred {k s : ℕ} (h : k ≤ s) :
    ∃ p, (cpuPercentRhs (Dbl.ofU64 k) (Dbl.ofU64 s)).value = some p ∧ p ≤ 100 := by
  rw [cpuPercentRhs_ofU64]
  split_ifs with hc
  · rw [percent_value_eq hc.1]
    have h1 := percentQ_le_hundred hc.1 h
    have h0 := percentQ_nonneg k s
    refine ⟨_, toU64_fin h0 (lt_of_le_of_lt h1 (by norm_num)), ?_⟩
    have : ⌊rnd (rnd (rnd (k : ℚ) / rnd (s : ℚ)) * 100)⌋₊ ≤ ⌊(100 : ℚ)⌋₊ := Nat.floor_mono h1
    simpa using this
  · exact ⟨0, rfl, by norm_num⟩

theorem cpuPercent_mono {k1 k2 s p2 : ℕ} (h : k1 ≤ k2)
    (h2 : (cpuPercentRhs (Dbl.ofU64 k2) (Dbl.ofU64 s)).value = some p2) :
    ∃ p1, (cpuPercentRhs (Dbl.ofU64 k1) (Dbl.ofU64 s)).value = some p1 ∧ p1 ≤ p2 := by
  rw [cpuPercentRhs_ofU64] at h2 ⊢
  by_cases hc1 : 0 < s ∧ 0 < k1
  · have hc2 : 0 < s ∧ 0 < k2 := ⟨hc1.1, lt_of_lt_of_le hc1.2 h⟩
    rw [if_pos hc2, percent_value_eq hc2.1] at h2
    rw [if_pos hc1, percent_value_eq hc1.1]
    exact toU64_fin_mono (percentQ_nonneg k1 s) (percentQ_mono s h) h2
  · rw [if_neg hc1]
    exact ⟨0, rfl, Nat.zero_le _⟩

theorem rnd_rel_le {x : ℚ} (hx : 0 < x) : |rnd x - x| ≤ x / 2 ^ (53 : ℕ) := by
  have h1 := abs_rnd_sub_le x
  have h2 := ulp_le_mul hx
  have h3 : x / 2 ^ (52 : ℕ) / 2 = x / 2 ^ (53 : ℕ) := by
    rw [div_div]
    norm_num
  linarith

theorem percentQ_near {k s : ℕ} (hk : 0 < k) (hs : 0 < s) (hk53 : k < 2 ^ 53)
    (hs53 : s < 2 ^ 53) (hr : 100 * k ≤ 2 ^ 51 * s) :
    |rnd (rnd (rnd (k : ℚ) / rnd (s : ℚ)) * 100) - 100 * (k : ℚ) / s| < 1 := by
  rw [rnd_natCast hk53, rnd_natCast hs53]
  have hkq : (0 : ℚ) < k := by exact_mod_cast hk
  have hsq : (0 : ℚ) < s := by exact_mod_cast hs
  have hr0 : (0 : ℚ) < (k : ℚ) / s := div_pos hkq hsq
  have ha := abs_le.mp (rnd_rel_le hr0)
  have ha0 : 0 < rnd ((k : ℚ) / s) := rnd_pos hr0
  have hb0 : 0 < rnd ((k : ℚ) / s) * 100 := by positivity
  have hy := abs_le.mp (rnd_rel_le hb0)
  have hx : 100 * ((k : ℚ) / s) ≤ 2 ^ (51 : ℕ) := by
    rw [← mul_div_assoc, div_le_iff₀ hsq]
    exact_mod_cast hr
  have hxe : 100 * (k : ℚ) / s = 100 * ((k : ℚ) / s) := by ring
  rw [hxe, abs_lt]
  generalize (k : ℚ) / s = r at *
  generalize rnd r = a at *
  generalize rnd (a * 100) = y at *
  norm_num at ha hy hx ⊢
  constructor <;> linarith [ha.1, ha.2, hy.1, hy.2]

theorem cpuPercent_within_one {k s : ℕ} (hk : 0 < k) (hs : 0 < s) (hk53 : k < 2 ^ 53)
    (hs53 : s < 2 ^ 53) (hr : 100 * k ≤ 2 ^ 51 * s) :
    ∃ p, (cpuPercentRhs (Dbl.ofU64 k) (Dbl.ofU64 s)).value = some p ∧
      100 * k / s ≤ p + 1 ∧ p ≤ 100 * k / s + 1 := by
  rw [cpuPercentRhs_ofU64, if_pos ⟨hs, hk⟩, percent_value_eq hs]
  have hn := abs_lt.mp (percentQ_near hk hs hk53 hs53 hr)
  have h0 := percentQ_nonneg k s
  have hsq : (0 : ℚ) < s := by exact_mod_cast hs
  have hx : 100 * (k : ℚ) / s ≤ 2 ^ (51 : ℕ) := by
    rw [div_le_iff₀ hsq]
    exact_mod_cast hr
  generalize rnd (rnd (rnd (k : ℚ) / rnd (s : ℚ)) * 100) = y at *
  have hylt : y < 2 ^ 64 := by
    have : (2 : ℚ) ^ (51 : ℕ) + 1 < 2 ^ 64 := by norm_num
    linarith [hn.2]
  refine ⟨⌊y⌋₊, toU64_fin h0 hylt, ?_, ?_⟩
  · have hfl : ((100 * k / s : ℕ) : ℚ) ≤ 100 * (k : ℚ) / s := by
      have := Nat.cast_div_le (α := ℚ) (m := 100 * k) (n := s)
      push_cast at this ⊢
      exact this
    have h1 : y < (⌊y⌋₊ : ℚ) + 1 := Nat.lt_floor_add_one y
    have h2 : ((100 * k / s : ℕ) : ℚ) < ((⌊y⌋₊ + 2 : ℕ) : ℚ) := by
      push_cast
      linarith [hn.1]
    have h3 : 100 * k / s < ⌊y⌋₊ + 2 := by exact_mod_cast h2
    omega
  · have hfl : 100 * (k : ℚ) / s < ((100 * k / s : ℕ) : ℚ) + 1 := by
      have h := Nat.lt_floor_add_one (100 * (k : ℚ) / s)
      have h2 : ⌊100 * (k : ℚ) / s⌋₊ = 100 * k / s := by
        have := Nat.floor_div_eq_div (α := ℚ) (100 * k) s
        push_cast at this
        exact this
      rw [h2] at h
      exact h
    have h1 : (⌊y⌋₊ : ℚ) ≤ y := Nat.floor_le h0
    have h2 : ((⌊y⌋₊ : ℕ) : ℚ) < ((100 * k / s + 2 : ℕ) : ℚ) := by
      push_cast
      push_cast at hfl
      linarith [hn.2]
    have h3 : ⌊y⌋₊ < 100 * k / s + 2 := by exact_mod_cast h2
    omega

/-! ## The doubles of `GetStats` stay inside the normal range of binary64 -/

theorem rnd_two_zpow (e : ℤ) : rnd ((2 : ℚ) ^ e) = (2 : ℚ) ^ e := by
  have h2 : (2 : ℚ) ^ e < (2 : ℚ) ^ (e + 1) := zpow_lt_zpow_right₀ (by norm_num) (by omega)
  have h3 : (2 : ℚ) ^ e / (2 : ℚ) ^ (e - 52) = ((2 ^ 52 : ℤ) : ℚ) := by
    rw [← zpow_sub₀ (by norm_num : (2 : ℚ) ≠ 0)]
    have : e - (e - 52) = ((52 : ℕ) : ℤ) := by omega
    rw [this, zpow_natCast]
    norm_num
  rw [rnd_eq_of_binade e (2 ^ 52) le_rfl h2 (by rw [h3]; norm_num)]
  have h4 : (2 : ℚ) ^ e = (2 : ℚ) ^ (52 : ℤ) * (2 : ℚ) ^ (e - 52) := by
    rw [← zpow_add₀ (by norm_num : (2 : ℚ) ≠ 0)]
    congr 1
    omega
  rw [h4]
  norm_num

theorem rnd_natCast_le_two_pow {n : ℕ} (h : n < 2 ^ 64) : rnd (n : ℚ) ≤ 2 ^ (64 : ℕ) := by
  have h1 : (n : ℚ) ≤ (2 : ℚ) ^ (64 : ℤ) := by
    have : (n : ℚ) ≤ ((2 ^ 64 : ℕ) : ℚ) := by exact_mod_cast h.le
    norm_num at this ⊢
    exact this
  have := rnd_mono (by positivity) h1
  rw [rnd_two_zpow] at this
  norm_num at this ⊢
  exact this

/-- For counters `0 < k, s < 2 ^ 64`, every double that the percentage and the rate
computations produce lies between `2 ^ (-64)` and `2 ^ 71`: no overflow and no subnormal
number arises, which is why `rnd` needs no exponent bounds. -/
theorem doubles_in_normal_range {k s : ℕ} (hk : 0 < k) (hk64 : k < 2 ^ 64) (hs : 0 < s)
    (hs64 : s < 2 ^ 64) :
    (1 ≤ rnd (k : ℚ) ∧ rnd (k : ℚ) ≤ 2 ^ (64 : ℕ)) ∧
    ((2 : ℚ) ^ (-64 : ℤ) ≤ rnd (rnd (k : ℚ) / rnd (s : ℚ)) ∧
      rnd (rnd (k : ℚ) / rnd (s : ℚ)) ≤ (2 : ℚ) ^ (64 : ℤ)) ∧
    ((2 : ℚ) ^ (-58 : ℤ) ≤ rnd (rnd (rnd (k : ℚ) / rnd (s : ℚ)) * 100) ∧
      rnd (rnd (rnd (k : ℚ) / rnd (s : ℚ)) * 100) ≤ (2 : ℚ) ^ (71 : ℤ)) := by
  have hk1 := one_le_rnd_natCast hk
  have hs1 := one_le_rnd_natCast hs
  have hk2 := rnd_natCast_le_two_pow hk64
  have hs2 := rnd_natCast_le_two_pow hs64
  have hspos : 0 < rnd (s : ℚ) := lt_of_lt_of_le one_pos hs1
  have hq1 : (2 : ℚ) ^ (-64 : ℤ) ≤ rnd (k : ℚ) / rnd (s : ℚ) := by
    rw [le_div_iff₀ hspos]
    have : (2 : ℚ) ^ (-64 : ℤ) * rnd (s : ℚ) ≤ 1 := by
      have h : (2 : ℚ) ^ (-64 : ℤ) * 2 ^ (64 : ℕ) = 1 := by norm_num
      nlinarith [h, hs2]
    linarith
  have hq2 : rnd (k : ℚ) / rnd (s : ℚ) ≤ (2 : ℚ) ^ (64 : ℤ) := by
    rw [div_le_iff₀ hspos]
    have h : (2 : ℚ) ^ (64 : ℤ) = 2 ^ (64 : ℕ) := by norm_num
    rw [h]
    nlinarith [hk2, hs1]
  have hq0 : 0 ≤ rnd (k : ℚ) / rnd (s : ℚ) := le_trans (by positivity) hq1
  have hr1 : (2 : ℚ) ^ (-64 : ℤ) ≤ rnd (rnd (k : ℚ) / rnd (s : ℚ)) := by
    have := rnd_mono (by positivity) hq1
    rwa [rnd_two_zpow] at this
  have hr2 : rnd (rnd (k : ℚ) / rnd (s : ℚ)) ≤ (2 : ℚ) ^ (64 : ℤ) := by
    have := rnd_mono hq0 hq2
    rwa [rnd_two_zpow] at this
  have hr0 : 0 ≤ rnd (rnd (k : ℚ) / rnd (s : ℚ)) := le_trans (by positivity) hr1
  have hp1 : (2 : ℚ) ^ (-58 : ℤ) ≤ rnd (rnd (k : ℚ) / rnd (s : ℚ)) * 100 := by
    have h : (2 : ℚ) ^ (-58 : ℤ) = (2 : ℚ) ^ (-64 : ℤ) * 64 := by norm_num
    rw [h]
    nlinarith [hr1]
  have hp2 : rnd (rnd (k : ℚ) / rnd (s : ℚ)) * 100 ≤ (2 : ℚ) ^ (71 : ℤ) := by
    have h : (2 : ℚ) ^ (71 : ℤ) = (2 : ℚ) ^ (64 : ℤ) * 128 := by norm_num
    rw [h]
    nlinarith [hr2]
  refine ⟨⟨hk1, hk2⟩, ⟨hr1, hr2⟩, ?_, ?_⟩
  · have := rnd_mono (by positivity) hp1
    rwa [rnd_two_zpow] at this
  · have := rnd_mono (mul_nonneg hr0 (by norm_num)) hp2
    rwa [rnd_two_zpow] at this

/-! ## Byte rates -/

theorem rnd_mebibyte_per_second :
    rnd (((1048576 : ℕ) : ℚ) / ((10000000 : ℕ) : ℚ)) =
      7555786372591432 * (2 : ℚ) ^ (-56 : ℤ) := by
  rw [rnd_eq_of_binade (-4) 7555786372591432 (by norm_num) (by norm_num)
    (by rw [abs_lt]; norm_num)]
  norm_num

theorem ratio_mebibyte_per_second :
    (ioRateRhs 1048576 (Dbl.ofU64 10000000)).value = some 0 := by
  have h : ioRateRhs 1048576 (Dbl.ofU64 10000000) =
      Rhs.ratio (Dbl.ofU64 1048576) (Dbl.ofU64 10000000) := by
    simp [ioRateRhs]
  rw [h, ratio_value_small (by norm_num) (by norm_num) (by norm_num), rnd_mebibyte_per_second]
  exact toU64_fin_of_bounds (by norm_num) (by norm_num) (by norm_num)

/-- C1. Failing input: a read-byte and a write-byte delta of 1,048,576 over an elapsed time of
10,000,000 ticks (one second). `GetStats` divides the byte delta by the elapsed time in ticks,
not in seconds, and stores `IO_BYTESREADPERSEC = IO_BYTESWRITEPERSEC = 0`, not 1,048,576. -/
theorem io_bytes_per_sec_divides_by_ticks :
    systemDelta (samplerAt 0 0 0 (ioOf 0 0 0 0))
        (readingAt 10000000 0 0 (some (ioOf 0 0 1048576 1048576))) = 10000000 ∧
    (GetStats (samplerAt 0 0 0 (ioOf 0 0 0 0))
        (readingAt 10000000 0 0 (some (ioOf 0 0 1048576 1048576)))).1.IO_TOTALBYTESREAD =
      some 1048576 ∧
    (GetStats (samplerAt 0 0 0 (ioOf 0 0 0 0))
        (readingAt 10000000 0 0 (some (ioOf 0 0 1048576 1048576)))).1.IO_BYTESREADPERSEC =
      some 0 ∧
    (GetStats (samplerAt 0 0 0 (ioOf 0 0 0 0))
        (readingAt 10000000 0 0 (some (ioOf 0 0 1048576 1048576)))).1.IO_TOTALBYTESWRITE =
      some 1048576 ∧
    (GetStats (samplerAt 0 0 0 (ioOf 0 0 0 0))
        (readingAt 10000000 0 0 (some (ioOf 0 0 1048576 1048576)))).1.IO_BYTESWRITEPERSEC =
      some 0 := by
  have hs : systemDelta (samplerAt 0 0 0 (ioOf 0 0 0 0))
      (readingAt 10000000 0 0 (some (ioOf 0 0 1048576 1048576))) = 10000000 := by
    simp [systemDelta, samplerAt, readingAt, sub64]
  have hr : totalBytesRead (samplerAt 0 0 0 (ioOf 0 0 0 0)).prev_io_counters
      (ioOf 0 0 1048576 1048576) = 1048576 := by
    simp [totalBytesRead, samplerAt, ioOf, sub64]
  have hw : totalBytesWrite (samplerAt 0 0 0 (ioOf 0 0 0 0)).prev_io_counters
      (ioOf 0 0 1048576 1048576) = 1048576 := by
    simp [totalBytesWrite, samplerAt, ioOf, sub64]
  have hio : (readingAt 10000000 0 0 (some (ioOf 0 0 1048576 1048576))).ioCounters =
      some (ioOf 0 0 1048576 1048576) := rfl
  refine ⟨hs, ?_, ?_, ?_, ?_⟩
  · rw [GetStats_IO_TOTALBYTESREAD hio, hr]
  · rw [GetStats_IO_BYTESREADPERSEC hio, hr, systemTimeDiff, hs]
    exact ratio_mebibyte_per_second
  · rw [GetStats_IO_TOTALBYTESWRITE hio, hw]
  · rw [GetStats_IO_BYTESWRITEPERSEC hio, hw, systemTimeDiff, hs]
    exact ratio_mebibyte_per_second

/-! ## Counter resets -/

theorem one_le_rnd_sub64_of_lt {a b : ℕ} (hb : b < 2 ^ 64) (hab : a < b) :
    1 ≤ rnd ((sub64 a b : ℕ) : ℚ) := by
  apply one_le_rnd_natCast
  rw [sub64_of_lt hb hab]
  omega

theorem cpuPercentRhs_zero_den (d : Dbl) : cpuPercentRhs d (Dbl.ofU64 0) = Rhs.zero := by
  unfold cpuPercentRhs
  rw [gt_ofU64_milli]
  simp

theorem cpuPercent_zero_of_now_eq (self : PerformanceStats) (os : OsReading)
    (h : os.now = self.prev_system_time) :
    (GetStats self os).1.CPU_KERNPERCENT = some 0 ∧
    (GetStats self os).1.CPU_USERPERCENT = some 0 := by
  have hs : systemTimeDiff self os = Dbl.ofU64 0 := by
    rw [systemTimeDiff, systemDelta, h, sub64_self]
  rw [GetStats_CPU_KERNPERCENT, GetStats_CPU_USERPERCENT, hs, cpuPercentRhs_zero_den,
    cpuPercentRhs_zero_den]
  exact ⟨rfl, rfl⟩

/-- C3. When the new wall-clock time equals the stored one, `GetStats` sets `CPU_KERNPERCENT`
and `CPU_USERPERCENT` to 0, whatever the kernel-time and user-time readings are. -/
theorem cpu_percent_zero_of_no_elapsed_time (self : PerformanceStats) (os : OsReading)
    (h : os.now = self.prev_system_time) :
    (GetStats self os).1.CPU_KERNPERCENT = some 0 ∧
    (GetStats self os).1.CPU_USERPERCENT = some 0 :=
  cpuPercent_zero_of_now_eq self os h

/-- C3 at a concrete sample: stored wall clock 5000, new wall clock 5000, kernel and user time
advanced by 700 and 900 ticks. -/
theorem cpu_percent_zero_of_no_elapsed_time_witness :
    (readingAt 5000 1700 2900 none).now =
      (samplerAt 1000 2000 5000 (ioOf 0 0 0 0)).prev_system_time ∧
    (GetStats (samplerAt 1000 2000 5000 (ioOf 0 0 0 0))
      (readingAt 5000 1700 2900 none)).1.CPU_KERNPERCENT = some 0 ∧
    (GetStats (samplerAt 1000 2000 5000 (ioOf 0 0 0 0))
      (readingAt 5000 1700 2900 none)).1.CPU_USERPERCENT = some 0 :=
  ⟨rfl, cpu_percent_zero_of_no_elapsed_time (samplerAt 1000 2000 5000 (ioOf 0 0 0 0))
    (readingAt 5000 1700 2900 none) rfl⟩

theorem ioRate_zero_elapsed {total : ℕ} (h : total ≠ 0) :
    (ioRateRhs total (Dbl.ofU64 0)).divisor = some (Dbl.fin 0) ∧
    (ioRateRhs total (Dbl.ofU64 0)).value = none := by
  have h1 : ioRateRhs total (Dbl.ofU64 0) = Rhs.ratio (Dbl.ofU64 total) (Dbl.ofU64 0) := by
    simp [ioRateRhs, h]
  rw [h1]
  refine ⟨?_, ratio_value_zero_den (Nat.pos_of_ne_zero h)⟩
  simp [Rhs.divisor, Dbl.ofU64, rnd_zero]

/-- C4. Failing input: the new wall-clock time equals the stored one (5000) and 4096 bytes
were read in between. The CPU percentages are 0, but the assignment of `IO_BYTESREADPERSEC`
evaluates `4096 / systemTimeDiff` with the divisor `0.0`: a division by zero is performed, its
result is infinite, and the field receives no defined value instead of 0. -/
theorem io_rate_divides_by_zero_elapsed_time :
    systemDelta (samplerAt 0 0 5000 (ioOf 0 0 0 0))
        (readingAt 5000 0 0 (some (ioOf 1 0 4096 0))) = 0 ∧
    (GetStats (samplerAt 0 0 5000 (ioOf 0 0 0 0))
        (readingAt 5000 0 0 (some (ioOf 1 0 4096 0)))).1.CPU_KERNPERCENT = some 0 ∧
    (GetStats (samplerAt 0 0 5000 (ioOf 0 0 0 0))
        (readingAt 5000 0 0 (some (ioOf 1 0 4096 0)))).1.IO_TOTALBYTESREAD = some 4096 ∧
    (ioRateRhs 4096 (systemTimeDiff (samplerAt 0 0 5000 (ioOf 0 0 0 0))
        (readingAt 5000 0 0 (some (ioOf 1 0 4096 0))))).divisor = some (Dbl.fin 0) ∧
    (GetStats (samplerAt 0 0 5000 (ioOf 0 0 0 0))
        (readingAt 5000 0 0 (some (ioOf 1 0 4096 0)))).1.IO_BYTESREADPERSEC = none := by
  have hs : systemDelta (samplerAt 0 0 5000 (ioOf 0 0 0 0))
      (readingAt 5000 0 0 (some (ioOf 1 0 4096 0))) = 0 := sub64_self 5000
  have hr : totalBytesRead (samplerAt 0 0 5000 (ioOf 0 0 0 0)).prev_io_counters
      (ioOf 1 0 4096 0) = 4096 := by
    simp [totalBytesRead, samplerAt, ioOf, sub64]
  have hio : (readingAt 5000 0 0 (some (ioOf 1 0 4096 0))).ioCounters =
      some (ioOf 1 0 4096 0) := rfl
  have hz := ioRate_zero_elapsed (by norm_num : (4096 : ℕ) ≠ 0)
  refine ⟨hs, ?_, ?_, ?_, ?_⟩
  · rw [GetStats_CPU_KERNPERCENT, systemTimeDiff, hs, cpuPercentRhs_zero_den]
    rfl
  · rw [GetStats_IO_TOTALBYTESREAD hio, hr]
  · rw [systemTimeDiff, hs]
    exact hz.1
  · rw [GetStats_IO_BYTESREADPERSEC hio, hr, systemTimeDiff, hs]
    exact hz.2

/-! ## CPU percentages -/

theorem GetStats_kernPercent_eq (self : PerformanceStats) (os : OsReading) :
    (GetStats self os).1.CPU_KERNPERCENT =
      (cpuPercentRhs (Dbl.ofU64 (kernelDelta self os)) (Dbl.ofU64 (systemDelta self os))).value :=
  GetStats_CPU_KERNPERCENT self os

theorem GetStats_userPercent_eq (self : PerformanceStats) (os : OsReading) :
    (GetStats self os).1.CPU_USERPERCENT =
      (cpuPercentRhs (Dbl.ofU64 (userDelta self os)) (Dbl.ofU64 (systemDelta self os))).value :=
  GetStats_CPU_USERPERCENT self os

theorem rnd_29_percent :
    rnd (rnd (((29 : ℕ) : ℚ) / ((100 : ℕ) : ℚ)) * 100) =
      8162774324609023 * (2 : ℚ) ^ (-48 : ℤ) := by
  have h1 : rnd (((29 : ℕ) : ℚ) / ((100 : ℕ) : ℚ)) = 5224175567749775 * (2 : ℚ) ^ (-54 : ℤ) := by
    rw [rnd_eq_of_binade (-2) 5224175567749775 (by norm_num) (by norm_num)
      (by rw [abs_lt]; norm_num)]
    norm_num
  rw [h1, rnd_eq_of_binade 4 8162774324609023 (by norm_num) (by norm_num)
    (by rw [abs_lt]; norm_num)]
  norm_num

/-- C5, counterexample. With `kernelDiff = 29` and `systemTimeDiff = 100` the double quotient
`29.0 / 100.0` is slightly below 0.29, its product with `100.0` rounds to `29 - 2 ^ (-48)`, and
`GetStats` stores `CPU_KERNPERCENT = 28`, whereas `floor (100 * 29 / 100) = 29`. -/
theorem cpu_percent_not_exact_floor :
    0 < systemDelta (samplerAt 0 0 0 (ioOf 0 0 0 0)) (readingAt 100 29 0 none) ∧
    0 < kernelDelta (samplerAt 0 0 0 (ioOf 0 0 0 0)) (readingAt 100 29 0 none) ∧
    (GetStats (samplerAt 0 0 0 (ioOf 0 0 0 0)) (readingAt 100 29 0 none)).1.CPU_KERNPERCENT =
      some 28 ∧
    (GetStats (samplerAt 0 0 0 (ioOf 0 0 0 0)) (readingAt 100 29 0 none)).1.CPU_KERNPERCENT ≠
      some (100 * kernelDelta (samplerAt 0 0 0 (ioOf 0 0 0 0)) (readingAt 100 29 0 none) /
        systemDelta (samplerAt 0 0 0 (ioOf 0 0 0 0)) (readingAt 100 29 0 none)) := by
  have hs : systemDelta (samplerAt 0 0 0 (ioOf 0 0 0 0)) (readingAt 100 29 0 none) = 100 := by
    simp [systemDelta, samplerAt, readingAt, sub64]
  have hk : kernelDelta (samplerAt 0 0 0 (ioOf 0 0 0 0)) (readingAt 100 29 0 none) = 29 := by
    simp [kernelDelta, samplerAt, readingAt, sub64]
  have hv : (GetStats (samplerAt 0 0 0 (ioOf 0 0 0 0))
      (readingAt 100 29 0 none)).1.CPU_KERNPERCENT = some 28 := by
    rw [GetStats_kernPercent_eq, hs, hk, cpuPercentRhs_ofU64, if_pos (by norm_num),
      percent_value_small (by norm_num) (by norm_num) (by norm_num), rnd_29_percent]
    exact toU64_fin_of_bounds (by norm_num) (by norm_num) (by norm_num)
  refine ⟨by rw [hs]; norm_num, by rw [hk]; norm_num, hv, ?_⟩
  rw [hv, hs, hk]
  norm_num

/-- C5, amended. For every sample with `systemTimeDiff > 0` and `kernelDiff > 0`, both below
`2 ^ 53` ticks, and an exact percentage `100 * kernelDiff / systemTimeDiff` of at most `2 ^ 51`,
`CPU_KERNPERCENT` is the double-precision value of `(kernelDiff / systemTimeDiff) * 100.0`
truncated toward zero, which is a defined integer that differs from
`floor (100 * kernelDiff / systemTimeDiff)` by at most 1; likewise `CPU_USERPERCENT` with
`userDiff`. -/
theorem cpu_percent_within_one_of_floor (self : PerformanceStats) (os : OsReading)
    (hs : 0 < systemDelta self os) (hs53 : systemDelta self os < 2 ^ 53) :
    (0 < kernelDelta self os → kernelDelta self os < 2 ^ 53 →
      100 * kernelDelta self os ≤ 2 ^ 51 * systemDelta self os →
      ∃ p, (GetStats self os).1.CPU_KERNPERCENT = some p ∧
        100 * kernelDelta self os / systemDelta self os ≤ p + 1 ∧
        p ≤ 100 * kernelDelta self os / systemDelta self os + 1) ∧
    (0 < userDelta self os → userDelta self os < 2 ^ 53 →
      100 * userDelta self os ≤ 2 ^ 51 * systemDelta self os →
      ∃ p, (GetStats self os).1.CPU_USERPERCENT = some p ∧
        100 * userDelta self os / systemDelta self os ≤ p + 1 ∧
        p ≤ 100 * userDelta self os / systemDelta self os + 1) := by
  constructor
  · intro hk hk53 hr
    rw [GetStats_kernPercent_eq]
    exact cpuPercent_within_one hk hs hk53 hs53 hr
  · intro hu hu53 hr
    rw [GetStats_userPercent_eq]
    exact cpuPercent_within_one hu hs hu53 hs53 hr

/-- C5, amended, at the sample `kernelDiff = 29`, `systemTimeDiff = 100`: the percentage is
defined and within 1 of `floor (100 * 29 / 100)`. -/
theorem cpu_percent_within_one_of_floor_witness :
    0 < systemDelta (samplerAt 0 0 0 (ioOf 0 0 0 0)) (readingAt 100 29 0 none) ∧
    systemDelta (samplerAt 0 0 0 (ioOf 0 0 0 0)) (readingAt 100 29 0 none) < 2 ^ 53 ∧
    ∃ p, (GetStats (samplerAt 0 0 0 (ioOf 0 0 0 0))
        (readingAt 100 29 0 none)).1.CPU_KERNPERCENT = some p ∧
      100 * kernelDelta (samplerAt 0 0 0 (ioOf 0 0 0 0)) (readingAt 100 29 0 none) /
        systemDelta (samplerAt 0 0 0 (ioOf 0 0 0 0)) (readingAt 100 29 0 none) ≤ p + 1 ∧
      p ≤ 100 * kernelDelta (samplerAt 0 0 0 (ioOf 0 0 0 0)) (readingAt 100 29 0 none) /
        systemDelta (samplerAt 0 0 0 (ioOf 0 0 0 0)) (readingAt 100 29 0 none) + 1 := by
  have hs : systemDelta (samplerAt 0 0 0 (ioOf 0 0 0 0)) (readingAt 100 29 0 none) = 100 := by
    simp [systemDelta, samplerAt, readingAt, sub64]
  have hk : kernelDelta (samplerAt 0 0 0 (ioOf 0 0 0 0)) (readingAt 100 29 0 none) = 29 := by
    simp [kernelDelta, samplerAt, readingAt, sub64]
  have h1 : 0 < systemDelta (samplerAt 0 0 0 (ioOf 0 0 0 0)) (readingAt 100 29 0 none) := by
    rw [hs]; norm_num
  have h2 : systemDelta (samplerAt 0 0 0 (ioOf 0 0 0 0)) (readingAt 100 29 0 none) < 2 ^ 53 := by
    rw [hs]; norm_num
  exact ⟨h1, h2, (cpu_percent_within_one_of_floor (samplerAt 0 0 0 (ioOf 0 0 0 0))
    (readingAt 100 29 0 none) h1 h2).1 (by rw [hk]; norm_num) (by rw [hk]; norm_num)
    (by rw [hk, hs]; norm_num)⟩

/-- C6. When the wall clock has advanced and the kernel delta is at most the elapsed time,
`CPU_KERNPERCENT` is a defined value in `[0, 100]`; the same for `CPU_USERPERCENT` with the
user delta. -/
theorem cpu_percent_in_range (self : PerformanceStats) (os : OsReading)
    (_hclock : self.prev_system_time < os.now) :
    (kernelDelta self os ≤ systemDelta self os →
      ∃ p, (GetStats self os).1.CPU_KERNPERCENT = some p ∧ 0 ≤ p ∧ p ≤ 100) ∧
    (userDelta self os ≤ systemDelta self os →
      ∃ p, (GetStats self os).1.CPU_USERPERCENT = some p ∧ 0 ≤ p ∧ p ≤ 100) := by
  constructor
  · intro h
    rw [GetStats_kernPercent_eq]
    obtain ⟨p, hp, hle⟩ := cpuPercent_le_hundred h
    exact ⟨p, hp, Nat.zero_le p, hle⟩
  · intro h
    rw [GetStats_userPercent_eq]
    obtain ⟨p, hp, hle⟩ := cpuPercent_le_hundred h
    exact ⟨p, hp, Nat.zero_le p, hle⟩

/-- C6 at a concrete sample: one second elapsed, the kernel time advanced by the full
second. -/
theorem cpu_percent_in_range_witness :
    (samplerAt 1000 2000 0 (ioOf 0 0 0 0)).prev_system_time <
      (readingAt 10000000 10001000 2000 none).now ∧
    kernelDelta (samplerAt 1000 2000 0 (ioOf 0 0 0 0)) (readingAt 10000000 10001000 2000 none) ≤
      systemDelta (samplerAt 1000 2000 0 (ioOf 0 0 0 0))
        (readingAt 10000000 10001000 2000 none) ∧
    ∃ p, (GetStats (samplerAt 1000 2000 0 (ioOf 0 0 0 0))
        (readingAt 10000000 10001000 2000 none)).1.CPU_KERNPERCENT = some p ∧
      0 ≤ p ∧ p ≤ 100 := by
  have hc : (samplerAt 1000 2000 0 (ioOf 0 0 0 0)).prev_system_time <
      (readingAt 10000000 10001000 2000 none).now := by
    simp [samplerAt, readingAt]
  have hk : kernelDelta (samplerAt 1000 2000 0 (ioOf 0 0 0 0))
      (readingAt 10000000 10001000 2000 none) ≤
      systemDelta (samplerAt 1000 2000 0 (ioOf 0 0 0 0))
        (readingAt 10000000 10001000 2000 none) := by
    simp [kernelDelta, systemDelta, samplerAt, readingAt, sub64]
  exact ⟨hc, hk, (cpu_percent_in_range (samplerAt 1000 2000 0 (ioOf 0 0 0 0))
    (readingAt 10000000 10001000 2000 none) hc).1 hk⟩

theorem rnd_huge_percent :
    rnd (rnd (rnd (((2 ^ 63 : ℕ) : ℕ) : ℚ) / rnd ((1 : ℕ) : ℚ)) * 100) = 100 * 2 ^ 63 := by
  have h1 : rnd (((2 ^ 63 : ℕ) : ℕ) : ℚ) = 2 ^ 63 := by
    rw [rnd_eq_of_binade 63 4503599627370496 (by norm_num) (by norm_num)
      (by rw [abs_lt]; norm_num)]
    norm_num
  have h2 : rnd ((2 : ℚ) ^ 63) = 2 ^ 63 := by
    rw [rnd_eq_of_binade 63 4503599627370496 (by norm_num) (by norm_num)
      (by rw [abs_lt]; norm_num)]
    norm_num
  rw [h1, rnd_natCast (by norm_num), Nat.cast_one, div_one, h2,
    rnd_eq_of_binade 69 7036874417766400 (by norm_num) (by norm_num)
      (by rw [abs_lt]; norm_num)]
  norm_num

theorem rnd_unit_percent :
    rnd (rnd (rnd ((1 : ℕ) : ℚ) / rnd ((1 : ℕ) : ℚ)) * 100) = 100 := by
  rw [rnd_natCast (by norm_num), Nat.cast_one, div_one, rnd_one, one_mul, rnd_hundred]

/-- C7, counterexample. With `systemTimeDiff = 1` tick, the kernel deltas `1 ≤ 2 ^ 63` give the
percentage 100 for the smaller one, while for the larger one the double `100 * 2 ^ 63` is
beyond the range of `quint64` and `CPU_KERNPERCENT` receives no defined value: the field is
not a value at least 100. -/
theorem cpu_percent_order_fails_out_of_range :
    systemDelta (samplerAt 0 0 0 (ioOf 0 0 0 0)) (readingAt 1 1 0 none) =
      systemDelta (samplerAt 0 0 0 (ioOf 0 0 0 0)) (readingAt 1 (2 ^ 63) 0 none) ∧
    0 < systemDelta (samplerAt 0 0 0 (ioOf 0 0 0 0)) (readingAt 1 1 0 none) ∧
    kernelDelta (samplerAt 0 0 0 (ioOf 0 0 0 0)) (readingAt 1 1 0 none) ≤
      kernelDelta (samplerAt 0 0 0 (ioOf 0 0 0 0)) (readingAt 1 (2 ^ 63) 0 none) ∧
    (GetStats (samplerAt 0 0 0 (ioOf 0 0 0 0)) (readingAt 1 1 0 none)).1.CPU_KERNPERCENT =
      some 100 ∧
    ¬ ∃ p2, (GetStats (samplerAt 0 0 0 (ioOf 0 0 0 0))
        (readingAt 1 (2 ^ 63) 0 none)).1.CPU_KERNPERCENT = some p2 ∧ 100 ≤ p2 := by
  have hsA : systemDelta (samplerAt 0 0 0 (ioOf 0 0 0 0)) (readingAt 1 1 0 none) = 1 := by
    simp [systemDelta, samplerAt, readingAt, sub64]
  have hsB : systemDelta (samplerAt 0 0 0 (ioOf 0 0 0 0)) (readingAt 1 (2 ^ 63) 0 none) = 1 := by
    simp [systemDelta, samplerAt, readingAt, sub64]
  have hkA : kernelDelta (samplerAt 0 0 0 (ioOf 0 0 0 0)) (readingAt 1 1 0 none) = 1 := by
    simp [kernelDelta, samplerAt, readingAt, sub64]
  have hkB : kernelDelta (samplerAt 0 0 0 (ioOf 0 0 0 0)) (readingAt 1 (2 ^ 63) 0 none) =
      2 ^ 63 := by
    simp [kernelDelta, samplerAt, readingAt, sub64]
  refine ⟨by rw [hsA, hsB], by rw [hsA]; norm_num, by rw [hkA, hkB]; norm_num, ?_, ?_⟩
  · rw [GetStats_kernPercent_eq, hsA, hkA, cpuPercentRhs_ofU64, if_pos (by norm_num),
      percent_value_eq (by norm_num), rnd_unit_percent]
    exact toU64_fin_of_bounds (by norm_num) (by norm_num) (by norm_num)
  · rw [GetStats_kernPercent_eq, hsB, hkB, cpuPercentRhs_ofU64, if_pos (by norm_num),
      percent_value_eq (by norm_num), rnd_huge_percent, toU64_fin_of_ge (by norm_num)]
    rintro ⟨p2, h, -⟩
    exact Option.noConfusion h

/-- C7, amended. Holding `systemTimeDiff` fixed and positive, for every pair of kernel deltas
`k1 ≤ k2` such that the percentage of `k2` is representable in the `quint64` field
`CPU_KERNPERCENT`, the percentage of `k1` is representable too and is at most the percentage
of `k2`. -/
theorem cpu_percent_monotone (selfA selfB : PerformanceStats) (osA osB : OsReading) (p2 : ℕ)
    (hfix : systemDelta selfA osA = systemDelta selfB osB)
    (_hpos : 0 < systemDelta selfA osA)
    (hle : kernelDelta selfA osA ≤ kernelDelta selfB osB)
    (h2 : (GetStats selfB osB).1.CPU_KERNPERCENT = some p2) :
    ∃ p1, (GetStats selfA osA).1.CPU_KERNPERCENT = some p1 ∧ p1 ≤ p2 := by
  rw [GetStats_kernPercent_eq] at h2 ⊢
  rw [hfix]
  exact cpuPercent_mono hle h2

/-- C7, amended, at a concrete pair: one second elapsed, kernel deltas of 0.29 s and 0.5 s. -/
theorem cpu_percent_monotone_witness :
    systemDelta (samplerAt 0 0 0 (ioOf 0 0 0 0)) (readingAt 10000000 2900000 0 none) =
      systemDelta (samplerAt 0 0 0 (ioOf 0 0 0 0)) (readingAt 10000000 5000000 0 none) ∧
    0 < systemDelta (samplerAt 0 0 0 (ioOf 0 0 0 0)) (readingAt 10000000 2900000 0 none) ∧
    kernelDelta (samplerAt 0 0 0 (ioOf 0 0 0 0)) (readingAt 10000000 2900000 0 none) ≤
      kernelDelta (samplerAt 0 0 0 (ioOf 0 0 0 0)) (readingAt 10000000 5000000 0 none) ∧
    ∃ p2, (GetStats (samplerAt 0 0 0 (ioOf 0 0 0 0))
        (readingAt 10000000 5000000 0 none)).1.CPU_KERNPERCENT = some p2 ∧
      ∃ p1, (GetStats (samplerAt 0 0 0 (ioOf 0 0 0 0))
        (readingAt 10000000 2900000 0 none)).1.CPU_KERNPERCENT = some p1 ∧ p1 ≤ p2 := by
  have hsA : systemDelta (samplerAt 0 0 0 (ioOf 0 0 0 0))
      (readingAt 10000000 2900000 0 none) = 10000000 := by
    simp [systemDelta, samplerAt, readingAt, sub64]
  have hsB : systemDelta (samplerAt 0 0 0 (ioOf 0 0 0 0))
      (readingAt 10000000 5000000 0 none) = 10000000 := by
    simp [systemDelta, samplerAt, readingAt, sub64]
  have hkA : kernelDelta (samplerAt 0 0 0 (ioOf 0 0 0 0))
      (readingAt 10000000 2900000 0 none) = 2900000 := by
    simp [kernelDelta, samplerAt, readingAt, sub64]
  have hkB : kernelDelta (samplerAt 0 0 0 (ioOf 0 0 0 0))
      (readingAt 10000000 5000000 0 none) = 5000000 := by
    simp [kernelDelta, samplerAt, readingAt, sub64]
  have hfix : systemDelta (samplerAt 0 0 0 (ioOf 0 0 0 0))
      (readingAt 10000000 2900000 0 none) =
      systemDelta (samplerAt 0 0 0 (ioOf 0 0 0 0)) (readingAt 10000000 5000000 0 none) := by
    rw [hsA, hsB]
  have hpos : 0 < systemDelta (samplerAt 0 0 0 (ioOf 0 0 0 0))
      (readingAt 10000000 2900000 0 none) := by
    rw [hsA]; norm_num
  have hle : kernelDelta (samplerAt 0 0 0 (ioOf 0 0 0 0))
      (readingAt 10000000 2900000 0 none) ≤
      kernelDelta (samplerAt 0 0 0 (ioOf 0 0 0 0)) (readingAt 10000000 5000000 0 none) := by
    rw [hkA, hkB]; norm_num
  obtain ⟨p2, hp2, -⟩ : ∃ p, (GetStats (samplerAt 0 0 0 (ioOf 0 0 0 0))
      (readingAt 10000000 5000000 0 none)).1.CPU_KERNPERCENT = some p ∧ p ≤ 100 := by
    rw [GetStats_kernPercent_eq]
    exact cpuPercent_le_hundred (by rw [hkB, hsB]; norm_num)
  exact ⟨hfix, hpos, hle, p2, hp2,
    cpu_percent_monotone _ _ _ _ p2 hfix hpos hle hp2⟩

theorem rnd_500_per_million :
    rnd (rnd (((500 : ℕ) : ℚ) / ((1000000 : ℕ) : ℚ)) * 100) =
      7205759403792794 * (2 : ℚ) ^ (-57 : ℤ) := by
  have h1 : rnd (((500 : ℕ) : ℚ) / ((1000000 : ℕ) : ℚ)) =
      4611686018427388 * (2 : ℚ) ^ (-63 : ℤ) := by
    rw [rnd_eq_of_binade (-11) 4611686018427388 (by norm_num) (by norm_num)
      (by rw [abs_lt]; norm_num)]
    norm_num
  rw [h1, rnd_eq_of_binade (-5) 7205759403792794 (by norm_num) (by norm_num)
    (by rw [abs_lt]; norm_num)]
  norm_num

/-- C8. Baseline `kernelTicks = 1000`, `userTicks = 2000`, `wallClockTicks = 0`; second reading
`kernelTicks = 1500`, `userTicks = 2500`, `wallClockTicks = 1,000,000`. `GetStats` computes
`kernelTimeDiff = 500.0` and `systemTimeDiff = 1000000.0`, stores `CPU_KERNTOTAL = 500` and
`CPU_KERNPERCENT = 0`. -/
theorem scenario_half_permille_truncates_to_zero :
    kernelTimeDiff (samplerAt 1000 2000 0 (ioOf 0 0 0 0)) (readingAt 1000000 1500 2500 none) =
      Dbl.fin 500 ∧
    systemTimeDiff (samplerAt 1000 2000 0 (ioOf 0 0 0 0)) (readingAt 1000000 1500 2500 none) =
      Dbl.fin 1000000 ∧
    (GetStats (samplerAt 1000 2000 0 (ioOf 0 0 0 0))
      (readingAt 1000000 1500 2500 none)).1.CPU_KERNTOTAL = some 500 ∧
    (GetStats (samplerAt 1000 2000 0 (ioOf 0 0 0 0))
      (readingAt 1000000 1500 2500 none)).1.CPU_KERNPERCENT = some 0 := by
  have hs : systemDelta (samplerAt 1000 2000 0 (ioOf 0 0 0 0))
      (readingAt 1000000 1500 2500 none) = 1000000 := by
    simp [systemDelta, samplerAt, readingAt, sub64]
  have hk : kernelDelta (samplerAt 1000 2000 0 (ioOf 0 0 0 0))
      (readingAt 1000000 1500 2500 none) = 500 := by
    simp [kernelDelta, samplerAt, readingAt, sub64]
  have hkd : kernelTimeDiff (samplerAt 1000 2000 0 (ioOf 0 0 0 0))
      (readingAt 1000000 1500 2500 none) = Dbl.fin 500 := by
    rw [kernelTimeDiff, hk, Dbl.ofU64, rnd_natCast (by norm_num)]
    norm_num
  have hsd : systemTimeDiff (samplerAt 1000 2000 0 (ioOf 0 0 0 0))
      (readingAt 1000000 1500 2500 none) = Dbl.fin 1000000 := by
    rw [systemTimeDiff, hs, Dbl.ofU64, rnd_natCast (by norm_num)]
    norm_num
  refine ⟨hkd, hsd, ?_, ?_⟩
  · rw [GetStats_CPU_KERNTOTAL, hkd]
    exact toU64_fin_of_bounds (n := 500) (by norm_num) (by norm_num) (by norm_num)
  · rw [GetStats_kernPercent_eq, hs, hk, cpuPercentRhs_ofU64, if_pos (by norm_num),
      percent_value_small (by norm_num) (by norm_num) (by norm_num), rnd_500_per_million]
    exact toU64_fin_of_bounds (by norm_num) (by norm_num) (by norm_num)

/-- C9. When `GetStats` is called twice in a row and the second call observes the same wall
clock, kernel time and user time as the first, the second call reports `CPU_KERNPERCENT = 0`
and `CPU_USERPERCENT = 0`, for every baseline. -/
theorem second_call_same_reading_zero_percent (self : PerformanceStats) (r1 r2 : OsReading)
    (hnow : r2.now = r1.now) (_hkernel : r2.kernel = r1.kernel) (_huser : r2.user = r1.user) :
    (GetStats (GetStats self r1).2 r2).1.CPU_KERNPERCENT = some 0 ∧
    (GetStats (GetStats self r1).2 r2).1.CPU_USERPERCENT = some 0 := by
  apply cpuPercent_zero_of_now_eq
  rw [(GetStats_snd_times self r1).2.2, hnow]

/-- C9 at a concrete pair of calls: the baseline of scenario C8, and the same reading seen
twice. -/
theorem second_call_same_reading_zero_percent_witness :
    (GetStats (GetStats (samplerAt 1000 2000 0 (ioOf 0 0 0 0))
      (readingAt 1000000 1500 2500 none)).2
      (readingAt 1000000 1500 2500 none)).1.CPU_KERNPERCENT = some 0 ∧
    (GetStats (GetStats (samplerAt 1000 2000 0 (ioOf 0 0 0 0))
      (readingAt 1000000 1500 2500 none)).2
      (readingAt 1000000 1500 2500 none)).1.CPU_USERPERCENT = some 0 :=
  second_call_same_reading_zero_percent (samplerAt 1000 2000 0 (ioOf 0 0 0 0))
    (readingAt 1000000 1500 2500 none) (readingAt 1000000 1500 2500 none) rfl rfl rfl

/-- C10. When the I/O query succeeds and the read-byte delta (current `ReadTransferCount`
minus stored `ReadTransferCount`) is 0, the assignment of `IO_BYTESREADPERSEC` takes the
branch that stores the literal 0: the field is 0 and no division is evaluated, whatever the
elapsed time is, zero included. -/
theorem read_rate_zero_without_division (self : PerformanceStats) (os : OsReading)
    (cur : IO_COUNTERS) (hio : os.ioCounters = some cur)
    (hdelta : sub64 cur.ReadTransferCount self.prev_io_counters.ReadTransferCount = 0) :
    (GetStats self os).1.IO_BYTESREADPERSEC = some 0 ∧
    ioRateRhs (totalBytesRead self.prev_io_counters cur) (systemTimeDiff self os) = Rhs.zero ∧
    (ioRateRhs (totalBytesRead self.prev_io_counters cur)
      (systemTimeDiff self os)).divisor = none := by
  have h : ioRateRhs (totalBytesRead self.prev_io_counters cur) (systemTimeDiff self os) =
      Rhs.zero := by
    simp [ioRateRhs, totalBytesRead, hdelta]
  rw [GetStats_IO_BYTESREADPERSEC hio, h]
  exact ⟨rfl, rfl, rfl⟩

/-- C10 at a concrete sample with zero elapsed time: stored and current `ReadTransferCount`
are both 4096, stored and current wall clock both 5000. -/
theorem read_rate_zero_without_division_witness :
    (readingAt 5000 0 0 (some (ioOf 9 0 4096 0))).ioCounters = some (ioOf 9 0 4096 0) ∧
    sub64 (ioOf 9 0 4096 0).ReadTransferCount
      (samplerAt 0 0 5000 (ioOf 7 0 4096 0)).prev_io_counters.ReadTransferCount = 0 ∧
    systemDelta (samplerAt 0 0 5000 (ioOf 7 0 4096 0))
      (readingAt 5000 0 0 (some (ioOf 9 0 4096 0))) = 0 ∧
    (GetStats (samplerAt 0 0 5000 (ioOf 7 0 4096 0))
      (readingAt 5000 0 0 (some (ioOf 9 0 4096 0)))).1.IO_BYTESREADPERSEC = some 0 :=
  ⟨rfl, sub64_self 4096, sub64_self 5000,
    (read_rate_zero_without_division (samplerAt 0 0 5000 (ioOf 7 0 4096 0))
      (readingAt 5000 0 0 (some (ioOf 9 0 4096 0))) (ioOf 9 0 4096 0) rfl
      (sub64_self 4096)).1⟩

/-! ## The stored snapshot -/

theorem GetStats_snd_of_io {self : PerformanceStats} {os : OsReading} {cur : IO_COUNTERS}
    (h : os.ioCounters = some cur) :
    (GetStats self os).2 =
      { self with
        prev_kern_time := os.kernel
        prev_user_time := os.user
        prev_system_time := os.now
        prev_io_counters := cur } := by
  unfold GetStats
  rw [h]

theorem GetStats_snd_of_io_failure {self : PerformanceStats} {os : OsReading}
    (h : os.ioCounters = none) :
    (GetStats self os).2 =
      { self with
        prev_kern_time := os.kernel
        prev_user_time := os.user
        prev_system_time := os.now } := by
  unfold GetStats
  rw [h]

theorem GetStats_snd_hProc (self : PerformanceStats) (os : OsReading) :
    (GetStats self os).2.hProc = self.hProc := by
  unfold GetStats
  cases os.ioCounters <;> rfl

theorem GetStats_fst_congr {s1 s2 : PerformanceStats} (os : OsReading)
    (hk : s1.prev_kern_time = s2.prev_kern_time) (hu : s1.prev_user_time = s2.prev_user_time)
    (hs : s1.prev_system_time = s2.prev_system_time)
    (hc : s1.prev_io_counters = s2.prev_io_counters) (h1 : s1.hProc ≠ 0) (h2 : s2.hProc ≠ 0) :
    (GetStats s1 os).1 = (GetStats s2 os).1 := by
  have hm : memStats s1 os (cpuStats s1 os Stats.uninitialised) =
      memStats s2 os (cpuStats s2 os Stats.uninitialised) := by
    unfold memStats cpuStats kernelTimeDiff userTimeDiff systemTimeDiff kernelDelta
      userDelta systemDelta
    simp only [hk, hu, hs, if_pos h1, if_pos h2]
  have hsd : systemTimeDiff s1 os = systemTimeDiff s2 os := by
    unfold systemTimeDiff systemDelta
    rw [hs]
  unfold GetStats
  cases os.ioCounters with
  | none => exact hm
  | some c =>
    show ioStats _ _ _ _ = ioStats _ _ _ _
    rw [hm, hsd, hc]

/-- C11. For every two baselines of a sampler with an open process handle and every reading
`r1` whose I/O query succeeds, the snapshot stored after `GetStats` on `r1` (wall-clock time,
kernel time, user time, I/O counters) is `r1`, and the record that the next `GetStats`
returns for a reading `r2` is the same for both baselines. -/
theorem next_sample_uses_previous_reading (b1 b2 : PerformanceStats) (r1 r2 : OsReading)
    (c1 : IO_COUNTERS) (hio : r1.ioCounters = some c1) (h1 : b1.hProc ≠ 0)
    (h2 : b2.hProc ≠ 0) :
    ((GetStats b1 r1).2.prev_system_time = r1.now ∧
      (GetStats b1 r1).2.prev_kern_time = r1.kernel ∧
      (GetStats b1 r1).2.prev_user_time = r1.user ∧
      (GetStats b1 r1).2.prev_io_counters = c1) ∧
    (GetStats (GetStats b1 r1).2 r2).1 = (GetStats (GetStats b2 r1).2 r2).1 := by
  refine ⟨?_, ?_⟩
  · rw [GetStats_snd_of_io hio]
    exact ⟨rfl, rfl, rfl, rfl⟩
  · apply GetStats_fst_congr
    · rw [GetStats_snd_of_io hio, GetStats_snd_of_io hio]
    · rw [GetStats_snd_of_io hio, GetStats_snd_of_io hio]
    · rw [GetStats_snd_of_io hio, GetStats_snd_of_io hio]
    · rw [GetStats_snd_of_io hio, GetStats_snd_of_io hio]
    · rw [GetStats_snd_hProc]
      exact h1
    · rw [GetStats_snd_hProc]
      exact h2

/-- C11 at two concrete baselines, `(1000, 2000, 0)` with zero I/O counters and
`(7, 8, 9)` with other counters, followed by the same two readings. -/
theorem next_sample_uses_previous_reading_witness :
    (fullReadingAt 1000000 1500 2500 sampleMemory (ioOf 5 6 700 800)).ioCounters =
      some (ioOf 5 6 700 800) ∧
    (samplerAt 1000 2000 0 (ioOf 0 0 0 0)).hProc ≠ 0 ∧
    (samplerAt 7 8 9 (ioOf 1 2 3 4)).hProc ≠ 0 ∧
    (GetStats (GetStats (samplerAt 1000 2000 0 (ioOf 0 0 0 0))
        (fullReadingAt 1000000 1500 2500 sampleMemory (ioOf 5 6 700 800))).2
        (fullReadingAt 2000000 1700 2600 sampleMemory (ioOf 9 9 900 900))).1 =
      (GetStats (GetStats (samplerAt 7 8 9 (ioOf 1 2 3 4))
        (fullReadingAt 1000000 1500 2500 sampleMemory (ioOf 5 6 700 800))).2
        (fullReadingAt 2000000 1700 2600 sampleMemory (ioOf 9 9 900 900))).1 := by
  have h1 : (samplerAt 1000 2000 0 (ioOf 0 0 0 0)).hProc ≠ 0 := by
    simp [samplerAt]
  have h2 : (samplerAt 7 8 9 (ioOf 1 2 3 4)).hProc ≠ 0 := by
    simp [samplerAt]
  exact ⟨rfl, h1, h2,
    (next_sample_uses_previous_reading (samplerAt 1000 2000 0 (ioOf 0 0 0 0))
      (samplerAt 7 8 9 (ioOf 1 2 3 4))
      (fullReadingAt 1000000 1500 2500 sampleMemory (ioOf 5 6 700 800))
      (fullReadingAt 2000000 1700 2600 sampleMemory (ioOf 9 9 900 900))
      (ioOf 5 6 700 800) rfl h1 h2).2⟩

/-! ## I/O deltas -/

/-- C12. When the I/O query succeeds, `IO_IOPS_READ` and `IO_IOPS_WRITE` are the 64-bit
differences of the current and the stored operation counts, whatever the elapsed time and the
query interval are; for counters that did not decrease they are the plain differences
`current - stored`. -/
theorem io_operation_deltas_are_plain_differences (self : PerformanceStats) (os : OsReading)
    (cur : IO_COUNTERS) (hio : os.ioCounters = some cur) :
    (GetStats self os).1.IO_IOPS_READ =
      some (sub64 cur.ReadOperationCount self.prev_io_counters.ReadOperationCount) ∧
    (GetStats self os).1.IO_IOPS_WRITE =
      some (sub64 cur.WriteOperationCount self.prev_io_counters.WriteOperationCount) ∧
    (cur.ReadOperationCount < 2 ^ 64 →
      self.prev_io_counters.ReadOperationCount ≤ cur.ReadOperationCount →
      (GetStats self os).1.IO_IOPS_READ =
        some (cur.ReadOperationCount - self.prev_io_counters.ReadOperationCount)) ∧
    (cur.WriteOperationCount < 2 ^ 64 →
      self.prev_io_counters.WriteOperationCount ≤ cur.WriteOperationCount →
      (GetStats self os).1.IO_IOPS_WRITE =
        some (cur.WriteOperationCount - self.prev_io_counters.WriteOperationCount)) := by
  refine ⟨GetStats_IO_IOPS_READ hio, GetStats_IO_IOPS_WRITE hio, ?_, ?_⟩
  · intro hlt hle
    rw [GetStats_IO_IOPS_READ hio, sub64_of_le hlt hle]
  · intro hlt hle
    rw [GetStats_IO_IOPS_WRITE hio, sub64_of_le hlt hle]

/-- C12 at a concrete sample with zero elapsed time: stored operation counts `(10, 20)`,
current counts `(13, 27)`. -/
theorem io_operation_deltas_are_plain_differences_witness :
    (readingAt 5000 0 0 (some (ioOf 13 27 0 0))).ioCounters = some (ioOf 13 27 0 0) ∧
    (GetStats (samplerAt 0 0 5000 (ioOf 10 20 0 0))
      (readingAt 5000 0 0 (some (ioOf 13 27 0 0)))).1.IO_IOPS_READ = some (13 - 10) ∧
    (GetStats (samplerAt 0 0 5000 (ioOf 10 20 0 0))
      (readingAt 5000 0 0 (some (ioOf 13 27 0 0)))).1.IO_IOPS_WRITE = some (27 - 20) :=
  ⟨rfl,
    (io_operation_deltas_are_plain_differences (samplerAt 0 0 5000 (ioOf 10 20 0 0))
      (readingAt 5000 0 0 (some (ioOf 13 27 0 0))) (ioOf 13 27 0 0) rfl).2.2.1
      (by norm_num [ioOf]) (by norm_num [ioOf, samplerAt]),
    (io_operation_deltas_are_plain_differences (samplerAt 0 0 5000 (ioOf 10 20 0 0))
      (readingAt 5000 0 0 (some (ioOf 13 27 0 0))) (ioOf 13 27 0 0) rfl).2.2.2
      (by norm_num [ioOf]) (by norm_num [ioOf, samplerAt])⟩
/-- C13, counterexample. The stored byte counters are 4096 for reads and for writes, the
current ones are 0 for both (a reset to zero). The read-byte delta is the 64-bit difference
`2 ^ 64 - 4096`, but the write-byte delta is 0: the guard on the current `WriteTransferCount`
makes the write rule differ from the read rule. -/
theorem write_delta_not_same_rule_at_zero :
    (GetStats (samplerAt 0 0 0 (ioOf 0 0 4096 4096))
        (readingAt 10000000 0 0 (some (ioOf 0 0 0 0)))).1.IO_TOTALBYTESREAD =
      some (sub64 0 4096) ∧
    sub64 0 4096 = 2 ^ 64 - 4096 ∧
    (GetStats (samplerAt 0 0 0 (ioOf 0 0 4096 4096))
        (readingAt 10000000 0 0 (some (ioOf 0 0 0 0)))).1.IO_TOTALBYTESWRITE = some 0 ∧
    (GetStats (samplerAt 0 0 0 (ioOf 0 0 4096 4096))
        (readingAt 10000000 0 0 (some (ioOf 0 0 0 0)))).1.IO_TOTALBYTESWRITE ≠
      some (sub64 (ioOf 0 0 0 0).WriteTransferCount
        (samplerAt 0 0 0 (ioOf 0 0 4096 4096)).prev_io_counters.WriteTransferCount) := by
  have hio : (readingAt 10000000 0 0 (some (ioOf 0 0 0 0))).ioCounters =
      some (ioOf 0 0 0 0) := rfl
  have hsub : sub64 0 4096 = 2 ^ 64 - 4096 := by
    simp [sub64]
  have hw : (GetStats (samplerAt 0 0 0 (ioOf 0 0 4096 4096))
      (readingAt 10000000 0 0 (some (ioOf 0 0 0 0)))).1.IO_TOTALBYTESWRITE = some 0 := by
    rw [GetStats_IO_TOTALBYTESWRITE hio]
    simp [totalBytesWrite, ioOf]
  refine ⟨?_, hsub, hw, ?_⟩
  · rw [GetStats_IO_TOTALBYTESREAD hio]
    rfl
  · rw [hw]
    have h : sub64 (ioOf 0 0 0 0).WriteTransferCount
        (samplerAt 0 0 0 (ioOf 0 0 4096 4096)).prev_io_counters.WriteTransferCount =
        sub64 0 4096 := rfl
    rw [h, hsub]
    norm_num

/-- C13, amended. When the I/O query succeeds, `IO_TOTALBYTESREAD` is the 64-bit difference of
the current and the stored `ReadTransferCount` for every value of the counters;
`IO_TOTALBYTESWRITE` is the 64-bit difference of the current and the stored
`WriteTransferCount` whenever the current `WriteTransferCount` is not zero, and is 0 when the
current `WriteTransferCount` is zero. -/
theorem byte_deltas_by_rule (self : PerformanceStats) (os : OsReading) (cur : IO_COUNTERS)
    (hio : os.ioCounters = some cur) :
    (GetStats self os).1.IO_TOTALBYTESREAD =
      some (sub64 cur.ReadTransferCount self.prev_io_counters.ReadTransferCount) ∧
    (cur.WriteTransferCount ≠ 0 →
      (GetStats self os).1.IO_TOTALBYTESWRITE =
        some (sub64 cur.WriteTransferCount self.prev_io_counters.WriteTransferCount)) ∧
    (cur.WriteTransferCount = 0 → (GetStats self os).1.IO_TOTALBYTESWRITE = some 0) := by
  refine ⟨GetStats_IO_TOTALBYTESREAD hio, ?_, ?_⟩
  · intro h
    rw [GetStats_IO_TOTALBYTESWRITE hio, totalBytesWrite, if_pos h]
  · intro h
    rw [GetStats_IO_TOTALBYTESWRITE hio, totalBytesWrite, if_neg (not_not.mpr h)]

/-- C13, amended, at a concrete sample: stored byte counters `(1000, 2000)`, current ones
`(1500, 2600)`. -/
theorem byte_deltas_by_rule_witness :
    (readingAt 10000000 0 0 (some (ioOf 0 0 1500 2600))).ioCounters =
      some (ioOf 0 0 1500 2600) ∧
    (ioOf 0 0 1500 2600).WriteTransferCount ≠ 0 ∧
    (GetStats (samplerAt 0 0 0 (ioOf 0 0 1000 2000))
        (readingAt 10000000 0 0 (some (ioOf 0 0 1500 2600)))).1.IO_TOTALBYTESWRITE =
      some (sub64 (ioOf 0 0 1500 2600).WriteTransferCount
        (samplerAt 0 0 0 (ioOf 0 0 1000 2000)).prev_io_counters.WriteTransferCount) := by
  have h : (ioOf 0 0 1500 2600).WriteTransferCount ≠ 0 := by
    simp [ioOf]
  exact ⟨rfl, h,
    (byte_deltas_by_rule (samplerAt 0 0 0 (ioOf 0 0 1000 2000))
      (readingAt 10000000 0 0 (some (ioOf 0 0 1500 2600))) (ioOf 0 0 1500 2600) rfl).2.1 h⟩

/-! ## Memory fields -/

theorem GetStats_memStats_fields (self : PerformanceStats) (os : OsReading) :
    (GetStats self os).1.PROC_PAGEFAULTCOUNT =
      (memStats self os Stats.uninitialised).PROC_PAGEFAULTCOUNT ∧
    (GetStats self os).1.PROC_WORKINGSETSIZE =
      (memStats self os Stats.uninitialised).PROC_WORKINGSETSIZE ∧
    (GetStats self os).1.PROC_PEAKWORKINGSETSIZE =
      (memStats self os Stats.uninitialised).PROC_PEAKWORKINGSETSIZE ∧
    (GetStats self os).1.PROC_PAGEFILEUSAGE =
      (memStats self os Stats.uninitialised).PROC_PAGEFILEUSAGE ∧
    (GetStats self os).1.PROC_QUOTAPAGEDPOOLUSAGE =
      (memStats self os Stats.uninitialised).PROC_QUOTAPAGEDPOOLUSAGE ∧
    (GetStats self os).1.PROC_QUOTANONPAGEDPOOLUSAGE =
      (memStats self os Stats.uninitialised).PROC_QUOTANONPAGEDPOOLUSAGE ∧
    (GetStats self os).1.PROC_QUOTAPEAKNONPAGEDPOOLUSAGE =
      (memStats self os Stats.uninitialised).PROC_QUOTAPEAKNONPAGEDPOOLUSAGE := by
  unfold GetStats memStats ioStats cpuStats
  cases os.ioCounters <;> cases os.memInfo <;> simp only [] <;> split_ifs <;>
    exact ⟨rfl, rfl, rfl, rfl, rfl, rfl, rfl⟩

theorem memStats_of_success {self : PerformanceStats} {os : OsReading}
    {counters : PROCESS_MEMORY_COUNTERS} (hh : self.hProc ≠ 0)
    (hm : os.memInfo = some counters) (stats : Stats) :
    memStats self os stats =
      { stats with
        PROC_PAGEFAULTCOUNT := some counters.PageFaultCount
        PROC_PEAKWORKINGSETSIZE := some counters.PeakWorkingSetSize
        PROC_WORKINGSETSIZE := some counters.WorkingSetSize
        PROC_QUOTAPAGEDPOOLUSAGE := some counters.QuotaPagedPoolUsage
        PROC_QUOTANONPAGEDPOOLUSAGE := some counters.QuotaPeakNonPagedPoolUsage
        PROC_QUOTAPEAKNONPAGEDPOOLUSAGE := some counters.QuotaNonPagedPoolUsage
        PROC_PAGEFILEUSAGE := some counters.PagefileUsage } := by
  unfold memStats
  rw [if_pos hh, hm]

theorem memStats_of_failure {self : PerformanceStats} {os : OsReading}
    (h : self.hProc = 0 ∨ os.memInfo = none) (stats : Stats) :
    memStats self os stats = stats := by
  unfold memStats
  rcases h with h | h
  · rw [if_neg (not_not.mpr h)]
  · rw [h]
    split_ifs <;> rfl

/-- C14. Failing input: a successful memory query that returns
`QuotaPeakNonPagedPoolUsage = 66` and `QuotaNonPagedPoolUsage = 77`. Five memory fields hold
the like-named counter, but `PROC_QUOTANONPAGEDPOOLUSAGE` holds 66, the value of
`QuotaPeakNonPagedPoolUsage`, and `PROC_QUOTAPEAKNONPAGEDPOOLUSAGE` holds 77, the value of
`QuotaNonPagedPoolUsage`: lines 85 and 86 assign the two counters crosswise. -/
theorem nonpaged_pool_fields_swapped :
    sampleMemory.QuotaNonPagedPoolUsage = 77 ∧
    sampleMemory.QuotaPeakNonPagedPoolUsage = 66 ∧
    (GetStats (samplerAt 0 0 0 (ioOf 0 0 0 0))
      (fullReadingAt 10000000 0 0 sampleMemory (ioOf 0 0 0 0))).1.PROC_QUOTANONPAGEDPOOLUSAGE =
        some 66 ∧
    (GetStats (samplerAt 0 0 0 (ioOf 0 0 0 0))
      (fullReadingAt 10000000 0 0 sampleMemory
        (ioOf 0 0 0 0))).1.PROC_QUOTAPEAKNONPAGEDPOOLUSAGE = some 77 ∧
    (GetStats (samplerAt 0 0 0 (ioOf 0 0 0 0))
      (fullReadingAt 10000000 0 0 sampleMemory (ioOf 0 0 0 0))).1.PROC_PAGEFAULTCOUNT =
        some sampleMemory.PageFaultCount ∧
    (GetStats (samplerAt 0 0 0 (ioOf 0 0 0 0))
      (fullReadingAt 10000000 0 0 sampleMemory (ioOf 0 0 0 0))).1.PROC_WORKINGSETSIZE =
        some sampleMemory.WorkingSetSize ∧
    (GetStats (samplerAt 0 0 0 (ioOf 0 0 0 0))
      (fullReadingAt 10000000 0 0 sampleMemory (ioOf 0 0 0 0))).1.PROC_PEAKWORKINGSETSIZE =
        some sampleMemory.PeakWorkingSetSize ∧
    (GetStats (samplerAt 0 0 0 (ioOf 0 0 0 0))
      (fullReadingAt 10000000 0 0 sampleMemory (ioOf 0 0 0 0))).1.PROC_QUOTAPAGEDPOOLUSAGE =
        some sampleMemory.QuotaPagedPoolUsage ∧
    (GetStats (samplerAt 0 0 0 (ioOf 0 0 0 0))
      (fullReadingAt 10000000 0 0 sampleMemory (ioOf 0 0 0 0))).1.PROC_PAGEFILEUSAGE =
        some sampleMemory.PagefileUsage := by
  have hh : (samplerAt 0 0 0 (ioOf 0 0 0 0)).hProc ≠ 0 := by
    simp [samplerAt]
  have hm : (fullReadingAt 10000000 0 0 sampleMemory (ioOf 0 0 0 0)).memInfo =
      some sampleMemory := rfl
  obtain ⟨h1, h2, h3, h4, h5, h6, h7⟩ := GetStats_memStats_fields
    (samplerAt 0 0 0 (ioOf 0 0 0 0)) (fullReadingAt 10000000 0 0 sampleMemory (ioOf 0 0 0 0))
  rw [memStats_of_success hh hm] at h1 h2 h3 h4 h5 h6 h7
  exact ⟨rfl, rfl, h6, h7, h1, h2, h3, h5, h4⟩

/-- C15. Failing input: a sampler with an open handle and a reading whose memory query fails,
and a sampler with a null handle. `GetStats` returns a record in both cases, but it assigns
none of the seven memory fields; the local `Stats stats;` has no initialiser, so the fields
are indeterminate, not zero. -/
theorem memory_fields_unassigned_on_failure :
    ((GetStats (samplerAt 0 0 0 (ioOf 0 0 0 0))
        (readingAt 10000000 0 0 (some (ioOf 0 0 0 0)))).1.PROC_PAGEFAULTCOUNT = none ∧
      (GetStats (samplerAt 0 0 0 (ioOf 0 0 0 0))
        (readingAt 10000000 0 0 (some (ioOf 0 0 0 0)))).1.PROC_WORKINGSETSIZE = none ∧
      (GetStats (samplerAt 0 0 0 (ioOf 0 0 0 0))
        (readingAt 10000000 0 0 (some (ioOf 0 0 0 0)))).1.PROC_PEAKWORKINGSETSIZE = none ∧
      (GetStats (samplerAt 0 0 0 (ioOf 0 0 0 0))
        (readingAt 10000000 0 0 (some (ioOf 0 0 0 0)))).1.PROC_PAGEFILEUSAGE = none ∧
      (GetStats (samplerAt 0 0 0 (ioOf 0 0 0 0))
        (readingAt 10000000 0 0 (some (ioOf 0 0 0 0)))).1.PROC_QUOTAPAGEDPOOLUSAGE = none ∧
      (GetStats (samplerAt 0 0 0 (ioOf 0 0 0 0))
        (readingAt 10000000 0 0 (some (ioOf 0 0 0 0)))).1.PROC_QUOTANONPAGEDPOOLUSAGE = none ∧
      (GetStats (samplerAt 0 0 0 (ioOf 0 0 0 0))
        (readingAt 10000000 0 0
          (some (ioOf 0 0 0 0)))).1.PROC_QUOTAPEAKNONPAGEDPOOLUSAGE = none) ∧
    (GetStats (PerformanceStats.PerformanceStats "" 4242 0 refusingSystem)
      (fullReadingAt 10000000 0 0 sampleMemory (ioOf 0 0 0 0))).1.PROC_WORKINGSETSIZE = none ∧
    (GetStats (samplerAt 0 0 0 (ioOf 0 0 0 0))
      (readingAt 10000000 0 0 (some (ioOf 0 0 0 0)))).1.PROC_WORKINGSETSIZE ≠ some 0 := by
  obtain ⟨h1, h2, h3, h4, h5, h6, h7⟩ := GetStats_memStats_fields
    (samplerAt 0 0 0 (ioOf 0 0 0 0)) (readingAt 10000000 0 0 (some (ioOf 0 0 0 0)))
  rw [memStats_of_failure (Or.inr rfl)] at h1 h2 h3 h4 h5 h6 h7
  have hnull := (GetStats_memStats_fields
    (PerformanceStats.PerformanceStats "" 4242 0 refusingSystem)
    (fullReadingAt 10000000 0 0 sampleMemory (ioOf 0 0 0 0))).2.1
  rw [memStats_of_failure (Or.inl rfl)] at hnull
  refine ⟨⟨h1, h2, h3, h4, h5, h6, h7⟩, hnull, ?_⟩
  rw [h2]
  exact fun h => Option.noConfusion h

/-! ## Construction -/

/-- C16, counterexample. The system refuses to open process 4242. The constructor reports
nothing and builds a sampler whose handle `hProc` is null; the first `GetStats` on it skips the
memory query. -/
theorem constructor_yields_null_handle :
    (4242 : Int) ≠ 0 ∧ refusingSystem.openProcess 4242 = 0 ∧
    (PerformanceStats.PerformanceStats "" 4242 0 refusingSystem).hProc = 0 ∧
    (PerformanceStats.PerformanceStats "" 4242 0 refusingSystem).pid_ = 4242 ∧
    (GetStats (PerformanceStats.PerformanceStats "" 4242 0 refusingSystem)
      (fullReadingAt 10000000 0 0 sampleMemory (ioOf 0 0 0 0))).1.PROC_PAGEFAULTCOUNT = none := by
  have hnull := (GetStats_memStats_fields
    (PerformanceStats.PerformanceStats "" 4242 0 refusingSystem)
    (fullReadingAt 10000000 0 0 sampleMemory (ioOf 0 0 0 0))).1
  rw [memStats_of_failure (Or.inl rfl)] at hnull
  exact ⟨by norm_num, rfl, rfl, rfl, hnull⟩

/-- C16, amended. For every non-zero target pid that the system refuses to open, constructing
a `PerformanceStats` reports no error: it yields a sampler for that pid whose process handle is
null and whose stored snapshot holds whatever the unchecked queries left behind; every later
`GetStats` on it keeps the null handle and assigns no memory field. -/
theorem constructor_keeps_refused_handle (db_path : String) (pid interval : Int)
    (os : OsAtConstruction) (hpid : pid ≠ 0) (hrefused : os.openProcess pid = 0) :
    (PerformanceStats.PerformanceStats db_path pid interval os).hProc = 0 ∧
    (PerformanceStats.PerformanceStats db_path pid interval os).pid_ = pid ∧
    (PerformanceStats.PerformanceStats db_path pid interval os).prev_system_time =
      os.systemTime ∧
    ∀ r : OsReading,
      (GetStats (PerformanceStats.PerformanceStats db_path pid interval os) r).2.hProc = 0 ∧
      (GetStats (PerformanceStats.PerformanceStats db_path pid interval os)
        r).1.PROC_WORKINGSETSIZE = none := by
  have h0 : (PerformanceStats.PerformanceStats db_path pid interval os).hProc = 0 := by
    unfold PerformanceStats.PerformanceStats
    simp only [if_pos hpid, hrefused]
  refine ⟨h0, rfl, rfl, ?_⟩
  intro r
  refine ⟨by rw [GetStats_snd_hProc, h0], ?_⟩
  rw [(GetStats_memStats_fields _ r).2.1, memStats_of_failure (Or.inl h0)]
  rfl

/-- C16, amended, at the refused pid 4242. -/
theorem constructor_keeps_refused_handle_witness :
    (4242 : Int) ≠ 0 ∧ refusingSystem.openProcess 4242 = 0 ∧
    (PerformanceStats.PerformanceStats "" 4242 0 refusingSystem).hProc = 0 :=
  ⟨by norm_num, rfl,
    (constructor_keeps_refused_handle "" 4242 0 refusingSystem (by norm_num) rfl).1⟩

/-! ## Failing queries -/

theorem GetStatsGuarded_of_no_exception (self : PerformanceStats) (os : OsCalls)
    (h : os.raisedBy = none ∨
      (os.raisedBy = some ApiQuery.GetProcessMemoryInfo ∧ self.hProc = 0)) :
    GetStatsGuarded self os = Except.ok (GetStats self os.reading) := by
  have h1 : ¬ os.raisedBy = some ApiQuery.GetProcessTimes := by
    rcases h with h | ⟨h, -⟩ <;> rw [h] <;> simp
  have h2 : ¬ (self.hProc ≠ 0 ∧ os.raisedBy = some ApiQuery.GetProcessMemoryInfo) := by
    rcases h with h | ⟨-, h⟩
    · rw [h]
      simp
    · exact fun hc => hc.1 h
  have h3 : ¬ os.raisedBy = some ApiQuery.GetProcessIoCounters := by
    rcases h with h | ⟨h, -⟩ <;> rw [h] <;> simp
  unfold GetStatsGuarded GetStatsTryBlock GetStats
  rw [if_neg h1]
  simp only [if_neg h2, if_neg h3]
  cases os.reading.ioCounters <;> rfl

/-- C17. For every stored snapshot, every return value of `GetProcessTimes`, of the memory
query and of the I/O query, and even when an exception comes out of one of the three queries,
`GetStats` returns a record to its caller and no exception reaches the caller. The record is
the one of the statements executed: when no query raises it is the record of the plain
control flow; when `GetProcessTimes` raises no field is assigned and the stored snapshot is
kept; when the memory query raises the CPU fields are assigned and the stored times replaced;
when the I/O query raises the memory fields are treated as well. -/
theorem getStats_always_returns (self : PerformanceStats) (os : OsCalls) :
    (∀ frame, GetStatsGuarded self os ≠ Except.error frame) ∧
    ∃ stats next, GetStatsGuarded self os = Except.ok (stats, next) ∧
      ((os.raisedBy = none ∨
          (os.raisedBy = some ApiQuery.GetProcessMemoryInfo ∧ self.hProc = 0)) →
        (stats, next) = GetStats self os.reading) ∧
      (os.raisedBy = some ApiQuery.GetProcessTimes →
        stats = Stats.uninitialised ∧ next = self) ∧
      (os.raisedBy = some ApiQuery.GetProcessMemoryInfo → self.hProc ≠ 0 →
        stats = cpuStats self os.reading Stats.uninitialised ∧
        next = { self with
          prev_kern_time := os.reading.kernel
          prev_user_time := os.reading.user
          prev_system_time := os.reading.now }) ∧
      (os.raisedBy = some ApiQuery.GetProcessIoCounters →
        stats = memStats self os.reading (cpuStats self os.reading Stats.uninitialised) ∧
        next = { self with
          prev_kern_time := os.reading.kernel
          prev_user_time := os.reading.user
          prev_system_time := os.reading.now }) := by
  have hcases : os.raisedBy = none ∨ os.raisedBy = some ApiQuery.GetProcessTimes ∨
      os.raisedBy = some ApiQuery.GetProcessMemoryInfo ∨
      os.raisedBy = some ApiQuery.GetProcessIoCounters := by
    cases h : os.raisedBy with
    | none => exact Or.inl rfl
    | some q => cases q <;> simp
  have hex : ∃ stats next, GetStatsGuarded self os = Except.ok (stats, next) ∧
      ((os.raisedBy = none ∨
          (os.raisedBy = some ApiQuery.GetProcessMemoryInfo ∧ self.hProc = 0)) →
        (stats, next) = GetStats self os.reading) ∧
      (os.raisedBy = some ApiQuery.GetProcessTimes →
        stats = Stats.uninitialised ∧ next = self) ∧
      (os.raisedBy = some ApiQuery.GetProcessMemoryInfo → self.hProc ≠ 0 →
        stats = cpuStats self os.reading Stats.uninitialised ∧
        next = { self with
          prev_kern_time := os.reading.kernel
          prev_user_time := os.reading.user
          prev_system_time := os.reading.now }) ∧
      (os.raisedBy = some ApiQuery.GetProcessIoCounters →
        stats = memStats self os.reading (cpuStats self os.reading Stats.uninitialised) ∧
        next = { self with
          prev_kern_time := os.reading.kernel
          prev_user_time := os.reading.user
          prev_system_time := os.reading.now }) := by
    rcases hcases with h | h | h | h
    · refine ⟨_, _, GetStatsGuarded_of_no_exception self os (Or.inl h), fun _ => rfl, ?_, ?_, ?_⟩
      · intro hc
        rw [h] at hc
        exact Option.noConfusion hc
      · intro hc
        rw [h] at hc
        exact Option.noConfusion hc
      · intro hc
        rw [h] at hc
        exact Option.noConfusion hc
    · refine ⟨Stats.uninitialised, self, ?_, ?_, fun _ => ⟨rfl, rfl⟩, ?_, ?_⟩
      · unfold GetStatsGuarded GetStatsTryBlock
        rw [if_pos h]
        rfl
      · rintro (hc | ⟨hc, -⟩) <;> rw [h] at hc <;> simp at hc
      · intro hc
        rw [h] at hc
        simp at hc
      · intro hc
        rw [h] at hc
        simp at hc
    · by_cases hp : self.hProc = 0
      · refine ⟨_, _, GetStatsGuarded_of_no_exception self os (Or.inr ⟨h, hp⟩), fun _ => rfl,
          ?_, fun _ hne => absurd hp hne, ?_⟩
        · intro hc
          rw [h] at hc
          simp at hc
        · intro hc
          rw [h] at hc
          simp at hc
      · refine ⟨cpuStats self os.reading Stats.uninitialised,
          { self with
            prev_kern_time := os.reading.kernel
            prev_user_time := os.reading.user
            prev_system_time := os.reading.now }, ?_, ?_, ?_, fun _ _ => ⟨rfl, rfl⟩, ?_⟩
        · have h1 : ¬ os.raisedBy = some ApiQuery.GetProcessTimes := by
            rw [h]
            simp
          unfold GetStatsGuarded GetStatsTryBlock
          rw [if_neg h1]
          simp only [if_pos (And.intro hp h)]
          rfl
        · rintro (hc | ⟨-, hc⟩)
          · rw [h] at hc
            simp at hc
          · exact absurd hc hp
        · intro hc
          rw [h] at hc
          simp at hc
        · intro hc
          rw [h] at hc
          simp at hc
    · refine ⟨memStats self os.reading (cpuStats self os.reading Stats.uninitialised),
        { self with
          prev_kern_time := os.reading.kernel
          prev_user_time := os.reading.user
          prev_system_time := os.reading.now }, ?_, ?_, ?_, ?_, fun _ => ⟨rfl, rfl⟩⟩
      · have h1 : ¬ os.raisedBy = some ApiQuery.GetProcessTimes := by
          rw [h]
          simp
        have h2 : ¬ (self.hProc ≠ 0 ∧ os.raisedBy = some ApiQuery.GetProcessMemoryInfo) := by
          rw [h]
          simp
        unfold GetStatsGuarded GetStatsTryBlock
        rw [if_neg h1]
        simp only [if_neg h2, if_pos h]
        rfl
      · rintro (hc | ⟨hc, -⟩) <;> rw [h] at hc <;> simp at hc
      · intro hc
        rw [h] at hc
        simp at hc
      · intro hc
        rw [h] at hc
        simp at hc
  refine ⟨?_, hex⟩
  obtain ⟨stats, next, hok, -⟩ := hex
  intro frame hc
  rw [hok] at hc
  exact Except.noConfusion hc

/-- C17 at a sample in which `GetProcessTimes` reports failure and an exception comes out of
the memory query of an open handle: the record is returned with its CPU fields assigned, and
the stored times are those of the reading. -/
theorem getStats_always_returns_witness :
    GetStatsGuarded (samplerAt 1000 2000 0 (ioOf 1 2 3 4))
        { reading := readingAt 10000000 1500 2500 (some (ioOf 5 6 700 800)),
          processTimesSucceeded := false,
          raisedBy := some ApiQuery.GetProcessMemoryInfo } =
      Except.ok
        (cpuStats (samplerAt 1000 2000 0 (ioOf 1 2 3 4))
            (readingAt 10000000 1500 2500 (some (ioOf 5 6 700 800))) Stats.uninitialised,
          samplerAt 1500 2500 10000000 (ioOf 1 2 3 4)) := by
  obtain ⟨stats, next, hok, -, -, hmem, -⟩ :=
    (getStats_always_returns (samplerAt 1000 2000 0 (ioOf 1 2 3 4))
      { reading := readingAt 10000000 1500 2500 (some (ioOf 5 6 700 800)),
        processTimesSucceeded := false,
        raisedBy := some ApiQuery.GetProcessMemoryInfo }).2
  obtain ⟨hs, hn⟩ := hmem rfl (by simp [samplerAt])
  rw [hok, hs, hn]
  rfl

theorem GetStats_fst_of_io_failure {self : PerformanceStats} {os : OsReading}
    (h : os.ioCounters = none) :
    (GetStats self os).1 = memStats self os (cpuStats self os Stats.uninitialised) := by
  unfold GetStats
  rw [h]

theorem GetStats_io_fields_of_failure (self : PerformanceStats) (os : OsReading)
    (h : os.ioCounters = none) :
    (GetStats self os).1.IO_IOPS_READ = none ∧ (GetStats self os).1.IO_IOPS_WRITE = none ∧
    (GetStats self os).1.IO_TOTALBYTESREAD = none ∧
    (GetStats self os).1.IO_TOTALBYTESWRITE = none ∧
    (GetStats self os).1.IO_BYTESREADPERSEC = none ∧
    (GetStats self os).1.IO_BYTESWRITEPERSEC = none := by
  rw [GetStats_fst_of_io_failure h]
  unfold memStats cpuStats
  cases os.memInfo <;> simp only [] <;> split_ifs <;> exact ⟨rfl, rfl, rfl, rfl, rfl, rfl⟩

/-- C18. Failing input: a reading whose I/O counter query fails. `GetStats` assigns none of
the six I/O fields; the local `Stats stats;` has no initialiser, so the fields are
indeterminate, not zero. -/
theorem io_fields_unassigned_on_failure :
    (GetStats (samplerAt 0 0 0 (ioOf 0 0 0 0)) (readingAt 10000000 0 0 none)).1.IO_IOPS_READ =
      none ∧
    (GetStats (samplerAt 0 0 0 (ioOf 0 0 0 0)) (readingAt 10000000 0 0 none)).1.IO_IOPS_WRITE =
      none ∧
    (GetStats (samplerAt 0 0 0 (ioOf 0 0 0 0))
      (readingAt 10000000 0 0 none)).1.IO_TOTALBYTESREAD = none ∧
    (GetStats (samplerAt 0 0 0 (ioOf 0 0 0 0))
      (readingAt 10000000 0 0 none)).1.IO_TOTALBYTESWRITE = none ∧
    (GetStats (samplerAt 0 0 0 (ioOf 0 0 0 0))
      (readingAt 10000000 0 0 none)).1.IO_BYTESREADPERSEC = none ∧
    (GetStats (samplerAt 0 0 0 (ioOf 0 0 0 0))
      (readingAt 10000000 0 0 none)).1.IO_BYTESWRITEPERSEC = none ∧
    (GetStats (samplerAt 0 0 0 (ioOf 0 0 0 0)) (readingAt 10000000 0 0 none)).1.IO_IOPS_READ ≠
      some 0 := by
  obtain ⟨h1, h2, h3, h4, h5, h6⟩ := GetStats_io_fields_of_failure
    (samplerAt 0 0 0 (ioOf 0 0 0 0)) (readingAt 10000000 0 0 none) rfl
  refine ⟨h1, h2, h3, h4, h5, h6, ?_⟩
  rw [h1]
  exact fun h => Option.noConfusion h

/-! ## The JSON part of a report file -/

theorem toInt32_of_lt {n : ℤ} (h0 : 0 ≤ n) (h : n < 2 ^ 31) : toInt32 n = n := by
  unfold toInt32
  omega

theorem toInt32_neg_one : toInt32 (-1) = -1 := by
  unfold toInt32
  norm_num

theorem indexOf_header_body {h : List Nat} (rest : List Nat) (hh : openBrace ∉ h) :
    QByteArray.indexOf (h ++ openBrace :: rest) openBrace = (h.length : ℤ) := by
  unfold QByteArray.indexOf
  have hmem : openBrace ∈ h ++ openBrace :: rest :=
    List.mem_append_right h (List.mem_cons_self openBrace rest)
  rw [if_pos hmem, List.indexOf_append_of_not_mem hh, List.indexOf_cons_self]
  simp

theorem indexOf_of_not_mem {content : List Nat} (h : openBrace ∉ content) :
    QByteArray.indexOf content openBrace = -1 := by
  unfold QByteArray.indexOf
  rw [if_neg h]

theorem parserInput_of_not_mem {content : List Nat} (h : openBrace ∉ content) :
    parserInput content = none := by
  unfold parserInput jsonStartPos
  rw [indexOf_of_not_mem h, toInt32_neg_one, if_pos rfl]

theorem parserInput_header_body {h : List Nat} (rest : List Nat) (hh : openBrace ∉ h)
    (hlen : h.length < 2 ^ 31) :
    parserInput (h ++ openBrace :: rest) = some (openBrace :: rest) := by
  have hpos : jsonStartPos (h ++ openBrace :: rest) = (h.length : ℤ) := by
    unfold jsonStartPos
    rw [indexOf_header_body rest hh]
    exact toInt32_of_lt (by positivity) (by exact_mod_cast hlen)
  have hne : ¬ ((h.length : ℤ) = -1) := by omega
  have hnn : ¬ ((h.length : ℤ) < 0) := by omega
  unfold parserInput jsonData
  rw [hpos, if_neg hne]
  unfold QByteArray.mid
  rw [if_neg hnn, Int.toNat_natCast, List.drop_left]

theorem exists_header_body {content : List Nat} (h : openBrace ∈ content) :
    ∃ header rest, content = header ++ openBrace :: rest ∧ openBrace ∉ header := by
  induction content with
  | nil => exact absurd h (List.not_mem_nil _)
  | cons b tl ih =>
    by_cases hb : b = openBrace
    · exact ⟨[], tl, by rw [hb]; rfl, List.not_mem_nil _⟩
    · have htl : openBrace ∈ tl := by
        rcases List.mem_cons.mp h with h1 | h1
        · exact absurd h1.symm hb
        · exact h1
      obtain ⟨header, rest, heq, hnot⟩ := ih htl
      refine ⟨b :: header, rest, by rw [heq]; rfl, ?_⟩
      intro hmem
      rcases List.mem_cons.mp hmem with h1 | h1
      · exact hb h1.symm
      · exact hnot h1

theorem parserInput_hugeHeader (rest : List Nat) :
    parserInput (hugeHeader ++ openBrace :: rest) = none := by
  have hh : openBrace ∉ hugeHeader := by
    unfold hugeHeader
    intro hmem
    have := (List.mem_replicate.mp hmem).2
    exact absurd this (by decide)
  have hlen : ((hugeHeader.length : ℕ) : ℤ) = 2 ^ 32 - 1 := by
    unfold hugeHeader
    rw [List.length_replicate]
    norm_num
  unfold parserInput jsonStartPos
  rw [indexOf_header_body rest hh, hlen]
  have h1 : toInt32 (2 ^ 32 - 1) = -1 := by
    unfold toInt32
    norm_num
  rw [h1, if_pos rfl]

theorem openFile_of_parserInput_none (fromJson : List Nat → QJsonDocument) (self : MainWindow)
    {filePath : String} {content : List Nat} (hpath : filePath.isEmpty = false)
    (h : parserInput content = none) :
    MainWindow.openFile fromJson self filePath (.ok content) =
      self.warning "Parsing Error" noJsonStartMessage := by
  unfold MainWindow.openFile
  simp only [hpath, h]
  rfl

theorem openFile_of_parserInput_some (fromJson : List Nat → QJsonDocument) (self : MainWindow)
    {filePath : String} {content data : List Nat} (hpath : filePath.isEmpty = false)
    (h : parserInput content = some data) :
    MainWindow.openFile fromJson self filePath (.ok content) =
      match fromJson data with
      | .object members =>
        { self.displayAnalysisData members with
          statusMessage := "Successfully loaded and parsed: " ++ filePath }
      | _ => self.warning "Parsing Error" invalidJsonMessage := by
  unfold MainWindow.openFile
  simp only [hpath, h]
  rfl

theorem openFile_congr (fromJson : List Nat → QJsonDocument) (self : MainWindow)
    (filePath : String) {c1 c2 : List Nat} (h : parserInput c1 = parserInput c2) :
    MainWindow.openFile fromJson self filePath (.ok c1) =
      MainWindow.openFile fromJson self filePath (.ok c2) := by
  unfold MainWindow.openFile
  simp only [h]

theorem displayAnalysisData_warnings (self : MainWindow) (json : QJsonObject) :
    (self.displayAnalysisData json).warnings = self.warnings := by
  unfold MainWindow.displayAnalysisData MainWindow.updateRecommendations
    MainWindow.addSampleRecommendations
  simp only []
  split_ifs <;> rfl

/-- C19, the defect. Line 397 stores the 64-bit position that `indexOf` returns in an `int`.
The content is `2 ^ 32 - 1` spaces followed by `{}`. It contains a `'{'`, at the position
`4294967295`, which `int jsonStartPos` holds as `-1`: `openFile` hands nothing to the parser
and reports that it could not find the start of the JSON content, against the comment of line
396, whereas loading the body `{}` alone hands `{}` to the parser. -/
theorem huge_header_hides_json_start :
    openBrace ∈ hugeHeader ++ [openBrace, 125] ∧
    parserInput (hugeHeader ++ [openBrace, 125]) = none ∧
    parserInput [openBrace, 125] = some [openBrace, 125] ∧
    MainWindow.openFile parseEmptyObjectOnly emptyWindow "report.txt"
        (.ok (hugeHeader ++ [openBrace, 125])) =
      emptyWindow.warning "Parsing Error" noJsonStartMessage ∧
    MainWindow.openFile parseEmptyObjectOnly emptyWindow "report.txt"
        (.ok (hugeHeader ++ [openBrace, 125])) ≠
      MainWindow.openFile parseEmptyObjectOnly emptyWindow "report.txt"
        (.ok [openBrace, 125]) := by
  have h1 : parserInput (hugeHeader ++ [openBrace, 125]) = none := parserInput_hugeHeader [125]
  have h2 : parserInput [openBrace, 125] = some [openBrace, 125] :=
    parserInput_header_body (h := []) [125] (List.not_mem_nil _) (by norm_num)
  have hpath : ("report.txt" : String).isEmpty = false := by decide
  have h3 := openFile_of_parserInput_none parseEmptyObjectOnly emptyWindow hpath h1
  have h4 := openFile_of_parserInput_some parseEmptyObjectOnly emptyWindow hpath h2
  refine ⟨List.mem_append_right _ (List.mem_cons_self _ _), h1, h2, h3, ?_⟩
  rw [h3, h4]
  have hp : parseEmptyObjectOnly [openBrace, 125] = QJsonDocument.object [] := by
    simp [parseEmptyObjectOnly, openBrace]
  rw [hp]
  intro heq
  have hw := congrArg MainWindow.warnings heq
  simp only [displayAnalysisData_warnings] at hw
  simp [MainWindow.warning, emptyWindow] at hw

/-- Where the position fits an `int`: for every header `h` that contains no `'{'` and is
shorter than `2 ^ 31` bytes and every body that begins with `'{'`, the bytes that `openFile`
hands to the JSON parser for the content `h` followed by the body are exactly the body, the
suffix of the content that starts at its first `'{'`; loading the content gives the same
window as loading the body alone. -/
theorem parser_receives_suffix_from_first_brace (fromJson : List Nat → QJsonDocument)
    (self : MainWindow) (filePath : String) (h rest : List Nat) (hh : openBrace ∉ h)
    (hlen : h.length < 2 ^ 31) :
    parserInput (h ++ openBrace :: rest) = some (openBrace :: rest) ∧
    MainWindow.openFile fromJson self filePath (.ok (h ++ openBrace :: rest)) =
      MainWindow.openFile fromJson self filePath (.ok (openBrace :: rest)) := by
  have h1 := parserInput_header_body rest hh hlen
  have h2 : parserInput (openBrace :: rest) = some (openBrace :: rest) :=
    parserInput_header_body (h := []) rest (List.not_mem_nil _) (by norm_num)
  exact ⟨h1, openFile_congr fromJson self filePath (h1.trans h2.symm)⟩

/-- The content `AI` followed by `{}` is loaded as `{}` alone. -/
theorem parser_receives_suffix_from_first_brace_witness :
    openBrace ∉ [65, 73] ∧ [65, 73].length < 2 ^ 31 ∧
    parserInput ([65, 73] ++ openBrace :: [125]) = some (openBrace :: [125]) ∧
    MainWindow.openFile parseEmptyObjectOnly emptyWindow "report.txt"
        (.ok ([65, 73] ++ openBrace :: [125])) =
      MainWindow.openFile parseEmptyObjectOnly emptyWindow "report.txt"
        (.ok (openBrace :: [125])) := by
  have hh : openBrace ∉ [65, 73] := by decide
  have hlen : [65, 73].length < 2 ^ 31 := by norm_num
  exact ⟨hh, hlen, parser_receives_suffix_from_first_brace parseEmptyObjectOnly emptyWindow
    "report.txt" [65, 73] [125] hh hlen⟩
/-! ## Malformed report files -/

theorem warning_frame (self : MainWindow) (title text : String) :
    (self.warning title text).aiAnalysisHtml = self.aiAnalysisHtml ∧
    (self.warning title text).recommendationsLayout = self.recommendationsLayout ∧
    (self.warning title text).currentTab = self.currentTab ∧
    (self.warning title text).statusMessage = self.statusMessage ∧
    (self.warning title text).warnings = self.warnings ++ [(title, text)] :=
  ⟨rfl, rfl, rfl, rfl, rfl⟩

theorem messages_differ : noJsonStartMessage ≠ invalidJsonMessage := by
  decide

theorem openFile_of_not_object (fromJson : List Nat → QJsonDocument) (self : MainWindow)
    {filePath : String} {content data : List Nat} (hpath : filePath.isEmpty = false)
    (h : parserInput content = some data)
    (hdoc : ∀ members, fromJson data ≠ QJsonDocument.object members) :
    MainWindow.openFile fromJson self filePath (.ok content) =
      self.warning "Parsing Error" invalidJsonMessage := by
  rw [openFile_of_parserInput_some fromJson self hpath h]
  cases hd : fromJson data with
  | null => rfl
  | array items => rfl
  | object members => exact absurd hd (hdoc members)

theorem toInt32_le_self {n : ℤ} (h : 0 ≤ n) : toInt32 n ≤ n := by
  unfold toInt32
  omega

theorem parserInput_header_body_any {h : List Nat} (rest : List Nat) (hh : openBrace ∉ h) :
    parserInput (h ++ openBrace :: rest) = none ∨
    ∃ pre, openBrace ∉ pre ∧
      parserInput (h ++ openBrace :: rest) = some (pre ++ openBrace :: rest) := by
  have hpos : jsonStartPos (h ++ openBrace :: rest) = toInt32 (h.length : ℤ) := by
    unfold jsonStartPos
    rw [indexOf_header_body rest hh]
  unfold parserInput jsonData
  rw [hpos]
  by_cases hq : toInt32 (h.length : ℤ) = -1
  · left
    rw [if_pos hq]
  · right
    rw [if_neg hq]
    unfold QByteArray.mid
    by_cases hneg : toInt32 (h.length : ℤ) < 0
    · exact ⟨h, hh, by rw [if_pos hneg]⟩
    · have hle : (toInt32 (h.length : ℤ)).toNat ≤ h.length := by
        have h1 : toInt32 (h.length : ℤ) ≤ (h.length : ℤ) :=
          toInt32_le_self (Int.natCast_nonneg h.length)
        have h2 : ((toInt32 (h.length : ℤ)).toNat : ℤ) = toInt32 (h.length : ℤ) :=
          Int.toNat_of_nonneg (not_lt.mp hneg)
        have h3 : ((toInt32 (h.length : ℤ)).toNat : ℤ) ≤ (h.length : ℤ) := by
          rw [h2]
          exact h1
        exact_mod_cast h3
      refine ⟨h.drop (toInt32 (h.length : ℤ)).toNat, ?_, ?_⟩
      · exact fun hmem => hh (List.mem_of_mem_drop hmem)
      · rw [if_neg hneg, List.drop_append_of_le_length hle]

theorem openFile_rejects_any_size (fromJson : List Nat → QJsonDocument) (self : MainWindow)
    {filePath : String} (hpath : filePath.isEmpty = false)
    (hgrammar : ObjectStartsAtFirstBrace fromJson) {h : List Nat} (rest : List Nat)
    (hh : openBrace ∉ h)
    (hdoc : ∀ members, fromJson (openBrace :: rest) ≠ QJsonDocument.object members) :
    MainWindow.openFile fromJson self filePath (.ok (h ++ openBrace :: rest)) =
        self.warning "Parsing Error" noJsonStartMessage ∨
    MainWindow.openFile fromJson self filePath (.ok (h ++ openBrace :: rest)) =
        self.warning "Parsing Error" invalidJsonMessage := by
  rcases parserInput_header_body_any rest hh with hnone | ⟨pre, hpre, hsome⟩
  · exact Or.inl (openFile_of_parserInput_none fromJson self hpath hnone)
  · refine Or.inr (openFile_of_not_object fromJson self hpath hsome ?_)
    intro members hobj
    obtain ⟨m, hm⟩ := hgrammar pre rest members hpre hobj
    exact hdoc m hm

theorem parseEmptyObjectOnly_grammar : ObjectStartsAtFirstBrace parseEmptyObjectOnly := by
  intro pre rest members hpre hobj
  unfold parseEmptyObjectOnly at hobj ⊢
  by_cases hc : pre ++ openBrace :: rest = [123, 125]
  · have hpre0 : pre = [] := by
      cases pre with
      | nil => rfl
      | cons b tl =>
        exfalso
        have hb : b = 123 := by
          have := congrArg List.head? hc
          simpa using this
        exact hpre (by rw [hb]; exact List.mem_cons_self _ _)
    rw [hpre0, List.nil_append] at hc
    rw [if_pos hc]
    exact ⟨[], rfl⟩
  · rw [if_neg hc] at hobj
    exact QJsonDocument.noConfusion hobj

/-- Rejection of malformed contents, for a parser that starts an object at the first `'{'` of
its text. After a file was chosen and read, for every content that contains no `'{'`, or whose
suffix from the first `'{'` the parser does not turn into a JSON object, `openFile` shows one
warning titled `Parsing Error` and changes nothing else of the window: the analysis HTML, the
recommendations, the current tab and the status message are those of before, so
`displayAnalysisData` was not called. The warning has one of two different messages: the
message that no start of JSON content was found for a content without `'{'`, and the message
that the file holds no valid JSON data for a content whose first `'{'` lies at a position
below `2 ^ 31`. -/
theorem malformed_report_is_rejected (fromJson : List Nat → QJsonDocument) (self : MainWindow)
    (filePath : String) (content : List Nat) (hpath : filePath.isEmpty = false)
    (hgrammar : ObjectStartsAtFirstBrace fromJson)
    (hbad : openBrace ∉ content ∨
      ∃ h rest, content = h ++ openBrace :: rest ∧ openBrace ∉ h ∧
        ∀ members, fromJson (openBrace :: rest) ≠ QJsonDocument.object members) :
    (∃ text, (text = noJsonStartMessage ∨ text = invalidJsonMessage) ∧
      MainWindow.openFile fromJson self filePath (.ok content) =
        self.warning "Parsing Error" text) ∧
    (MainWindow.openFile fromJson self filePath (.ok content)).aiAnalysisHtml =
      self.aiAnalysisHtml ∧
    (MainWindow.openFile fromJson self filePath (.ok content)).recommendationsLayout =
      self.recommendationsLayout ∧
    (MainWindow.openFile fromJson self filePath (.ok content)).currentTab = self.currentTab ∧
    (MainWindow.openFile fromJson self filePath (.ok content)).statusMessage =
      self.statusMessage ∧
    (openBrace ∉ content →
      MainWindow.openFile fromJson self filePath (.ok content) =
        self.warning "Parsing Error" noJsonStartMessage) ∧
    (∀ h rest, content = h ++ openBrace :: rest → openBrace ∉ h → h.length < 2 ^ 31 →
      (∀ members, fromJson (openBrace :: rest) ≠ QJsonDocument.object members) →
      MainWindow.openFile fromJson self filePath (.ok content) =
        self.warning "Parsing Error" invalidJsonMessage) ∧
    noJsonStartMessage ≠ invalidJsonMessage := by
  have hA : openBrace ∉ content →
      MainWindow.openFile fromJson self filePath (.ok content) =
        self.warning "Parsing Error" noJsonStartMessage :=
    fun h => openFile_of_parserInput_none fromJson self hpath (parserInput_of_not_mem h)
  have hex : ∃ text, (text = noJsonStartMessage ∨ text = invalidJsonMessage) ∧
      MainWindow.openFile fromJson self filePath (.ok content) =
        self.warning "Parsing Error" text := by
    rcases hbad with hno | ⟨h, rest, heq, hh, hdoc⟩
    · exact ⟨noJsonStartMessage, Or.inl rfl, hA hno⟩
    · rw [heq]
      rcases openFile_rejects_any_size fromJson self hpath hgrammar rest hh hdoc with h1 | h1
      · exact ⟨noJsonStartMessage, Or.inl rfl, h1⟩
      · exact ⟨invalidJsonMessage, Or.inr rfl, h1⟩
  obtain ⟨text, -, htext⟩ := hex
  have hframe := warning_frame self "Parsing Error" text
  refine ⟨⟨text, ?_, htext⟩, ?_, ?_, ?_, ?_, hA, ?_, messages_differ⟩
  · rcases hbad with hno | ⟨h, rest, heq, hh, hdoc⟩
    · have := (hA hno).symm.trans htext
      have hw := congrArg MainWindow.warnings this
      simp only [MainWindow.warning, List.append_cancel_left_eq, List.cons.injEq,
        Prod.mk.injEq, and_true, true_and] at hw
      exact Or.inl hw.symm
    · rw [heq] at htext
      rcases openFile_rejects_any_size fromJson self hpath hgrammar rest hh hdoc with h1 | h1
      · have hw := congrArg MainWindow.warnings (h1.symm.trans htext)
        simp only [MainWindow.warning, List.append_cancel_left_eq, List.cons.injEq,
          Prod.mk.injEq, and_true, true_and] at hw
        exact Or.inl hw.symm
      · have hw := congrArg MainWindow.warnings (h1.symm.trans htext)
        simp only [MainWindow.warning, List.append_cancel_left_eq, List.cons.injEq,
          Prod.mk.injEq, and_true, true_and] at hw
        exact Or.inr hw.symm
  · rw [htext]
    exact hframe.1
  · rw [htext]
    exact hframe.2.1
  · rw [htext]
    exact hframe.2.2.1
  · rw [htext]
    exact hframe.2.2.2.1
  · intro h rest heq hh hlen hdoc
    rw [heq]
    exact openFile_of_not_object fromJson self hpath (parserInput_header_body rest hh hlen) hdoc

/-- The content `AI` followed by the unterminated text `{`, with a parser that accepts the
text `{}` only, gets the message that the file holds no valid JSON data. -/
theorem malformed_report_is_rejected_witness :
    ("report.txt" : String).isEmpty = false ∧
    ObjectStartsAtFirstBrace parseEmptyObjectOnly ∧
    (∃ h rest, [65, 73, 123] = h ++ openBrace :: rest ∧ openBrace ∉ h ∧
      ∀ members, parseEmptyObjectOnly (openBrace :: rest) ≠ QJsonDocument.object members) ∧
    MainWindow.openFile parseEmptyObjectOnly emptyWindow "report.txt" (.ok [65, 73, 123]) =
      emptyWindow.warning "Parsing Error" invalidJsonMessage := by
  have hpath : ("report.txt" : String).isEmpty = false := by decide
  have hdoc : ∀ members, parseEmptyObjectOnly (openBrace :: []) ≠
      QJsonDocument.object members := by
    intro members h
    simp [parseEmptyObjectOnly, openBrace] at h
  have hbad : ∃ h rest, [65, 73, 123] = h ++ openBrace :: rest ∧ openBrace ∉ h ∧
      ∀ members, parseEmptyObjectOnly (openBrace :: rest) ≠ QJsonDocument.object members :=
    ⟨[65, 73], [], rfl, by decide, hdoc⟩
  exact ⟨hpath, parseEmptyObjectOnly_grammar, hbad,
    (malformed_report_is_rejected parseEmptyObjectOnly emptyWindow "report.txt" [65, 73, 123]
      hpath parseEmptyObjectOnly_grammar (Or.inr hbad)).2.2.2.2.2.2.1 [65, 73] [] rfl
      (by decide) (by norm_num) hdoc⟩

/-- C20, the defect. The content is `2 ^ 32 - 1` spaces followed by the unterminated text `{`.
It contains a `'{'`, and its suffix from the first `'{'`, the text `{`, is no JSON object.
Because line 397 holds the position `4294967295` of the `'{'` in an `int`, as `-1`, `openFile`
never calls the parser and shows the message that no start of JSON content was found: the
very warning that a content without any `'{'` gets, and not the message that the file holds no
valid JSON data, which the same text `{` gets when it is loaded alone. The two failures are
not told apart by their messages. -/
theorem unparsable_suffix_reported_as_missing_start :
    openBrace ∈ hugeHeader ++ [openBrace] ∧
    (∀ members, parseEmptyObjectOnly [openBrace] ≠ QJsonDocument.object members) ∧
    (∀ (fromJson : List Nat → QJsonDocument) (self : MainWindow),
      MainWindow.openFile fromJson self "report.txt" (.ok (hugeHeader ++ [openBrace])) =
        self.warning "Parsing Error" noJsonStartMessage) ∧
    MainWindow.openFile parseEmptyObjectOnly emptyWindow "report.txt" (.ok [openBrace]) =
      emptyWindow.warning "Parsing Error" invalidJsonMessage ∧
    MainWindow.openFile parseEmptyObjectOnly emptyWindow "report.txt" (.ok [65, 73]) =
      emptyWindow.warning "Parsing Error" noJsonStartMessage ∧
    noJsonStartMessage ≠ invalidJsonMessage := by
  have hpath : ("report.txt" : String).isEmpty = false := by decide
  have hdoc : ∀ members, parseEmptyObjectOnly [openBrace] ≠ QJsonDocument.object members := by
    intro members h
    simp [parseEmptyObjectOnly, openBrace] at h
  have hhuge : parserInput (hugeHeader ++ [openBrace]) = none := parserInput_hugeHeader []
  have halone : parserInput [openBrace] = some [openBrace] :=
    parserInput_header_body (h := []) [] (List.not_mem_nil _) (by norm_num)
  have hnone : parserInput [65, 73] = none := parserInput_of_not_mem (by decide)
  exact ⟨List.mem_append_right _ (List.mem_cons_self _ _), hdoc,
    fun fromJson self => openFile_of_parserInput_none fromJson self hpath hhuge,
    openFile_of_not_object parseEmptyObjectOnly emptyWindow hpath halone hdoc,
    openFile_of_parserInput_none parseEmptyObjectOnly emptyWindow hpath hnone,
    messages_differ⟩

/-! ## The stored I/O baseline -/

/-- C26. When the I/O counter query of a sample fails, `GetStats` leaves `prev_io_counters` as
it was and still stores the kernel time, the user time and the wall-clock time just read; a
sample after which `prev_io_counters` differs from before is one whose I/O query succeeded;
and after a successful query `prev_io_counters` is exactly the counters read. -/
theorem io_baseline_replaced_only_on_success (self : PerformanceStats) (os : OsReading) :
    (os.ioCounters = none →
      (GetStats self os).2.prev_io_counters = self.prev_io_counters ∧
      (GetStats self os).2.prev_kern_time = os.kernel ∧
      (GetStats self os).2.prev_user_time = os.user ∧
      (GetStats self os).2.prev_system_time = os.now) ∧
    ((GetStats self os).2.prev_io_counters ≠ self.prev_io_counters →
      ∃ cur, os.ioCounters = some cur) ∧
    (∀ cur, os.ioCounters = some cur →
      (GetStats self os).2.prev_io_counters = cur ∧
      (GetStats self os).2.prev_kern_time = os.kernel ∧
      (GetStats self os).2.prev_user_time = os.user ∧
      (GetStats self os).2.prev_system_time = os.now) := by
  refine ⟨?_, ?_, ?_⟩
  · intro h
    rw [GetStats_snd_of_io_failure h]
    exact ⟨rfl, rfl, rfl, rfl⟩
  · intro hne
    cases h : os.ioCounters with
    | some cur => exact ⟨cur, rfl⟩
    | none =>
      rw [GetStats_snd_of_io_failure h] at hne
      exact absurd rfl hne
  · intro cur h
    rw [GetStats_snd_of_io h]
    exact ⟨rfl, rfl, rfl, rfl⟩

/-- C26 at a stored snapshot with the counters `(1, 2, 3, 4)`: a sample whose I/O query fails
keeps them and stores its three times, and a sample that reads the counters `(5, 6, 700, 800)`
stores these. -/
theorem io_baseline_replaced_only_on_success_witness :
    (readingAt 9000 1500 2500 none).ioCounters = none ∧
    ((GetStats (samplerAt 1000 2000 0 (ioOf 1 2 3 4))
        (readingAt 9000 1500 2500 none)).2.prev_io_counters = ioOf 1 2 3 4 ∧
      (GetStats (samplerAt 1000 2000 0 (ioOf 1 2 3 4))
        (readingAt 9000 1500 2500 none)).2.prev_kern_time = 1500 ∧
      (GetStats (samplerAt 1000 2000 0 (ioOf 1 2 3 4))
        (readingAt 9000 1500 2500 none)).2.prev_user_time = 2500 ∧
      (GetStats (samplerAt 1000 2000 0 (ioOf 1 2 3 4))
        (readingAt 9000 1500 2500 none)).2.prev_system_time = 9000) ∧
    (GetStats (samplerAt 1000 2000 0 (ioOf 1 2 3 4))
      (readingAt 9000 1500 2500 (some (ioOf 5 6 700 800)))).2.prev_io_counters =
      ioOf 5 6 700 800 :=
  ⟨rfl,
    (io_baseline_replaced_only_on_success (samplerAt 1000 2000 0 (ioOf 1 2 3 4))
      (readingAt 9000 1500 2500 none)).1 rfl,
    ((io_baseline_replaced_only_on_success (samplerAt 1000 2000 0 (ioOf 1 2 3 4))
      (readingAt 9000 1500 2500 (some (ioOf 5 6 700 800)))).2.2 (ioOf 5 6 700 800) rfl).1⟩

/-! ## The report page -/

theorem foldl_append_string (l : List String) (acc : String) :
    List.foldl (fun r s => r ++ s) acc l = acc ++ List.foldl (fun r s => r ++ s) "" l := by
  induction l generalizing acc with
  | nil => simp
  | cons a l ih =>
    simp only [List.foldl_cons]
    rw [ih (acc ++ a), ih ("" ++ a), String.empty_append, String.append_assoc]

theorem join_cons_string (a : String) (l : List String) :
    String.join (a :: l) = a ++ String.join l := by
  unfold String.join
  rw [List.foldl_cons, foldl_append_string, String.empty_append]

theorem join_nil_string : String.join [] = "" := rfl

theorem join_append_string (l1 l2 : List String) :
    String.join (l1 ++ l2) = String.join l1 ++ String.join l2 := by
  induction l1 with
  | nil => rw [List.nil_append, join_nil_string, String.empty_append]
  | cons a l ih => rw [List.cons_append, join_cons_string, join_cons_string, ih,
      String.append_assoc]

theorem labelledItems_eq_specItems (items : List QJsonValue) :
    labelledItems items = specItems items := by
  induction items with
  | nil => rfl
  | cons value rest ih =>
    unfold labelledItems at ih ⊢
    cases value with
    | object members =>
      rw [List.filterMap_cons, specItems, ih]
      cases hl : List.lookup "label" members with
      | none => simp [QJsonValue.toObject, QJsonObject.contains, hl]
      | some label =>
        cases hd : List.lookup "details" members with
        | none => simp [QJsonValue.toObject, QJsonObject.contains, hl, hd]
        | some details =>
          simp [QJsonValue.toObject, QJsonObject.contains, QJsonObject.value, hl, hd]
    | null => simpa [specItems, QJsonValue.toObject, QJsonObject.contains] using ih
    | bool b => simpa [specItems, QJsonValue.toObject, QJsonObject.contains] using ih
    | double x => simpa [specItems, QJsonValue.toObject, QJsonObject.contains] using ih
    | string s => simpa [specItems, QJsonValue.toObject, QJsonObject.contains] using ih
    | array a => simpa [specItems, QJsonValue.toObject, QJsonObject.contains] using ih
    | undefined => simpa [specItems, QJsonValue.toObject, QJsonObject.contains] using ih

theorem formatSection_eq_spec (json : QJsonObject) (key title : String) :
    formatSection json key title =
      String.join ((specSection json key title).map ReportBlock.html) := by
  unfold formatSection specSection
  cases h : List.lookup key json with
  | none => simp [QJsonObject.contains, h, join_nil_string]
  | some value =>
    cases value with
    | array items =>
      simp only [QJsonObject.contains, QJsonObject.value, h, Option.isSome_some,
        Option.getD_some, QJsonValue.isArray, QJsonValue.toArray, Bool.and_self, if_true,
        List.map_cons, List.map_nil, ReportBlock.html]
      rw [join_cons_string, join_nil_string, String.append_empty, labelledItems_eq_specItems]
    | null => simp [QJsonObject.contains, QJsonObject.value, h, QJsonValue.isArray,
        join_nil_string]
    | bool b => simp [QJsonObject.contains, QJsonObject.value, h, QJsonValue.isArray,
        join_nil_string]
    | double x => simp [QJsonObject.contains, QJsonObject.value, h, QJsonValue.isArray,
        join_nil_string]
    | string s => simp [QJsonObject.contains, QJsonObject.value, h, QJsonValue.isArray,
        join_nil_string]
    | object m => simp [QJsonObject.contains, QJsonObject.value, h, QJsonValue.isArray,
        join_nil_string]
    | undefined => simp [QJsonObject.contains, QJsonObject.value, h, QJsonValue.isArray,
        join_nil_string]

theorem summary_eq_spec (json : QJsonObject) :
    (if QJsonObject.contains json "summary" && (QJsonObject.value json "summary").isString then
      "<h2>Summary</h2>" ++ ("<p>" ++ (QJsonObject.value json "summary").toString ++ "</p>")
    else "") = String.join ((specSummary json).map ReportBlock.html) := by
  unfold specSummary
  cases h : List.lookup "summary" json with
  | none => simp [QJsonObject.contains, h, join_nil_string]
  | some value =>
    cases value with
    | string s =>
      simp only [QJsonObject.contains, QJsonObject.value, h, Option.isSome_some,
        Option.getD_some, QJsonValue.isString, QJsonValue.toString, Bool.and_self, if_true,
        List.map_cons, List.map_nil, ReportBlock.html]
      rw [join_cons_string, join_nil_string, String.append_empty]
    | null => simp [QJsonObject.contains, QJsonObject.value, h, QJsonValue.isString,
        join_nil_string]
    | bool b => simp [QJsonObject.contains, QJsonObject.value, h, QJsonValue.isString,
        join_nil_string]
    | double x => simp [QJsonObject.contains, QJsonObject.value, h, QJsonValue.isString,
        join_nil_string]
    | array a => simp [QJsonObject.contains, QJsonObject.value, h, QJsonValue.isString,
        join_nil_string]
    | object m => simp [QJsonObject.contains, QJsonObject.value, h, QJsonValue.isString,
        join_nil_string]
    | undefined => simp [QJsonObject.contains, QJsonObject.value, h, QJsonValue.isString,
        join_nil_string]

theorem analysisHtml_eq_spec (json : QJsonObject) :
    analysisHtml json = String.join ((specBlocks json).map ReportBlock.html) := by
  unfold analysisHtml specBlocks
  rw [List.map_append, List.map_append, List.map_append, List.map_append, List.map_append,
    join_append_string, join_append_string, join_append_string, join_append_string,
    join_append_string, summary_eq_spec, formatSection_eq_spec, formatSection_eq_spec,
    formatSection_eq_spec, formatSection_eq_spec]
  rfl

theorem displayAnalysisData_html (self : MainWindow) (json : QJsonObject) :
    (self.displayAnalysisData json).aiAnalysisHtml = analysisHtml json := by
  unfold MainWindow.displayAnalysisData MainWindow.updateRecommendations
    MainWindow.addSampleRecommendations
  dsimp only
  split_ifs <;> rfl

theorem specBlocks_of_no_key {json : QJsonObject} (h1 : List.lookup "summary" json = none)
    (h2 : List.lookup "keyPoints" json = none)
    (h3 : List.lookup "recommendations" json = none)
    (h4 : List.lookup "performanceProfile" json = none)
    (h5 : List.lookup "resourceHotspots" json = none) :
    specBlocks json = [ReportBlock.title] := by
  unfold specBlocks specSummary specSection
  rw [h1, h2, h3, h4, h5]
  rfl

/-- C22. For every JSON object, the HTML that `displayAnalysisData` shows is the markup of
the parts that the specification lists, one after the other: the title heading, the Summary
section exactly when `summary` is present as a string, then for each of `keyPoints`,
`recommendations`, `performanceProfile`, `resourceHotspots`, in this order, that is present
as an array, a heading and a list with one item for each element of the array that is an
object with both `label` and `details`, in array order. When none of the five keys is
present, the HTML is the title heading alone. -/
theorem analysis_html_matches_description (self : MainWindow) (json : QJsonObject) :
    (self.displayAnalysisData json).aiAnalysisHtml =
      String.join ((specBlocks json).map ReportBlock.html) ∧
    (List.lookup "summary" json = none → List.lookup "keyPoints" json = none →
      List.lookup "recommendations" json = none →
      List.lookup "performanceProfile" json = none →
      List.lookup "resourceHotspots" json = none →
      (self.displayAnalysisData json).aiAnalysisHtml = ReportBlock.html ReportBlock.title) := by
  refine ⟨?_, ?_⟩
  · rw [displayAnalysisData_html, analysisHtml_eq_spec]
  · intro h1 h2 h3 h4 h5
    rw [displayAnalysisData_html, analysisHtml_eq_spec, specBlocks_of_no_key h1 h2 h3 h4 h5,
      List.map_cons, List.map_nil, join_cons_string, join_nil_string, String.append_empty]

/-- C22 at two reports: one with a summary, a `keyPoints` array of three elements of which one
is an object with both keys, and a `resourceHotspots` member that is no array; and one whose
only member is none of the five keys. -/
theorem analysis_html_matches_description_witness :
    specBlocks sampleReport =
      [ReportBlock.title, ReportBlock.summary "busy",
        ReportBlock.listSection "Key Points" [("CPU", "high")]] ∧
    (emptyWindow.displayAnalysisData sampleReport).aiAnalysisHtml =
      String.join ((specBlocks sampleReport).map ReportBlock.html) ∧
    (emptyWindow.displayAnalysisData [("version", QJsonValue.double 2)]).aiAnalysisHtml =
      "<h1>AI Process Usage Analysis</h1>" :=
  ⟨by decide,
    (analysis_html_matches_description emptyWindow sampleReport).1,
    (analysis_html_matches_description emptyWindow [("version", QJsonValue.double 2)]).2
      rfl rfl rfl rfl rfl⟩

/-! ## The polling loop -/

theorem run_concat (st : StatsThread) (readings : List OsReading) (os : OsReading) :
    st.run (readings ++ [os]) = (st.run readings).tick os := by
  unfold StatsThread.run
  rw [List.foldl_append]
  rfl

theorem tick_of_no_series {st : StatsThread} (h : st.cpu_series = none) (os : OsReading) :
    (st.tick os).cpu_series = none ∧ (st.tick os).index = st.writeIndex ∧
      (st.tick os).filled = st.writeFilled := by
  unfold StatsThread.tick
  rw [h]
  exact ⟨rfl, rfl, rfl⟩

theorem tick_of_series {st : StatsThread} {points : List QPointF}
    (h : st.cpu_series = some points) (os : OsReading) :
    (st.tick os).index = st.writeIndex + 1 ∧ (st.tick os).filled = st.writeFilled ∧
      (st.tick os).cpu_series = some
        (if st.writeFilled then
          QXYSeries.insert (QXYSeries.remove points st.writeIndex) st.writeIndex
            (chartPoint st.writeIndex (GetStats st.perf_stats os).1)
        else QXYSeries.append points (chartPoint st.writeIndex (GetStats st.perf_stats os).1)) := by
  unfold StatsThread.tick
  rw [h]
  exact ⟨rfl, rfl, rfl⟩

theorem run_before_series (os0 : OsAtConstruction) (before : List OsReading) :
    ((StatsThread.start os0).run before).cpu_series = none ∧
      ((StatsThread.start os0).run before).index = 0 ∧
      ((StatsThread.start os0).run before).filled = false := by
  induction before using List.reverseRecOn with
  | nil => exact ⟨rfl, rfl, rfl⟩
  | append_singleton l os ih =>
    rw [run_concat]
    obtain ⟨h1, h2, h3⟩ := tick_of_no_series ih.1 os
    refine ⟨h1, ?_, ?_⟩
    · rw [h2]
      unfold StatsThread.writeIndex StatsThread.size
      rw [ih.2.1]
      rfl
    · rw [h3]
      unfold StatsThread.writeFilled StatsThread.size
      rw [ih.2.1, ih.2.2]
      rfl

theorem insert_remove_eq_set (points : List QPointF) (i : Int) (p : QPointF) (h0 : 0 ≤ i)
    (h : i.toNat < points.length) :
    QXYSeries.insert (QXYSeries.remove points i) i p = points.set i.toNat p := by
  unfold QXYSeries.insert QXYSeries.remove
  rw [if_pos h0]
  generalize i.toNat = n at h
  induction points generalizing n with
  | nil => simp at h
  | cons a l ih =>
    cases n with
    | zero => simp
    | succ n =>
      have hl : n < l.length := by simpa using h
      simpa using ih n hl

theorem after_concat (os0 : OsAtConstruction) (before ticks : List OsReading) (os : OsReading) :
    StatsThread.after os0 before (ticks ++ [os]) = (StatsThread.after os0 before ticks).tick os := by
  unfold StatsThread.after
  rw [run_concat]

theorem after_invariant (os0 : OsAtConstruction) (before ticks : List OsReading) :
    ∃ points, (StatsThread.after os0 before ticks).cpu_series = some points ∧
      points.length = min ticks.length 100 ∧
      ((ticks.length ≤ 100 ∧ (StatsThread.after os0 before ticks).index = (ticks.length : ℤ) ∧
          (StatsThread.after os0 before ticks).filled = false) ∨
        (100 < ticks.length ∧
          (StatsThread.after os0 before ticks).index =
            (((ticks.length - 1) % 100 + 1 : ℕ) : ℤ) ∧
          (StatsThread.after os0 before ticks).filled = true)) := by
  induction ticks using List.reverseRecOn with
  | nil =>
    obtain ⟨-, h2, h3⟩ := run_before_series os0 before
    refine ⟨[], rfl, rfl, Or.inl ⟨by simp, ?_, ?_⟩⟩
    · show ((StatsThread.start os0).run before).index = _
      rw [h2]
      rfl
    · show ((StatsThread.start os0).run before).filled = _
      exact h3
  | append_singleton l os ih =>
    obtain ⟨points, hser, hlen, hcase⟩ := ih
    rw [after_concat]
    obtain ⟨hi, hf, hs⟩ := tick_of_series hser os
    rw [hi, hf, hs]
    simp only [List.length_append, List.length_singleton]
    rcases hcase with ⟨hle, hidx, hfil⟩ | ⟨hgt, hidx, hfil⟩
    · by_cases h100 : l.length = 100
      · have hwi : (StatsThread.after os0 before l).writeIndex = 0 := by
          unfold StatsThread.writeIndex StatsThread.size
          rw [hidx, h100]
          rfl
        have hwf : (StatsThread.after os0 before l).writeFilled = true := by
          unfold StatsThread.writeFilled StatsThread.size
          rw [hidx, h100]
          rfl
        rw [hwi, hwf, if_pos rfl,
          insert_remove_eq_set points 0 _ le_rfl (by rw [hlen, h100]; decide)]
        refine ⟨_, rfl, ?_, Or.inr ⟨by omega, ?_, rfl⟩⟩
        · rw [List.length_set, hlen, h100]
          rfl
        · rw [h100]
          rfl
      · have hlt : l.length < 100 := by omega
        have hwi : (StatsThread.after os0 before l).writeIndex = (l.length : ℤ) := by
          unfold StatsThread.writeIndex StatsThread.size
          rw [hidx, if_neg (by omega)]
        have hwf : (StatsThread.after os0 before l).writeFilled = false := by
          unfold StatsThread.writeFilled StatsThread.size
          rw [hidx, if_neg (by omega), hfil]
        rw [hwi, hwf]
        refine ⟨_, rfl, ?_, Or.inl ⟨by omega, by push_cast; ring, rfl⟩⟩
        simp only [Bool.false_eq_true, if_false, QXYSeries.append, List.length_append,
          List.length_singleton]
        omega
    · have hwf : (StatsThread.after os0 before l).writeFilled = true := by
        unfold StatsThread.writeFilled
        rw [hfil]
        simp
      have hwi : (StatsThread.after os0 before l).writeIndex = ((l.length % 100 : ℕ) : ℤ) := by
        unfold StatsThread.writeIndex StatsThread.size
        rw [hidx]
        split_ifs with hc <;> omega
      have hlen100 : points.length = 100 := by omega
      rw [hwi, hwf, if_pos rfl,
        insert_remove_eq_set points _ _ (Int.natCast_nonneg _)
          (by rw [Int.toNat_natCast, hlen100]; omega)]
      refine ⟨_, rfl, ?_, Or.inr ⟨by omega, ?_, rfl⟩⟩
      · rw [List.length_set, hlen100]
        omega
      · omega

theorem after_writeIndex (os0 : OsAtConstruction) (before ticks : List OsReading) :
    (StatsThread.after os0 before ticks).writeIndex = ((ticks.length % 100 : ℕ) : ℤ) := by
  obtain ⟨points, -, -, hcase⟩ := after_invariant os0 before ticks
  unfold StatsThread.writeIndex StatsThread.size
  rcases hcase with ⟨hle, hidx, -⟩ | ⟨hgt, hidx, -⟩
  · rw [hidx]
    split_ifs with hc <;> omega
  · rw [hidx]
    split_ifs with hc <;> omega

theorem after_writeFilled (os0 : OsAtConstruction) (before ticks : List OsReading) :
    (StatsThread.after os0 before ticks).writeFilled = true ↔ 100 ≤ ticks.length := by
  obtain ⟨points, -, -, hcase⟩ := after_invariant os0 before ticks
  unfold StatsThread.writeFilled StatsThread.size
  rcases hcase with ⟨hle, hidx, hfil⟩ | ⟨hgt, hidx, hfil⟩
  · rw [hidx, hfil]
    split_ifs with hc
    · simp only [true_iff]
      omega
    · simp only [Bool.false_eq_true, false_iff]
      omega
  · rw [hfil]
    simp only [ite_self, true_iff]
    omega

/-- C24. In the polling loop started at index 0, after any number of passes made before the
series exists and any number `n` of passes made since the empty series exists, the index at
which the next sample is written is `n mod 100`, a value in `[0, 99]`; the series holds
`min n 100` points, never more than 100; the next sample is written in the filled mode
exactly when `n ≥ 100`, that is from the 101st written sample on, the 101st being written at
index 0; and the variable `filled` is true exactly when at least 101 samples have been
written. -/
theorem polling_window_invariant (os0 : OsAtConstruction) (before ticks : List OsReading) :
    (0 ≤ (StatsThread.after os0 before ticks).writeIndex ∧
      (StatsThread.after os0 before ticks).writeIndex ≤ 99) ∧
    (StatsThread.after os0 before ticks).writeIndex = ((ticks.length % 100 : ℕ) : ℤ) ∧
    (∃ points, (StatsThread.after os0 before ticks).cpu_series = some points ∧
      points.length = min ticks.length 100 ∧ points.length ≤ 100) ∧
    ((StatsThread.after os0 before ticks).writeFilled = true ↔ 100 ≤ ticks.length) ∧
    ((StatsThread.after os0 before ticks).filled = true ↔ 101 ≤ ticks.length) := by
  have hwi := after_writeIndex os0 before ticks
  obtain ⟨points, hser, hlen, hcase⟩ := after_invariant os0 before ticks
  refine ⟨?_, hwi, ⟨points, hser, hlen, by omega⟩, after_writeFilled os0 before ticks, ?_⟩
  · rw [hwi]
    omega
  · rcases hcase with ⟨hle, -, hfil⟩ | ⟨hgt, -, hfil⟩
    · rw [hfil]
      simp only [Bool.false_eq_true, false_iff]
      omega
    · rw [hfil]
      simp only [true_iff]
      omega

theorem plottedSum_of_small {stat : Stats} {k u : ℕ} (hk : stat.CPU_KERNPERCENT = some k)
    (hu : stat.CPU_USERPERCENT = some u) (h : k + u < 2 ^ 64) :
    plottedSum stat = some (k + u) := by
  unfold plottedSum
  rw [hk, hu]
  simp only [Nat.add_zero, Nat.mod_mod]
  rw [Nat.mod_eq_of_lt h]

theorem updateEventsTable_eq (table : List TableRow) (stat : Stats) (pid : Nat)
    (time : String) :
    updateEventsTableWithRealData table stat pid time =
      if 50 ≤ table.length then
        (TableRow.sample ((table.length : ℤ) + 1) pid stat time :: table).eraseIdx 50
      else TableRow.sample ((table.length : ℤ) + 1) pid stat time :: table := by
  unfold updateEventsTableWithRealData QTableWidget.insertRow QTableWidget.removeRow
    QTableWidget.rowCount
  simp only [List.take_zero, List.drop_zero, List.nil_append, List.set_cons_zero,
    List.length_cons, Nat.cast_add, Nat.cast_one]
  by_cases h : 50 ≤ table.length
  · rw [if_pos h, if_pos (by omega)]
  · rw [if_neg h, if_neg (by omega)]

theorem updateEventsTable_length (table : List TableRow) (stat : Stats) (pid : Nat)
    (time : String) :
    (updateEventsTableWithRealData table stat pid time).length =
      if 50 ≤ table.length then table.length else table.length + 1 := by
  rw [updateEventsTable_eq]
  by_cases h : 50 ≤ table.length
  · rw [if_pos h, if_pos h, List.length_eraseIdx]
    simp only [List.length_cons]
    rw [if_pos (by omega)]
    omega
  · rw [if_neg h, if_neg h, List.length_cons]

theorem updateEventsTable_head (table : List TableRow) (stat : Stats) (pid : Nat)
    (time : String) :
    (updateEventsTableWithRealData table stat pid time)[0]? =
      some (TableRow.sample ((table.length : ℤ) + 1) pid stat time) := by
  rw [updateEventsTable_eq]
  by_cases h : 50 ≤ table.length
  · rw [if_pos h, List.eraseIdx_cons_succ, List.getElem?_cons_zero]
  · rw [if_neg h, List.getElem?_cons_zero]

theorem processRows_length (processInfoList : List (List String)) :
    (processRows processInfoList).length = processInfoList.length := by
  unfold processRows
  rw [List.length_map, List.enum_length]

/-- C23, the defect. The comment of line 842 announces that only the last 50 entries are
kept, but line 844 removes a single row. After `getCurrentUserProcesses` has filled the table
with the rows of sixty processes, `updateEventsTableWithRealData` leaves sixty rows, the new
sample in row 0: the row count is not at most 50. In general the row count after the call
is the row count before it as soon as that was 50 or more. -/
theorem events_table_row_count_exceeds_fifty :
    ∀ (stat : Stats) (pid : Nat) (time : String),
      (processRows sixtyProcesses).length = 60 ∧
      (updateEventsTableWithRealData (processRows sixtyProcesses) stat pid time).length = 60 ∧
      ¬ (updateEventsTableWithRealData (processRows sixtyProcesses) stat pid time).length ≤ 50 ∧
      (updateEventsTableWithRealData (processRows sixtyProcesses) stat pid time)[0]? =
        some (TableRow.sample 61 pid stat time) ∧
      ∀ table : List TableRow,
        (updateEventsTableWithRealData table stat pid time).length =
          if 50 ≤ table.length then table.length else table.length + 1 := by
  intro stat pid time
  have h60 : (processRows sixtyProcesses).length = 60 := by
    rw [processRows_length]
    rfl
  have hlen : (updateEventsTableWithRealData (processRows sixtyProcesses) stat pid time).length =
      60 := by
    rw [updateEventsTable_length, h60]
    rfl
  refine ⟨h60, hlen, ?_, ?_, fun table => updateEventsTable_length table stat pid time⟩
  · rw [hlen]
    decide
  · rw [updateEventsTable_head, h60]
    rfl

/-! ## The plotted sum of the two percentages -/

theorem percentQ_mul_le {k s : ℕ} (hk : 0 < k) (hs : 0 < s) :
    rnd (rnd (rnd (k : ℚ) / rnd (s : ℚ)) * 100) * ((s : ℚ) * (1 - 1 / 2 ^ (53 : ℕ))) ≤
      100 * (k : ℚ) * (1 + 1 / 2 ^ (53 : ℕ)) ^ 3 := by
  have hkq : (0 : ℚ) < k := by exact_mod_cast hk
  have hsq : (0 : ℚ) < s := by exact_mod_cast hs
  have ha := abs_le.mp (rnd_rel_le hkq)
  have hc := abs_le.mp (rnd_rel_le hsq)
  have ha0 : 0 < rnd (k : ℚ) := rnd_pos hkq
  have hc0 : 0 < rnd (s : ℚ) := rnd_pos hsq
  have hq0 : 0 < rnd (k : ℚ) / rnd (s : ℚ) := div_pos ha0 hc0
  have hr := abs_le.mp (rnd_rel_le hq0)
  have hr0 : 0 < rnd (rnd (k : ℚ) / rnd (s : ℚ)) := rnd_pos hq0
  have hp0 : 0 < rnd (rnd (k : ℚ) / rnd (s : ℚ)) * 100 := by positivity
  have hy := abs_le.mp (rnd_rel_le hp0)
  have hy0 : 0 ≤ rnd (rnd (rnd (k : ℚ) / rnd (s : ℚ)) * 100) := (rnd_pos hp0).le
  have hqc : rnd (k : ℚ) / rnd (s : ℚ) * rnd (s : ℚ) = rnd (k : ℚ) :=
    div_mul_cancel₀ _ hc0.ne'
  generalize rnd (rnd (rnd (k : ℚ) / rnd (s : ℚ)) * 100) = y at *
  generalize rnd (rnd (k : ℚ) / rnd (s : ℚ)) = r at *
  generalize rnd (k : ℚ) / rnd (s : ℚ) = q at *
  generalize rnd (k : ℚ) = a at *
  generalize rnd (s : ℚ) = c at *
  have h1 : a ≤ k * (1 + 1 / 2 ^ (53 : ℕ)) := by linarith [ha.2]
  have h2 : (s : ℚ) * (1 - 1 / 2 ^ (53 : ℕ)) ≤ c := by linarith [hc.1]
  have h3 : r * c ≤ a * (1 + 1 / 2 ^ (53 : ℕ)) := by
    have h : r ≤ q * (1 + 1 / 2 ^ (53 : ℕ)) := by linarith [hr.2]
    calc r * c ≤ q * (1 + 1 / 2 ^ (53 : ℕ)) * c := mul_le_mul_of_nonneg_right h hc0.le
      _ = q * c * (1 + 1 / 2 ^ (53 : ℕ)) := by ring
      _ = a * (1 + 1 / 2 ^ (53 : ℕ)) := by rw [hqc]
  have h4 : y ≤ r * 100 * (1 + 1 / 2 ^ (53 : ℕ)) := by linarith [hy.2]
  calc y * ((s : ℚ) * (1 - 1 / 2 ^ (53 : ℕ))) ≤ y * c := mul_le_mul_of_nonneg_left h2 hy0
    _ ≤ r * 100 * (1 + 1 / 2 ^ (53 : ℕ)) * c := mul_le_mul_of_nonneg_right h4 hc0.le
    _ = 100 * (1 + 1 / 2 ^ (53 : ℕ)) * (r * c) := by ring
    _ ≤ 100 * (1 + 1 / 2 ^ (53 : ℕ)) * (a * (1 + 1 / 2 ^ (53 : ℕ))) :=
      mul_le_mul_of_nonneg_left h3 (by norm_num)
    _ ≤ 100 * (1 + 1 / 2 ^ (53 : ℕ)) * (k * (1 + 1 / 2 ^ (53 : ℕ)) * (1 + 1 / 2 ^ (53 : ℕ))) :=
      mul_le_mul_of_nonneg_left (mul_le_mul_of_nonneg_right h1 (by norm_num)) (by norm_num)
    _ = 100 * (k : ℚ) * (1 + 1 / 2 ^ (53 : ℕ)) ^ 3 := by ring

theorem percentQ_sum_lt {k u s : ℕ} (hk : 0 < k) (hu : 0 < u) (hs : 0 < s) (h : k + u ≤ s) :
    rnd (rnd (rnd (k : ℚ) / rnd (s : ℚ)) * 100) +
      rnd (rnd (rnd (u : ℚ) / rnd (s : ℚ)) * 100) < 101 := by
  have h1 := percentQ_mul_le hk hs
  have h2 := percentQ_mul_le hu hs
  have hsq : (0 : ℚ) < s := by exact_mod_cast hs
  have hq : (k : ℚ) + u ≤ s := by exact_mod_cast h
  generalize rnd (rnd (rnd (k : ℚ) / rnd (s : ℚ)) * 100) = yk at *
  generalize rnd (rnd (rnd (u : ℚ) / rnd (s : ℚ)) * 100) = yu at *
  by_contra hc
  push_neg at hc
  have h3 : (101 : ℚ) * ((s : ℚ) * (1 - 1 / 2 ^ (53 : ℕ))) ≤
      (yk + yu) * ((s : ℚ) * (1 - 1 / 2 ^ (53 : ℕ))) :=
    mul_le_mul_of_nonneg_right hc (mul_nonneg hsq.le (by norm_num))
  have h4 : (100 : ℚ) * ((k : ℚ) + u) * (1 + 1 / 2 ^ (53 : ℕ)) ^ 3 ≤
      100 * (s : ℚ) * (1 + 1 / 2 ^ (53 : ℕ)) ^ 3 :=
    mul_le_mul_of_nonneg_right (mul_le_mul_of_nonneg_left hq (by norm_num)) (by norm_num)
  have h5 : (s : ℚ) * (101 * (1 - 1 / 2 ^ (53 : ℕ)) - 100 * (1 + 1 / 2 ^ (53 : ℕ)) ^ 3) ≤ 0 := by
    linarith
  have h6 : (0 : ℚ) < 101 * (1 - 1 / 2 ^ (53 : ℕ)) - 100 * (1 + 1 / 2 ^ (53 : ℕ)) ^ 3 := by
    norm_num
  exact absurd (mul_pos hsq h6) (not_lt.mpr h5)

theorem cpuPercent_sum_le_hundred {k u s : ℕ} (hs : 0 < s) (h : k + u ≤ s) :
    ∃ pk pu, (cpuPercentRhs (Dbl.ofU64 k) (Dbl.ofU64 s)).value = some pk ∧
      (cpuPercentRhs (Dbl.ofU64 u) (Dbl.ofU64 s)).value = some pu ∧ pk + pu ≤ 100 := by
  rcases Nat.eq_zero_or_pos k with hk0 | hk
  · obtain ⟨pu, hpu, hle⟩ := cpuPercent_le_hundred (k := u) (s := s) (by omega)
    refine ⟨0, pu, ?_, hpu, by omega⟩
    rw [cpuPercentRhs_ofU64, if_neg (by omega)]
    rfl
  rcases Nat.eq_zero_or_pos u with hu0 | hu
  · obtain ⟨pk, hpk, hle⟩ := cpuPercent_le_hundred (k := k) (s := s) (by omega)
    refine ⟨pk, 0, hpk, ?_, by omega⟩
    rw [cpuPercentRhs_ofU64, if_neg (by omega)]
    rfl
  have hlt := percentQ_sum_lt hk hu hs h
  have hk0 := percentQ_nonneg k s
  have hu0 := percentQ_nonneg u s
  rw [cpuPercentRhs_ofU64, if_pos ⟨hs, hk⟩, percent_value_eq hs, cpuPercentRhs_ofU64,
    if_pos ⟨hs, hu⟩, percent_value_eq hs]
  generalize rnd (rnd (rnd (k : ℚ) / rnd (s : ℚ)) * 100) = yk at *
  generalize rnd (rnd (rnd (u : ℚ) / rnd (s : ℚ)) * 100) = yu at *
  refine ⟨⌊yk⌋₊, ⌊yu⌋₊, toU64_fin hk0 (by linarith), toU64_fin hu0 (by linarith), ?_⟩
  have h1 : (⌊yk⌋₊ : ℚ) ≤ yk := Nat.floor_le hk0
  have h2 : (⌊yu⌋₊ : ℚ) ≤ yu := Nat.floor_le hu0
  have h3 : ((⌊yk⌋₊ + ⌊yu⌋₊ : ℕ) : ℚ) < ((101 : ℕ) : ℚ) := by
    push_cast
    linarith
  have h4 : ⌊yk⌋₊ + ⌊yu⌋₊ < 101 := by exact_mod_cast h3
  omega

theorem cpuPercent_le_floor {k s : ℕ} (hs : 0 < s) (hk44 : k < 2 ^ 44) :
    ∃ p, (cpuPercentRhs (Dbl.ofU64 k) (Dbl.ofU64 s)).value = some p ∧ p ≤ 100 * k / s := by
  rcases Nat.eq_zero_or_pos k with hk0 | hk
  · refine ⟨0, ?_, Nat.zero_le _⟩
    rw [cpuPercentRhs_ofU64, if_neg (by omega)]
    rfl
  have h1 := percentQ_mul_le hk hs
  have h0 := percentQ_nonneg k s
  rw [cpuPercentRhs_ofU64, if_pos ⟨hs, hk⟩, percent_value_eq hs]
  have hsq : (0 : ℚ) < s := by exact_mod_cast hs
  have hn : 100 * k + 1 ≤ (100 * k / s + 1) * s := by
    have h := Nat.div_add_mod (100 * k) s
    have hm := Nat.mod_lt (100 * k) hs
    have he : (100 * k / s + 1) * s = s * (100 * k / s) + s := by ring
    omega
  have hnq : (100 : ℚ) * k + 1 ≤ ((100 * k / s + 1 : ℕ) : ℚ) * s := by exact_mod_cast hn
  have hkq : (k : ℚ) < 2 ^ (44 : ℕ) := by exact_mod_cast hk44
  have hkpos : (0 : ℚ) < k := by exact_mod_cast hk
  generalize rnd (rnd (rnd (k : ℚ) / rnd (s : ℚ)) * 100) = y at *
  have hy : y < ((100 * k / s + 1 : ℕ) : ℚ) := by
    by_contra hc
    push_neg at hc
    have h3 : ((100 * k / s + 1 : ℕ) : ℚ) * ((s : ℚ) * (1 - 1 / 2 ^ (53 : ℕ))) ≤
        y * ((s : ℚ) * (1 - 1 / 2 ^ (53 : ℕ))) :=
      mul_le_mul_of_nonneg_right hc (mul_nonneg hsq.le (by norm_num))
    have h4 : ((100 : ℚ) * k + 1) * (1 - 1 / 2 ^ (53 : ℕ)) ≤
        ((100 * k / s + 1 : ℕ) : ℚ) * s * (1 - 1 / 2 ^ (53 : ℕ)) :=
      mul_le_mul_of_nonneg_right hnq (by norm_num)
    have h5 : (100 : ℚ) * k * ((1 + 1 / 2 ^ (53 : ℕ)) ^ 3 - (1 - 1 / 2 ^ (53 : ℕ))) <
        1 - 1 / 2 ^ (53 : ℕ) := by
      have h6 : (100 : ℚ) * k * ((1 + 1 / 2 ^ (53 : ℕ)) ^ 3 - (1 - 1 / 2 ^ (53 : ℕ))) ≤
          100 * 2 ^ (44 : ℕ) * ((1 + 1 / 2 ^ (53 : ℕ)) ^ 3 - (1 - 1 / 2 ^ (53 : ℕ))) :=
        mul_le_mul_of_nonneg_right (mul_le_mul_of_nonneg_left hkq.le (by norm_num))
          (by norm_num)
      have h7 : (100 : ℚ) * 2 ^ (44 : ℕ) *
          ((1 + 1 / 2 ^ (53 : ℕ)) ^ 3 - (1 - 1 / 2 ^ (53 : ℕ))) < 1 - 1 / 2 ^ (53 : ℕ) := by
        norm_num
      linarith
    linarith
  have hylt : y < 2 ^ 64 := by
    have h2 : ((100 * k / s + 1 : ℕ) : ℚ) ≤ ((100 * 2 ^ 44 + 1 : ℕ) : ℚ) := by
      have h3 : 100 * k / s ≤ 100 * k := Nat.div_le_self _ _
      have h4 : 100 * k / s + 1 ≤ 100 * 2 ^ 44 + 1 := by omega
      exact_mod_cast h4
    have h5 : (((100 * 2 ^ 44 + 1 : ℕ) : ℕ) : ℚ) < 2 ^ 64 := by norm_num
    linarith
  refine ⟨⌊y⌋₊, toU64_fin h0 hylt, ?_⟩
  have h8 : (⌊y⌋₊ : ℚ) ≤ y := Nat.floor_le h0
  have h9 : ((⌊y⌋₊ : ℕ) : ℚ) < ((100 * k / s + 1 : ℕ) : ℚ) := lt_of_le_of_lt h8 hy
  have h10 : ⌊y⌋₊ < 100 * k / s + 1 := by exact_mod_cast h9
  omega

theorem add_div_le_div_add (a b s : ℕ) (hs : 0 < s) : a / s + b / s ≤ (a + b) / s := by
  rw [Nat.le_div_iff_mul_le hs, Nat.add_mul]
  exact Nat.add_le_add (Nat.div_mul_le_self a s) (Nat.div_mul_le_self b s)

theorem rnd_two_pow_54_succ : rnd ((18014398509481985 : ℕ) : ℚ) = 18014398509481984 := by
  rw [rnd_eq_of_binade 54 4503599627370496 (by norm_num) (by norm_num)
    (by rw [abs_lt]; norm_num)]
  norm_num

theorem rnd_two_pow_54 : rnd ((18014398509481984 : ℕ) : ℚ) = 18014398509481984 := by
  rw [rnd_eq_of_binade 54 4503599627370496 (by norm_num) (by norm_num)
    (by rw [abs_lt]; norm_num)]
  norm_num

/-- C25, counterexample. With `kernelDiff = 2 ^ 54` ticks, `userDiff = 0` and
`systemTimeDiff = 2 ^ 54 + 1` ticks, the elapsed time is positive and the two deltas add up to
less than it, the conversion of `systemTimeDiff` to `double` rounds to `2 ^ 54`, and the
plotted sum is 100, while `floor(100 * (kernelDiff + userDiff) / systemTimeDiff)` is 99. -/
theorem plotted_sum_exceeds_floor :
    0 < systemDelta (samplerAt 0 0 0 (ioOf 0 0 0 0))
      (readingAt 18014398509481985 18014398509481984 0 none) ∧
    kernelDelta (samplerAt 0 0 0 (ioOf 0 0 0 0))
        (readingAt 18014398509481985 18014398509481984 0 none) +
      userDelta (samplerAt 0 0 0 (ioOf 0 0 0 0))
        (readingAt 18014398509481985 18014398509481984 0 none) ≤
      systemDelta (samplerAt 0 0 0 (ioOf 0 0 0 0))
        (readingAt 18014398509481985 18014398509481984 0 none) ∧
    plottedSum (GetStats (samplerAt 0 0 0 (ioOf 0 0 0 0))
      (readingAt 18014398509481985 18014398509481984 0 none)).1 = some 100 ∧
    100 * (kernelDelta (samplerAt 0 0 0 (ioOf 0 0 0 0))
          (readingAt 18014398509481985 18014398509481984 0 none) +
        userDelta (samplerAt 0 0 0 (ioOf 0 0 0 0))
          (readingAt 18014398509481985 18014398509481984 0 none)) /
      systemDelta (samplerAt 0 0 0 (ioOf 0 0 0 0))
        (readingAt 18014398509481985 18014398509481984 0 none) = 99 := by
  have hs : systemDelta (samplerAt 0 0 0 (ioOf 0 0 0 0))
      (readingAt 18014398509481985 18014398509481984 0 none) = 18014398509481985 := by
    simp [systemDelta, samplerAt, readingAt, sub64]
  have hk : kernelDelta (samplerAt 0 0 0 (ioOf 0 0 0 0))
      (readingAt 18014398509481985 18014398509481984 0 none) = 18014398509481984 := by
    simp [kernelDelta, samplerAt, readingAt, sub64]
  have hu : userDelta (samplerAt 0 0 0 (ioOf 0 0 0 0))
      (readingAt 18014398509481985 18014398509481984 0 none) = 0 := by
    simp [userDelta, samplerAt, readingAt, sub64]
  have hK : (GetStats (samplerAt 0 0 0 (ioOf 0 0 0 0))
      (readingAt 18014398509481985 18014398509481984 0 none)).1.CPU_KERNPERCENT = some 100 := by
    rw [GetStats_kernPercent_eq, hs, hk, cpuPercentRhs_ofU64, if_pos (by norm_num),
      percent_value_eq (by norm_num), rnd_two_pow_54, rnd_two_pow_54_succ,
      div_self (by norm_num), rnd_one, one_mul, rnd_hundred]
    exact toU64_fin_of_bounds (by norm_num) (by norm_num) (by norm_num)
  have hU : (GetStats (samplerAt 0 0 0 (ioOf 0 0 0 0))
      (readingAt 18014398509481985 18014398509481984 0 none)).1.CPU_USERPERCENT = some 0 := by
    rw [GetStats_userPercent_eq, hs, hu, cpuPercentRhs_ofU64, if_neg (by norm_num)]
    rfl
  refine ⟨by rw [hs]; norm_num, by rw [hs, hk, hu]; norm_num, ?_, by rw [hs, hk, hu]⟩
  exact plottedSum_of_small hK hU (by norm_num)

/-- C25, amended. For every sample with `systemTimeDiff > 0` and
`kernelDiff + userDiff ≤ systemTimeDiff`, both percentages are defined and the value
`CPU_KERNPERCENT + CPU_USERPERCENT` that the polling loop plots is at most 100, the ordinate
of the chart point being exactly this sum; when moreover `kernelDiff` and `userDiff` are
below `2 ^ 44` ticks, it is at most `floor(100 * (kernelDiff + userDiff) / systemTimeDiff)`. -/
theorem plotted_sum_bounded (self : PerformanceStats) (os : OsReading)
    (hs : 0 < systemDelta self os)
    (hsum : kernelDelta self os + userDelta self os ≤ systemDelta self os) :
    ∃ pk pu, (GetStats self os).1.CPU_KERNPERCENT = some pk ∧
      (GetStats self os).1.CPU_USERPERCENT = some pu ∧
      plottedSum (GetStats self os).1 = some (pk + pu) ∧
      (∀ index, (chartPoint index (GetStats self os).1).yp =
        some (Dbl.fin ((pk + pu : ℕ) : ℚ))) ∧
      pk + pu ≤ 100 ∧
      (kernelDelta self os < 2 ^ 44 → userDelta self os < 2 ^ 44 →
        pk + pu ≤ 100 * (kernelDelta self os + userDelta self os) / systemDelta self os) := by
  obtain ⟨pk, pu, hpk, hpu, hle⟩ := cpuPercent_sum_le_hundred hs hsum
  have hK : (GetStats self os).1.CPU_KERNPERCENT = some pk := by
    rw [GetStats_kernPercent_eq]
    exact hpk
  have hU : (GetStats self os).1.CPU_USERPERCENT = some pu := by
    rw [GetStats_userPercent_eq]
    exact hpu
  have hplot : plottedSum (GetStats self os).1 = some (pk + pu) :=
    plottedSum_of_small hK hU (by omega)
  refine ⟨pk, pu, hK, hU, hplot, ?_, hle, ?_⟩
  · intro index
    show (plottedSum _).map Dbl.ofU64 = _
    rw [hplot, Option.map_some']
    unfold Dbl.ofU64
    rw [rnd_natCast (by omega)]
  · intro hk44 hu44
    obtain ⟨qk, hqk, hqkle⟩ := cpuPercent_le_floor hs hk44
    obtain ⟨qu, hqu, hqule⟩ := cpuPercent_le_floor hs hu44
    rw [hpk] at hqk
    rw [hpu] at hqu
    have e1 : pk = qk := Option.some.inj hqk
    have e2 : pu = qu := Option.some.inj hqu
    have h3 := add_div_le_div_add (100 * kernelDelta self os) (100 * userDelta self os)
      (systemDelta self os) hs
    rw [Nat.mul_add]
    omega

/-- C25 at a concrete sample: one second elapsed, the kernel time advanced by 0.3 s and the
user time by 0.5 s. -/
theorem plotted_sum_bounded_witness :
    0 < systemDelta (samplerAt 0 0 0 (ioOf 0 0 0 0)) (readingAt 10000000 3000000 5000000 none) ∧
    kernelDelta (samplerAt 0 0 0 (ioOf 0 0 0 0)) (readingAt 10000000 3000000 5000000 none) +
      userDelta (samplerAt 0 0 0 (ioOf 0 0 0 0)) (readingAt 10000000 3000000 5000000 none) ≤
      systemDelta (samplerAt 0 0 0 (ioOf 0 0 0 0)) (readingAt 10000000 3000000 5000000 none) ∧
    ∃ p, plottedSum (GetStats (samplerAt 0 0 0 (ioOf 0 0 0 0))
        (readingAt 10000000 3000000 5000000 none)).1 = some p ∧ p ≤ 100 ∧ p ≤ 80 := by
  have hs : systemDelta (samplerAt 0 0 0 (ioOf 0 0 0 0))
      (readingAt 10000000 3000000 5000000 none) = 10000000 := by
    simp [systemDelta, samplerAt, readingAt, sub64]
  have hk : kernelDelta (samplerAt 0 0 0 (ioOf 0 0 0 0))
      (readingAt 10000000 3000000 5000000 none) = 3000000 := by
    simp [kernelDelta, samplerAt, readingAt, sub64]
  have hu : userDelta (samplerAt 0 0 0 (ioOf 0 0 0 0))
      (readingAt 10000000 3000000 5000000 none) = 5000000 := by
    simp [userDelta, samplerAt, readingAt, sub64]
  have h1 : 0 < systemDelta (samplerAt 0 0 0 (ioOf 0 0 0 0))
      (readingAt 10000000 3000000 5000000 none) := by
    rw [hs]; norm_num
  have h2 : kernelDelta (samplerAt 0 0 0 (ioOf 0 0 0 0))
        (readingAt 10000000 3000000 5000000 none) +
      userDelta (samplerAt 0 0 0 (ioOf 0 0 0 0)) (readingAt 10000000 3000000 5000000 none) ≤
      systemDelta (samplerAt 0 0 0 (ioOf 0 0 0 0))
        (readingAt 10000000 3000000 5000000 none) := by
    rw [hs, hk, hu]
    norm_num
  obtain ⟨pk, pu, -, -, hplot, -, hle, hfloor⟩ :=
    plotted_sum_bounded (samplerAt 0 0 0 (ioOf 0 0 0 0))
      (readingAt 10000000 3000000 5000000 none) h1 h2
  have h3 := hfloor (by rw [hk]; norm_num) (by rw [hu]; norm_num)
  rw [hs, hk, hu] at h3
  exact ⟨h1, h2, pk + pu, hplot, hle, by omega⟩

end AIHealthops
